import Mathlib

/-!
# Recommendation subsystem of the travel-discovery backend

A shallow embedding of `src/services/recommendation.service.js`, of the operations of
`src/services/like.service.js` on the liked discoveries of a profile, of the tracking
operations of `src/services/user_behavior.service.js` and of the recommendation handlers of
`src/controllers/discovery.controller.js`, over an explicit database state.

Modelling conventions

* A table is the list of its rows in stored order.  User ids and item ids are natural
  numbers; a nullable column is an `Option`.
* `rating` is a `FLOAT` column; a rating is given by the rational it is written as, and the
  orderings by rating and the thresholds of the tracking operations compare these rationals.
* The weights and scores of `getPersonalizedDiscoveries` are JavaScript numbers, binary64
  doubles, each denoted by the rational it equals: a rating is read as the nearest double,
  and `/` and `+` give the exact result rounded to the nearest double, ties to even.  The
  infinities and `NaN` do not arise from ratings in the range of the column and are not
  modelled.
* `ORDER BY key DESC` is a stable descending sort of the stored rows (the database leaves
  the order of ties open; the model keeps stored order among ties).  `GROUP BY` lists the
  groups in order of first occurrence.
* `LIMIT n` keeps the first `n` rows; a negative `n` is rejected by the database, which the
  service turns into its own error.
* The score objects of `getPersonalizedDiscoveries` are association lists in insertion
  order; keys that collide with members of `Object.prototype` or that look like array
  indices are outside the model.
* The body of a tracking request is a typed record: strings, rational numbers and flags,
  each optional field present or absent.  A write operation returns the state after it
  together with its result, since a failed operation may already have created a row.
* `toLowerCase` folds ASCII letters only, and stored strings are taken to fit their columns.
* `Object.entries` of an object whose keys are item ids lists the keys in ascending order
  (integer keys below `2^32 - 1`).  Integers are exact: `parseInt` is modelled without the
  rounding of numbers beyond `2^53`.
* A request carries the user id of the header `x-user-id`, when present, as a number, and
  the raw text of the query parameter `limit`, when present.
* The `recommendations` table is a state of its own, apart from the three tables of `Db`; the
  validator `isUrl` of the library is a parameter.
-/

namespace Backend

/-! ## Data model (`src/models`) -/

/-- Row of the `likes` table (`models/like.model.js`). -/
structure Like where
  userId : Nat
  discoveryId : Option Nat
  recommendationId : Option Nat
  deriving DecidableEq, Repr

/-- Row of the `discoveries` table (`models/discovery.model.js`), restricted to the columns
the recommendation service reads. -/
structure Discovery where
  id : Nat
  category : String
  location : String
  rating : ℚ
  price : String
  tags : List String
  trending : Bool
  deriving DecidableEq

/-- Row of the `user_preferences` table (`models/user_preferences.model.js`). -/
structure UserPreferences where
  userId : Nat
  preferredBudget : Option String
  preferredLocations : Option (List String)
  preferredCategories : Option (List String)
  minRating : Option ℚ
  preferredDuration : Option String
  preferredCrowdLevel : Option String
  preferredTimeOfDay : Option String
  instagrammable : Bool
  trending : Bool
  exclusive : Bool
  likedDiscoveries : Option (List Nat)
  likedRecommendations : Option (List Nat)
  deriving DecidableEq

/-- Database state: the three tables the modelled services touch. -/
structure Db where
  likes : List Like
  discoveries : List Discovery
  userPreferences : List UserPreferences

/-! ## Query primitives -/

/-- Order `a` before `b` when the key of `a` is at least the key of `b`. -/
def byKeyDesc {α β : Type} [LinearOrder β] (key : α → β) (a b : α) : Prop := key b ≤ key a

instance byKeyDesc.decidableRel {α β : Type} [LinearOrder β] (key : α → β) :
    DecidableRel (byKeyDesc key) := fun a b => inferInstanceAs (Decidable (key b ≤ key a))

instance byKeyDesc.isTotal {α β : Type} [LinearOrder β] (key : α → β) :
    IsTotal α (byKeyDesc key) := ⟨fun a b => le_total (key b) (key a)⟩

instance byKeyDesc.isTrans {α β : Type} [LinearOrder β] (key : α → β) :
    IsTrans α (byKeyDesc key) := ⟨fun _ _ _ hab hbc => le_trans hbc hab⟩

/-- Stable descending sort: `ORDER BY key DESC`, and `Array.prototype.sort` with the
comparator `(a, b) => key(b) - key(a)`. -/
def orderByDesc {α β : Type} [LinearOrder β] (key : α → β) (rows : List α) : List α :=
  List.insertionSort (byKeyDesc key) rows

/-- The clause `LIMIT limit`. -/
def sqlLimit {α : Type} (limit : Int) (rows : List α) : Except String (List α) :=
  if limit < 0 then .error "LIMIT must not be negative" else .ok (rows.take limit.toNat)

/-- Distinct elements in order of first occurrence: `[...new Set(xs)]`, and the groups of a
`GROUP BY`. -/
def uniq {α : Type} [DecidableEq α] : List α → List α
  | [] => []
  | a :: l => a :: (uniq l).filter (fun b => b ≠ a)

/-- Grouping `GROUP BY key` with `COUNT(key)`: each distinct key with its number of rows. -/
def groupCount {α : Type} [DecidableEq α] (keys : List α) : List (α × Nat) :=
  (uniq keys).map (fun k => (k, keys.count k))

/-- The condition `column IN (ids)` on a nullable column: never true on `NULL`. -/
def sqlIn (column : Option Nat) (ids : List Nat) : Bool :=
  match column with
  | some v => decide (v ∈ ids)
  | none => false

/-- JavaScript truthiness of a nullable integer: `null` and `0` are falsy. -/
def truthyId (column : Option Nat) : Option Nat :=
  match column with
  | some v => if v = 0 then none else some v
  | none => none

/-- The call `xs.slice(0, n)`: a negative `n` counts from the end. -/
def jsSlice {α : Type} (xs : List α) (n : Int) : List α :=
  if 0 ≤ n then xs.take n.toNat else xs.take (xs.length - (-n).toNat)

/-- The power `2 ^ s` of an integer exponent, as a rational. -/
def pow2 (s : Int) : ℚ :=
  if 0 ≤ s then ((2 ^ s.toNat : Nat) : ℚ) else 1 / ((2 ^ (-s).toNat : Nat) : ℚ)

/-- The number of binary digits of `n`, counted with the fuel `fuel` (enough when
`n ≤ fuel`). -/
def bitLength : Nat → Nat → Nat
  | 0, _ => 0
  | fuel + 1, n => if n = 0 then 0 else bitLength fuel (n / 2) + 1

/-- The binary exponent of a positive rational `a`: the integer `e` with
`2 ^ e ≤ a < 2 ^ (e + 1)`. -/
def binaryExponent (a : ℚ) : Int :=
  let k : Int := (bitLength a.num.natAbs a.num.natAbs : Int) - (bitLength a.den a.den : Int)
  if pow2 k ≤ a then k else k - 1

/-- The integer nearest to `x`; of the two nearest ones the even one when `x` lies halfway. -/
def roundHalfEven (x : ℚ) : Int :=
  let f := Rat.floor x
  if x - f < 1 / 2 then f
  else if 1 / 2 < x - f then f + 1
  else if f % 2 = 0 then f else f + 1

/-- The binary64 double nearest to `q`, ties to even: a multiple of `2 ^ (e - 52)`, where `e`
is the binary exponent of `q`, not below the exponent `-1022` of the subnormal numbers. -/
def toDouble (q : ℚ) : ℚ :=
  if q = 0 then 0
  else
    let s := max (binaryExponent |q|) (-1022) - 52
    (roundHalfEven (q / pow2 s) : ℚ) * pow2 s

/-- The operator `+` on numbers. -/
def numberAdd (x y : ℚ) : ℚ := toDouble (x + y)

/-- The operator `/` on numbers, for a divisor other than zero. -/
def numberDiv (x y : ℚ) : ℚ := toDouble (x / y)

/-- White space of the language: the characters `parseInt` skips at the start of its
argument and the class `\s` of a regular expression. -/
def isWhiteSpace (c : Char) : Bool :=
  decide (c.toNat ∈ [0x09, 0x0A, 0x0B, 0x0C, 0x0D, 0x20, 0xA0, 0x1680, 0x2028, 0x2029, 0x202F,
    0x205F, 0x3000, 0xFEFF]) || (decide (0x2000 ≤ c.toNat) && decide (c.toNat ≤ 0x200A))

/-- Value of a character as a digit of the radix: `0`-`9`, then the letters in either case. -/
def digitOf (radix : Nat) (c : Char) : Option Nat :=
  let value :=
    if 48 ≤ c.toNat ∧ c.toNat ≤ 57 then some (c.toNat - 48)
    else if 97 ≤ c.toNat ∧ c.toNat ≤ 122 then some (c.toNat - 87)
    else if 65 ≤ c.toNat ∧ c.toNat ≤ 90 then some (c.toNat - 55)
    else none
  match value with
  | some d => if d < radix then some d else none
  | none => none

/-- The values of the longest initial run of digits of the radix. -/
def leadingDigits (radix : Nat) : List Char → List Nat
  | [] => []
  | c :: cs =>
    match digitOf radix c with
    | some d => d :: leadingDigits radix cs
    | none => []

/-- The built-in `parseInt(text)` without a radix argument; `none` stands for `NaN`.  Leading
white space is skipped, a sign is read, the prefix `0x` selects radix 16, and the longest run
of digits that follows is the number; what comes after it is ignored. -/
def parseInt (text : String) : Option Int :=
  let trimmed := text.toList.dropWhile isWhiteSpace
  let negative := decide (trimmed.head? = some '-')
  let unsigned :=
    if trimmed.head? = some '-' ∨ trimmed.head? = some '+' then trimmed.tail else trimmed
  let hex := decide (unsigned.take 2 = ['0', 'x'] ∨ unsigned.take 2 = ['0', 'X'])
  let radix : Nat := if hex then 16 else 10
  let body := if hex then unsigned.drop 2 else unsigned
  let digits := leadingDigits radix body
  if digits = [] then none
  else
    let value : Int := ((digits.foldl (fun acc d => acc * radix + d) 0 : Nat) : Int)
    some (if negative then -value else value)

/-- The condition `tags && ARRAY[...]` (`Op.overlap`): the two arrays share an element. -/
def overlap (tags wanted : List String) : Bool :=
  tags.any (fun t => decide (t ∈ wanted))

/-- Replace the message of a failed store access by the service's own message. -/
def rethrow {α : Type} (message : String) (r : Except String α) : Except String α :=
  match r with
  | .ok v => .ok v
  | .error _ => .error message

namespace RecommendationService

/-! ## `src/services/recommendation.service.js` -/

/-- The like rows of `userId`: `Like.findAll({ where: { userId } })`. -/
def likesOf (db : Db) (userId : Nat) : List Like :=
  db.likes.filter (fun l => l.userId = userId)

/-- The like rows the similarity query matches: rows of other users whose discovery id or
recommendation id is among the target user's. -/
def matchingLikes (db : Db) (userId : Nat) (likedDiscoveryIds likedRecommendationIds : List Nat) :
    List Like :=
  db.likes.filter (fun l =>
    decide (l.userId ≠ userId) &&
      (sqlIn l.discoveryId likedDiscoveryIds || sqlIn l.recommendationId likedRecommendationIds))

/-- Embedding of `findSimilarUsers(userId, limit)`. -/
def findSimilarUsers (db : Db) (userId : Nat) (limit : Int) : Except String (List Nat) :=
  let userLikes := likesOf db userId
  if userLikes.length = 0 then .ok []
  else
    let likedDiscoveryIds := userLikes.filterMap (fun l => truthyId l.discoveryId)
    let likedRecommendationIds := userLikes.filterMap (fun l => truthyId l.recommendationId)
    let similarUsers :=
      sqlLimit limit
        (orderByDesc Prod.snd
          (groupCount ((matchingLikes db userId likedDiscoveryIds likedRecommendationIds).map
            (fun l => l.userId))))
    match similarUsers with
    | .ok rows => .ok (rows.map Prod.fst)
    | .error _ => .error "Failed to find similar users"

/-- The trending fallback:
`Discovery.findAll({ where: { trending: true }, order: [['rating', 'DESC']], limit })`. -/
def trendingDiscoveries (db : Db) (limit : Int) : Except String (List Discovery) :=
  sqlLimit limit (orderByDesc (fun d => d.rating) (db.discoveries.filter (fun d => d.trending)))

/-- The discovery-like rows of `userId`:
`Like.findAll({ where: { userId, discoveryId: { [Op.ne]: null } } })`. -/
def discoveryLikesOf (db : Db) (userId : Nat) : List Like :=
  db.likes.filter (fun l => decide (l.userId = userId) && l.discoveryId.isSome)

/-- Discovery ids of the rows of similar users, most frequent first, cut to `limit * 2`. -/
def similarUserLikes (db : Db) (similarUserIds : List Nat) (limit : Int) :
    Except String (List (Nat × Nat)) :=
  sqlLimit (limit * 2)
    (orderByDesc Prod.snd
      (groupCount
        ((db.likes.filter (fun l => decide (l.userId ∈ similarUserIds) && l.discoveryId.isSome)).filterMap
          (fun l => l.discoveryId))))

/-- Embedding of `getCollaborativeRecommendations(userId, limit)`. -/
def getCollaborativeRecommendations (db : Db) (userId : Nat) (limit : Int) :
    Except String (List Discovery) :=
  match findSimilarUsers db userId 20 with
  | .error _ => .error "Failed to get collaborative recommendations"
  | .ok similarUserIds =>
    if similarUserIds.length = 0 then
      rethrow "Failed to get collaborative recommendations" (trendingDiscoveries db limit)
    else
      match similarUserLikes db similarUserIds limit with
      | .error _ => .error "Failed to get collaborative recommendations"
      | .ok rows =>
        let userLikedDiscoveryIds := (discoveryLikesOf db userId).filterMap (fun l => l.discoveryId)
        let recommendedDiscoveryIds :=
          jsSlice ((rows.map Prod.fst).filter (fun id => decide (id ∉ userLikedDiscoveryIds))) limit
        .ok (orderByDesc (fun d => d.rating)
          (db.discoveries.filter (fun d => decide (d.id ∈ recommendedDiscoveryIds))))

/-- The association `include: [{ model: Discovery, as: 'discovery' }]` of a like row: the
discovery the row points to, if it exists. -/
def likedDiscovery (db : Db) (l : Like) : Option Discovery :=
  match l.discoveryId with
  | some d => db.discoveries.find? (fun x => decide (x.id = d))
  | none => none

/-- The discoveries joined to the discovery-like rows of `userId`, one per row that has one. -/
def likedDiscoveries (db : Db) (userId : Nat) : List Discovery :=
  (discoveryLikesOf db userId).filterMap (likedDiscovery db)

/-- Embedding of `getDiscoveryBasedRecommendations(userId, limit)`. -/
def getDiscoveryBasedRecommendations (db : Db) (userId : Nat) (limit : Int) :
    Except String (List Discovery) :=
  let userLikes := discoveryLikesOf db userId
  if userLikes.length = 0 then
    rethrow "Failed to get discovery-based recommendations" (trendingDiscoveries db limit)
  else
    let liked := likedDiscoveries db userId
    let tags := uniq (liked.map (fun d => d.tags)).flatten
    let categories := uniq (liked.map (fun d => d.category))
    let locations := uniq (liked.map (fun d => d.location))
    let priceRanges := uniq (liked.map (fun d => d.price))
    let userLikedDiscoveryIds := userLikes.filterMap (fun l => l.discoveryId)
    rethrow "Failed to get discovery-based recommendations"
      (sqlLimit limit
        (orderByDesc (fun d => d.rating)
          (db.discoveries.filter (fun d =>
            decide (d.id ∉ userLikedDiscoveryIds) &&
              (overlap d.tags tags || decide (d.category ∈ categories) ||
                decide (d.location ∈ locations) || decide (d.price ∈ priceRanges))))))

/-- The update `scores[key] = (scores[key] || 0) + weight` on a score object. -/
def addScore (scores : List (String × ℚ)) (key : String) (weight : ℚ) : List (String × ℚ) :=
  if scores.any (fun p => decide (p.1 = key)) then
    scores.map (fun p => if p.1 = key then (p.1, numberAdd p.2 weight) else p)
  else scores ++ [(key, numberAdd 0 weight)]

/-- The object `preferenceScores`. -/
structure PreferenceScores where
  tags : List (String × ℚ)
  categories : List (String × ℚ)
  locations : List (String × ℚ)
  priceRanges : List (String × ℚ)

/-- The constant `weight = like.discovery.rating / 5` of a liked discovery. -/
def likeWeight (d : Discovery) : ℚ :=
  numberDiv (toDouble d.rating) 5

/-- One iteration of `userLikes.forEach` for a row whose discovery exists. -/
def scoreLike (scores : PreferenceScores) (d : Discovery) : PreferenceScores :=
  let weight := likeWeight d
  { tags := d.tags.foldl (fun acc tag => addScore acc tag weight) scores.tags
    categories := addScore scores.categories d.category weight
    locations := addScore scores.locations d.location weight
    priceRanges := addScore scores.priceRanges d.price weight }

/-- The object `preferenceScores` after the loop over the user's like rows. -/
def preferenceScores (db : Db) (userId : Nat) : PreferenceScores :=
  (likedDiscoveries db userId).foldl scoreLike
    { tags := [], categories := [], locations := [], priceRanges := [] }

/-- The expression `Object.keys(scores).sort((a, b) => scores[b] - scores[a]).slice(0, n)`. -/
def topKeys (scores : List (String × ℚ)) (n : Nat) : List String :=
  ((orderByDesc Prod.snd scores).map Prod.fst).take n

/-- Embedding of `getPersonalizedDiscoveries(userId, limit)`. -/
def getPersonalizedDiscoveries (db : Db) (userId : Nat) (limit : Int) :
    Except String (List Discovery) :=
  let userLikes := discoveryLikesOf db userId
  if userLikes.length = 0 then
    rethrow "Failed to get personalized discoveries" (trendingDiscoveries db limit)
  else
    let scores := preferenceScores db userId
    let topTags := topKeys scores.tags 5
    let topCategories := topKeys scores.categories 3
    let topLocations := topKeys scores.locations 3
    let userLikedDiscoveryIds := userLikes.filterMap (fun l => l.discoveryId)
    rethrow "Failed to get personalized discoveries"
      (sqlLimit limit
        (orderByDesc (fun d => d.rating)
          (db.discoveries.filter (fun d =>
            decide (d.id ∉ userLikedDiscoveryIds) &&
              (overlap d.tags topTags || decide (d.category ∈ topCategories) ||
                decide (d.location ∈ topLocations))))))

/-- The discovery ids `userId` has liked: the non-null `discoveryId`s of the user's like rows. -/
def likedDiscoveryIds (db : Db) (userId : Nat) : List Nat :=
  (likesOf db userId).filterMap (fun l => l.discoveryId)

/-- Discovery ids liked by the users `similarUserIds`, most frequently liked first: the query
of `similarUserLikes` without its `LIMIT`.  Ids of equal frequency stand in order of first
occurrence, which is the choice of the model; the database leaves their order open. -/
def idsByFrequency (db : Db) (similarUserIds : List Nat) : List Nat :=
  (orderByDesc Prod.snd
    (groupCount
      ((db.likes.filter (fun l => decide (l.userId ∈ similarUserIds) && l.discoveryId.isSome)).filterMap
        (fun l => l.discoveryId)))).map Prod.fst

/-- The selection C4 describes: the first `limit` of all frequency-ordered ids the user has
not liked. -/
def claimedSelection (db : Db) (userId : Nat) (similarUserIds : List Nat) (limit : Int) :
    List Nat :=
  ((idsByFrequency db similarUserIds).filter
    (fun id => decide (id ∉ likedDiscoveryIds db userId))).take limit.toNat

/-- The not-yet-liked ids among the first `2 * limit` frequency-ordered ids, in the order of
`idsByFrequency`. -/
def freshAmongTop (db : Db) (userId : Nat) (similarUserIds : List Nat) (limit : Int) : List Nat :=
  ((idsByFrequency db similarUserIds).take (limit * 2).toNat).filter
    (fun id => decide (id ∉ likedDiscoveryIds db userId))

/-- The discovery ids named by the like rows of the users `similarUserIds`, one per row: the
rows the frequency query of the collaborative strategy groups. -/
def similarLikedIds (db : Db) (similarUserIds : List Nat) : List Nat :=
  (db.likes.filter (fun l => decide (l.userId ∈ similarUserIds) && l.discoveryId.isSome)).filterMap
    (fun l => l.discoveryId)

/-- Like-frequency of a discovery among the users `similarUserIds`: the number of their like
rows that name it. -/
def likeFrequency (db : Db) (similarUserIds : List Nat) (id : Nat) : Nat :=
  (similarLikedIds db similarUserIds).count id

/-- The candidates of the collaborative strategy: the distinct discovery ids liked by the
users `similarUserIds`. -/
def candidateIds (db : Db) (similarUserIds : List Nat) : List Nat :=
  uniq (similarLikedIds db similarUserIds)

/-- The not-yet-liked candidates that stand among the `2 * limit` most frequently liked ones
however the database orders ids of equal frequency: fewer than `2 * limit` other candidates
are liked at least as often. -/
def surelyFetched (db : Db) (userId : Nat) (similarUserIds : List Nat) (limit : Int) : List Nat :=
  (candidateIds db similarUserIds).filter (fun c =>
    decide (c ∉ likedDiscoveryIds db userId ∧
      ((candidateIds db similarUserIds).filter (fun c2 =>
        decide (c2 ≠ c ∧ likeFrequency db similarUserIds c ≤ likeFrequency db similarUserIds c2))).length <
          (limit * 2).toNat))

/-- The discovery `d` matches the liked discovery `l` on at least one axis: a shared tag, or
the same category, location or price. -/
def matchesOn (d l : Discovery) : Prop :=
  (∃ t ∈ d.tags, t ∈ l.tags) ∨ d.category = l.category ∨ d.location = l.location ∨
    d.price = l.price

instance matchesOn.decidable (d l : Discovery) : Decidable (matchesOn d l) := by
  unfold matchesOn
  infer_instance

/-- The candidates C7 describes: the catalog discoveries the user has not liked that match
some liked discovery on at least one axis. -/
def signatureCandidates (db : Db) (userId : Nat) : List Discovery :=
  db.discoveries.filter (fun d =>
    decide (d.id ∉ likedDiscoveryIds db userId ∧ ∃ l ∈ likedDiscoveries db userId, matchesOn d l))

/-- The value `scores[key]` of a score object, `0` when the key is absent. -/
def scoreOf : List (String × ℚ) → String → ℚ
  | [], _ => 0
  | p :: ps, key => if p.1 = key then p.2 else scoreOf ps key

/-- Modelled from the spec: the sum of `rating / 5` over the liked discoveries that carry a
key, in the arithmetic of the code: the weights of those discoveries, added one by one in the
order of the like rows, starting from 0. -/
def claimedScore (liked : List Discovery) (carries : Discovery → Bool) : ℚ :=
  ((liked.filter carries).map likeWeight).foldl numberAdd 0

/-- The list `top` is a choice of the `n` best keys of `scores`: distinct keys of `scores`, at
most `n` of them, no key left out scores strictly higher than a chosen one, and every key is
chosen when there are at most `n`. -/
def IsTopSelection (scores : List (String × ℚ)) (n : Nat) (top : List String) : Prop :=
  top.Nodup ∧ top.length ≤ n ∧ (∀ k ∈ top, k ∈ scores.map Prod.fst) ∧
    (∀ k ∈ top, ∀ k2 ∈ scores.map Prod.fst, k2 ∉ top → scoreOf scores k2 ≤ scoreOf scores k) ∧
    ((scores.map Prod.fst).length ≤ n → ∀ k ∈ scores.map Prod.fst, k ∈ top)

/-- The catalogs `ds1` and `ds2` hold the same rows in the same order, except for the `price`
of the rows whose id is in `liked`. -/
def DiffersOnlyInLikedPrice (liked : List Nat) (ds1 ds2 : List Discovery) : Prop :=
  List.Forall₂ (fun a b => { a with price := b.price } = b ∧ (a.id ∉ liked → a.price = b.price))
    ds1 ds2

/-- The two item spaces of likeable content. -/
inductive ItemSpace where
  | discovery
  | recommendation
  deriving DecidableEq, Repr

/-- The (item space, item id) pairs `userId` has liked, as `findSimilarUsers` extracts them
from the user's like rows: a `null` or zero id names no item. -/
def likedItems (db : Db) (userId : Nat) : List (ItemSpace × Nat) :=
  ((likesOf db userId).filterMap (fun l => truthyId l.discoveryId)).map
      (fun v => (ItemSpace.discovery, v)) ++
    ((likesOf db userId).filterMap (fun l => truthyId l.recommendationId)).map
      (fun v => (ItemSpace.recommendation, v))

/-- Overlap count: the number of distinct items liked by `userId` that `other` liked too. -/
def overlapCount (db : Db) (userId other : Nat) : Nat :=
  ((uniq (likedItems db userId)).filter (fun i => decide (i ∈ likedItems db other))).length

/-- Invariants of the `likes` table: a like record names one item (not both a discovery and a
recommendation), and the two unique indexes of `models/like.model.js`, on
`(userId, discoveryId)` and on `(userId, recommendationId)`, where `NULL`s never collide. -/
def LikesWellFormed (likes : List Like) : Prop :=
  (∀ l ∈ likes, l.discoveryId = none ∨ l.recommendationId = none) ∧
  likes.Pairwise (fun a b =>
    a.userId = b.userId → a.discoveryId = b.discoveryId → a.discoveryId = none) ∧
  likes.Pairwise (fun a b =>
    a.userId = b.userId → a.recommendationId = b.recommendationId → a.recommendationId = none)

instance LikesWellFormed.decidable (likes : List Like) : Decidable (LikesWellFormed likes) := by
  unfold LikesWellFormed
  infer_instance

/-- The item a like record names (meaningful on records that name one). -/
def itemOf (l : Like) : ItemSpace × Nat :=
  match truthyId l.discoveryId with
  | some v => (ItemSpace.discovery, v)
  | none => (ItemSpace.recommendation, (truthyId l.recommendationId).getD 0)

/-- The `COUNT(userId)` that the similarity query of `userId` computes for the group of
`other`: the number of like rows of `other` the query matches. -/
def computedOverlap (db : Db) (userId other : Nat) : Nat :=
  ((matchingLikes db userId
    ((likesOf db userId).filterMap (fun l => truthyId l.discoveryId))
    ((likesOf db userId).filterMap (fun l => truthyId l.recommendationId))).map
      (fun l => l.userId)).count other

/-! ### The update of a recommendation -/

/-- Row of the `recommendations` table (`models/recommendation.model.js`). -/
structure Recommendation where
  id : Nat
  title : String
  description : String
  rating : ℚ
  price : String
  location : String
  duration : String
  tags : List String
  trending : Bool
  image : String
  deriving DecidableEq

/-- The field `tags` of a request body: absent, a value that is not an array, or an array. -/
inductive TagsField where
  | absent
  | notArray
  | array (tags : List String)
  deriving DecidableEq

/-- Body of an update request: each column present with a value of its type, or absent. -/
structure RecommendationData where
  title : Option String
  description : Option String
  rating : Option ℚ
  price : Option String
  location : Option String
  duration : Option String
  tags : TagsField
  trending : Option Bool
  image : Option String
  deriving DecidableEq

/-- The validator `notEmpty`: the text is not made of white space only. -/
def notEmpty (text : String) : Bool :=
  text.toList.any (fun c => !isWhiteSpace c)

/-- The model validators run by `recommendation.update(...)` on the keys it is given:
`notEmpty` of title, description, location and duration, `min: 0, max: 5` of the rating,
`isIn` of the price, `isUrl` and `notEmpty` of the image.  The columns `tags` and `trending`
have no validator. -/
def validateRecommendation (isUrl : String → Bool) (data : RecommendationData) : Bool :=
  (match data.title with
    | some t => notEmpty t
    | none => true) &&
  (match data.description with
    | some d => notEmpty d
    | none => true) &&
  (match data.rating with
    | some r => decide (0 ≤ r) && decide (r ≤ 5)
    | none => true) &&
  (match data.price with
    | some p => decide (p ∈ ["$", "$$", "$$$", "$$$$"])
    | none => true) &&
  (match data.location with
    | some l => notEmpty l
    | none => true) &&
  (match data.duration with
    | some d => notEmpty d
    | none => true) &&
  (match data.image with
    | some i => isUrl i && notEmpty i
    | none => true)

/-- The row after `recommendation.update({ ...data, tags })` has written its keys. -/
def writeRecommendation (row : Recommendation) (data : RecommendationData)
    (tags : List String) : Recommendation :=
  { row with
    title := data.title.getD row.title
    description := data.description.getD row.description
    rating := data.rating.getD row.rating
    price := data.price.getD row.price
    location := data.location.getD row.location
    duration := data.duration.getD row.duration
    tags := tags
    trending := data.trending.getD row.trending
    image := data.image.getD row.image }

/-- Embedding of `updateRecommendation(id, data)` over the rows of the `recommendations`
table: the rows after the call and its result, where `none` stands for `null`.  A rejected
update throws the validation error, whose detail text is not modelled. -/
def updateRecommendation (isUrl : String → Bool) (rows : List Recommendation) (id : Nat)
    (data : RecommendationData) : List Recommendation × Except String (Option Recommendation) :=
  match rows.find? (fun r => decide (r.id = id)) with
  | none => (rows, .ok none)
  | some recommendation =>
    let tags :=
      match data.tags with
      | .array tags => tags
      | _ => []
    if validateRecommendation isUrl data then
      (rows.map (fun r => if r.id = id then writeRecommendation recommendation data tags else r),
        .ok (some (writeRecommendation recommendation data tags)))
    else (rows, .error "Validation error")

end RecommendationService

namespace LikeService

/-! ## `src/services/like.service.js` -/

/-- Result object of the like operations. -/
structure LikeResult where
  success : Bool
  message : String
  deriving DecidableEq

/-- The row stored by `UserPreferences.create({ userId, preferredLocations: [], ... })`: the
given fields, and the column defaults for the others. -/
def newPreferences (userId : Nat) : UserPreferences where
  userId := userId
  preferredBudget := none
  preferredLocations := some []
  preferredCategories := some []
  minRating := some 3
  preferredDuration := none
  preferredCrowdLevel := none
  preferredTimeOfDay := none
  instagrammable := false
  trending := false
  exclusive := false
  likedDiscoveries := some []
  likedRecommendations := some []

/-- The call `preferences.update(...)` on the row that
`UserPreferences.findOne({ where: { userId } })` returned: the first row of the user. -/
def updateFirst (rows : List UserPreferences) (userId : Nat)
    (f : UserPreferences → UserPreferences) : List UserPreferences :=
  match rows with
  | [] => []
  | p :: ps => if p.userId = userId then f p :: ps else p :: updateFirst ps userId f

/-- Embedding of `likeDiscovery(userId, discoveryId)`: the new database state and the result
object. -/
def likeDiscovery (db : Db) (userId discoveryId : Nat) : Db × LikeResult :=
  let rows :=
    match db.userPreferences.find? (fun p => decide (p.userId = userId)) with
    | some _ => db.userPreferences
    | none => db.userPreferences ++ [newPreferences userId]
  let updated :=
    updateFirst rows userId (fun p =>
      { p with likedDiscoveries := some (uniq (p.likedDiscoveries.getD [] ++ [discoveryId])) })
  ({ db with userPreferences := updated },
    { success := true, message := "Discovery liked successfully" })

/-- Embedding of `likeRecommendation(userId, recommendationId)`. -/
def likeRecommendation (db : Db) (userId recommendationId : Nat) : Db × LikeResult :=
  let rows :=
    match db.userPreferences.find? (fun p => decide (p.userId = userId)) with
    | some _ => db.userPreferences
    | none => db.userPreferences ++ [newPreferences userId]
  let updated :=
    updateFirst rows userId (fun p =>
      { p with
        likedRecommendations := some (uniq (p.likedRecommendations.getD [] ++ [recommendationId])) })
  ({ db with userPreferences := updated },
    { success := true, message := "Recommendation liked successfully" })

/-- Embedding of `unlikeDiscovery(userId, discoveryId)`. -/
def unlikeDiscovery (db : Db) (userId discoveryId : Nat) : Db × LikeResult :=
  match db.userPreferences.find? (fun p => decide (p.userId = userId)) with
  | none => (db, { success := false, message := "User preferences not found" })
  | some _ =>
    ({ db with
        userPreferences :=
          updateFirst db.userPreferences userId (fun p =>
            { p with
              likedDiscoveries :=
                some ((p.likedDiscoveries.getD []).filter (fun id => decide (id ≠ discoveryId))) }) },
      { success := true, message := "Discovery unliked successfully" })

/-- Embedding of `getDiscoveryLikeCount(discoveryId)`: the number of rows whose array
`likedDiscoveries` has the id. -/
def getDiscoveryLikeCount (db : Db) (discoveryId : Nat) : Nat :=
  db.userPreferences.countP (fun pref =>
    (pref.likedDiscoveries.getD []).any (fun id => decide (id = discoveryId)))

/-- The entries `Object.entries(discoveryCounts)` of `getMostLikedDiscoveries`: every id that
occurs in an array `likedDiscoveries`, with the number of its occurrences over all rows; the
ids in ascending order. -/
def discoveryCounts (db : Db) : List (Nat × Nat) :=
  let ids := (db.userPreferences.map (fun pref => pref.likedDiscoveries.getD [])).flatten
  ((uniq ids).insertionSort (fun a b => a ≤ b)).map (fun id => (id, ids.count id))

/-- Entry of the result of `getMostLikedDiscoveries`. -/
structure LikedDiscovery where
  discoveryId : Nat
  likeCount : Nat
  deriving DecidableEq

/-- Embedding of `getMostLikedDiscoveries(limit)`. -/
def getMostLikedDiscoveries (db : Db) (limit : Int) : List LikedDiscovery :=
  (jsSlice (orderByDesc (fun entry => entry.2) (discoveryCounts db)) limit).map
    (fun entry => { discoveryId := entry.1, likeCount := entry.2 })

end LikeService

namespace DiscoveryController

/-! ## `src/controllers/discovery.controller.js` -/

/-- The expression `parseInt(req.query.limit) || 10` on the value of `parseInt`, where `none`
stands for `NaN`: `NaN` and `0` are falsy. -/
def limitOrDefault (parsed : Option Int) : Int :=
  match parsed with
  | none => 10
  | some n => if n = 0 then 10 else n

/-- The parts of a request the recommendation handlers read: the header `x-user-id` and the
query parameter `limit`. -/
structure Request where
  userId : Option Nat
  limit : Option String

/-- The status and the JSON body of a response. -/
structure Response (α : Type) where
  status : Nat
  success : Bool
  data : Option (List α)
  count : Option Nat
  type : Option String
  error : Option String

/-- The helper `getUserId(req)`. -/
def getUserId (req : Request) : Except String Nat :=
  match req.userId with
  | some userId => .ok userId
  | none => .error "User not authenticated"

/-- The constant `limit` of a handler: `parseInt(req.query.limit) || 10`. -/
def queryLimit (req : Request) : Int :=
  limitOrDefault (req.limit.bind parseInt)

/-- The response of a handler to the outcome of its `try` block: `res.json({ success: true,
data, count, type })`, and the two answers of the `catch` clause. -/
def respond {α : Type} (type : Option String) (outcome : Except String (List α)) : Response α :=
  match outcome with
  | .ok items =>
    { status := 200, success := true, data := some items, count := some items.length,
      type := type, error := none }
  | .error message =>
    if message = "User not authenticated" then
      { status := 401, success := false, data := none, count := none, type := none,
        error := some "User not authenticated" }
    else
      { status := 500, success := false, data := none, count := none, type := none,
        error := some message }

/-- Embedding of the handler `getPersonalizedRecommendations`. -/
def getPersonalizedRecommendations (db : Db) (req : Request) : Response Discovery :=
  respond (some "personalized_discoveries")
    ((getUserId req).bind (fun userId =>
      RecommendationService.getPersonalizedDiscoveries db userId (queryLimit req)))

/-- Embedding of the handler `getCollaborativeRecommendations`. -/
def getCollaborativeRecommendations (db : Db) (req : Request) : Response Discovery :=
  respond (some "collaborative_filtering")
    ((getUserId req).bind (fun userId =>
      RecommendationService.getCollaborativeRecommendations db userId (queryLimit req)))

/-- Embedding of the handler `getDiscoveryBasedRecommendations`. -/
def getDiscoveryBasedRecommendations (db : Db) (req : Request) : Response Discovery :=
  respond (some "discovery_based")
    ((getUserId req).bind (fun userId =>
      RecommendationService.getDiscoveryBasedRecommendations db userId (queryLimit req)))

/-- Embedding of the handler `getSimilarUsers`. -/
def getSimilarUsers (db : Db) (req : Request) : Response Nat :=
  respond none
    ((getUserId req).bind (fun userId =>
      RecommendationService.findSimilarUsers db userId (queryLimit req)))

/-- The character is one of the decimal digits `0` to `9`. -/
def IsDecimalDigit (c : Char) : Prop := 48 ≤ c.toNat ∧ c.toNat ≤ 57

instance (c : Char) : Decidable (IsDecimalDigit c) := by
  unfold IsDecimalDigit
  infer_instance

/-- Modelled from the spec: the text is a decimal numeral of the integer `n`, a non-empty run
of decimal digits whose value, most significant digit first, is `n`. -/
def IsNumeral (text : String) (n : Nat) : Prop :=
  text.toList ≠ [] ∧ (∀ c ∈ text.toList, IsDecimalDigit c) ∧
    Nat.ofDigits 10 (text.toList.map (fun c => c.toNat - 48)).reverse = n

instance (text : String) (n : Nat) : Decidable (IsNumeral text n) := by
  unfold IsNumeral
  infer_instance

/-- Modelled from the spec: the text is non-numeric, it does not begin with a number.  After
its leading white space and at most one sign it ends, or goes on with a character that is not
a decimal digit. -/
def IsNonNumeric (text : String) : Prop :=
  ∀ c rest,
    (match text.toList.dropWhile isWhiteSpace with
      | [] => []
      | first :: more => if first = '-' ∨ first = '+' then more else first :: more) = c :: rest →
    ¬ IsDecimalDigit c

end DiscoveryController

/-! ## Validators of `models/user_preferences.model.js` -/

/-- The list `allowed` of the validator `areValidCategories`. -/
def allowedCategories : List String :=
  ["adventure", "relaxation", "culture", "food", "nature", "nightlife", "shopping", "history"]

/-- The list of the validator `isIn` of `preferredBudget`. -/
def allowedBudgets : List String := ["$", "$$", "$$$", "$$$$"]

/-- The list of the validator `isIn` of `preferredTimeOfDay`. -/
def allowedTimesOfDay : List String := ["morning", "afternoon", "evening", "night", "flexible"]

namespace UserBehaviorService

/-! ## `src/services/user_behavior.service.js` -/

/-- Body of a track-view or track-like request.  An absent field is `none`; the three flags
are taken by their JavaScript truthiness. -/
structure BehaviorData where
  category : Option String
  location : Option String
  budget : Option String
  timeOfDay : Option String
  rating : Option ℚ
  instagrammable : Bool
  trending : Bool
  exclusive : Bool
  viewDuration : Option ℚ
  scrollDepth : Option ℚ
  deriving DecidableEq

/-- Body of a track-search request whose `searchTerm` is absent or a string; the other values
a body can carry there are the subject of `SearchTermField` and `trackSearchRaw`. -/
structure SearchData where
  searchTerm : Option String
  deriving DecidableEq

/-- JavaScript truthiness of an optional string: `undefined` and `''` are falsy. -/
def truthyString (s : Option String) : Option String :=
  match s with
  | some v => if v = "" then none else some v
  | none => none

/-- The expression `stored || fallback` on a nullable number: `null` and `0` are falsy. -/
def numberOr (stored : Option ℚ) (fallback : ℚ) : ℚ :=
  match stored with
  | some v => if v = 0 then fallback else v
  | none => fallback

/-- The object `updates`: the keys set so far with their values.  A flag is `true` when its
key has been set, which is always to `true`. -/
structure Updates where
  preferredCategories : Option (List String)
  preferredLocations : Option (List String)
  preferredBudget : Option String
  preferredTimeOfDay : Option String
  minRating : Option ℚ
  instagrammable : Bool
  trending : Bool
  exclusive : Bool
  deriving DecidableEq

/-- The test `Object.keys(updates).length > 0`, negated. -/
def Updates.isEmpty (u : Updates) : Bool :=
  u.preferredCategories.isNone && u.preferredLocations.isNone && u.preferredBudget.isNone &&
    u.preferredTimeOfDay.isNone && u.minRating.isNone && !u.instagrammable && !u.trending &&
    !u.exclusive

/-- The model validators run by `preferences.update(updates)` on the keys of `updates`:
`areValidCategories`, `isIn` of the budget and of the time of day, `min: 0, max: 5` of
`minRating`.  The other columns have no validator. -/
def validate (u : Updates) : Bool :=
  (match u.preferredCategories with
    | some cs => cs.all (fun c => decide (c ∈ allowedCategories))
    | none => true) &&
  (match u.preferredBudget with
    | some b => decide (b ∈ allowedBudgets)
    | none => true) &&
  (match u.preferredTimeOfDay with
    | some t => decide (t ∈ allowedTimesOfDay)
    | none => true) &&
  (match u.minRating with
    | some m => decide (0 ≤ m) && decide (m ≤ 5)
    | none => true)

/-- The row after `preferences.update(updates)` has written the keys of `updates`. -/
def applyUpdates (p : UserPreferences) (u : Updates) : UserPreferences :=
  { p with
    preferredCategories :=
      match u.preferredCategories with
      | some cs => some cs
      | none => p.preferredCategories
    preferredLocations :=
      match u.preferredLocations with
      | some ls => some ls
      | none => p.preferredLocations
    preferredBudget :=
      match u.preferredBudget with
      | some b => some b
      | none => p.preferredBudget
    preferredTimeOfDay :=
      match u.preferredTimeOfDay with
      | some t => some t
      | none => p.preferredTimeOfDay
    minRating :=
      match u.minRating with
      | some m => some m
      | none => p.minRating
    instagrammable := u.instagrammable || p.instagrammable
    trending := u.trending || p.trending
    exclusive := u.exclusive || p.exclusive }

/-- The block `if (value) { if (!current.includes(value)) updates.key = [...current, value] }`:
the new value of the key, `previous` when the key is left as it was. -/
def unionInto (previous : Option (List String)) (current : List String) (value : Option String) :
    Option (List String) :=
  match truthyString value with
  | some v => if v ∈ current then previous else some (current ++ [v])
  | none => previous

/-- The lookup `UserPreferences.findOne({ where: { userId } })`. -/
def profileOf (db : Db) (userId : Nat) : Option UserPreferences :=
  db.userPreferences.find? (fun p => decide (p.userId = userId))

/-- The lookup `findOne` followed by `UserPreferences.create({ userId, ... })` when no row is
found: the state after it and the row in hand. -/
def findOrCreate (db : Db) (userId : Nat) : Db × UserPreferences :=
  match profileOf db userId with
  | some p => (db, p)
  | none =>
    ({ db with userPreferences := db.userPreferences ++ [LikeService.newPreferences userId] },
      LikeService.newPreferences userId)

/-- The tail `if (Object.keys(updates).length > 0) { await preferences.update(updates);
await preferences.reload(); } return preferences;`.  A rejected update throws the validation
error, whose detail text is not modelled. -/
def saveUpdates (db : Db) (p : UserPreferences) (u : Updates) :
    Db × Except String UserPreferences :=
  if u.isEmpty then (db, .ok p)
  else if validate u then
    ({ db with userPreferences :=
        LikeService.updateFirst db.userPreferences p.userId (fun row => applyUpdates row u) },
      .ok (applyUpdates p u))
  else (db, .error "Validation error")

/-- The object `updates` that `analyzeAndUpdatePreferences(preferences, behaviorData)` builds. -/
def viewUpdates (p : UserPreferences) (e : BehaviorData) : Updates :=
  let categories := unionInto none (p.preferredCategories.getD []) e.category
  let locations := unionInto none (p.preferredLocations.getD []) e.location
  let minRating :=
    match e.rating with
    | some r => if 4 < r then some (max (numberOr p.minRating 3) (r - 1 / 2)) else none
    | none => none
  let longView :=
    match e.viewDuration with
    | some d => decide (10 < d)
    | none => false
  let deepScroll :=
    match e.scrollDepth with
    | some d => decide (70 < d)
    | none => false
  { preferredCategories :=
      if longView then
        unionInto categories
          ((match categories with
            | some cs => some cs
            | none => p.preferredCategories).getD []) e.category
      else categories
    preferredLocations :=
      if deepScroll then
        unionInto locations
          ((match locations with
            | some ls => some ls
            | none => p.preferredLocations).getD []) e.location
      else locations
    preferredBudget := truthyString e.budget
    preferredTimeOfDay := truthyString e.timeOfDay
    minRating := minRating
    instagrammable := e.instagrammable
    trending := e.trending
    exclusive := e.exclusive }

/-- Embedding of `analyzeAndUpdatePreferences(preferences, behaviorData)`. -/
def analyzeAndUpdatePreferences (db : Db) (p : UserPreferences) (e : BehaviorData) :
    Db × Except String UserPreferences :=
  saveUpdates db p (viewUpdates p e)

/-- The `catch` clause of a tracking operation: the error is thrown again behind the
operation's own words. -/
def rethrowWith (words : String) (r : Db × Except String UserPreferences) :
    Db × Except String UserPreferences :=
  match r with
  | (db, .ok p) => (db, .ok p)
  | (db, .error m) => (db, .error (words ++ m))

/-- Embedding of `trackView(userId, behaviorData)`: the state after the call and its result. -/
def trackView (db : Db) (userId : Nat) (e : BehaviorData) : Db × Except String UserPreferences :=
  rethrowWith "Error tracking user behavior: "
    (analyzeAndUpdatePreferences (findOrCreate db userId).1 (findOrCreate db userId).2 e)

/-- The object `updates` that `trackLike` builds. -/
def likeUpdates (p : UserPreferences) (e : BehaviorData) : Updates :=
  { preferredCategories := unionInto none (p.preferredCategories.getD []) e.category
    preferredLocations := unionInto none (p.preferredLocations.getD []) e.location
    preferredBudget := truthyString e.budget
    preferredTimeOfDay := none
    minRating := none
    instagrammable := e.instagrammable
    trending := e.trending
    exclusive := e.exclusive }

/-- Embedding of `trackLike(userId, likeData)`. -/
def trackLike (db : Db) (userId : Nat) (e : BehaviorData) : Db × Except String UserPreferences :=
  rethrowWith "Error tracking like behavior: "
    (saveUpdates (findOrCreate db userId).1 (findOrCreate db userId).2
      (likeUpdates (findOrCreate db userId).2 e))

/-- The array `categories` of `trackSearch`. -/
def searchCategories : List String :=
  ["adventure", "relaxation", "culture", "food", "nature", "nightlife", "shopping", "history"]

/-- The method `toLowerCase` on ASCII letters; other letters are left as they are. -/
def toLowerCase (s : String) : String :=
  String.mk (s.toList.map Char.toLower)

/-- The pattern is an initial segment of the text. -/
def startsWithChars : List Char → List Char → Bool
  | [], _ => true
  | _ :: _, [] => false
  | p :: ps, t :: ts => p == t && startsWithChars ps ts

/-- The pattern occurs in the text as a contiguous run. -/
def includesChars : List Char → List Char → Bool
  | [], pattern => pattern.isEmpty
  | t :: ts, pattern => startsWithChars pattern (t :: ts) || includesChars ts pattern

/-- The method `text.includes(pattern)` on strings. -/
def includes (text pattern : String) : Bool :=
  includesChars text.toList pattern.toList

/-- The value `matchedCategory`: the first category, in the order of the array, that the
lower-cased search term contains. -/
def matchedCategory (s : SearchData) : Option String :=
  match truthyString s.searchTerm with
  | some term => searchCategories.find? (fun cat => includes (toLowerCase term) cat)
  | none => none

/-- The object `updates` that `trackSearch` builds. -/
def searchUpdates (p : UserPreferences) (s : SearchData) : Updates :=
  { preferredCategories := unionInto none (p.preferredCategories.getD []) (matchedCategory s)
    preferredLocations := none
    preferredBudget := none
    preferredTimeOfDay := none
    minRating := none
    instagrammable := false
    trending := false
    exclusive := false }

/-- Embedding of `trackSearch(userId, searchData)`. -/
def trackSearch (db : Db) (userId : Nat) (s : SearchData) : Db × Except String UserPreferences :=
  rethrowWith "Error tracking search behavior: "
    (saveUpdates (findOrCreate db userId).1 (findOrCreate db userId).2
      (searchUpdates (findOrCreate db userId).2 s))

/-- The field `searchTerm` of a request body as it arrives: absent or falsy (`null`, `0`,
`false`, the empty string), a non-empty string, or another truthy value (a non-zero number,
`true`, an array, an object). -/
inductive SearchTermField where
  | falsy
  | text (term : String)
  | other
  deriving DecidableEq

/-- Embedding of `trackSearch(userId, searchData)` on the field as it arrives.  The profile is
found or created first; the test `if (searchData.searchTerm)` skips a falsy value, and
`searchData.searchTerm.toLowerCase()` on a truthy value that is not a string throws a
`TypeError`, which the `catch` clause throws again behind the words of the operation. -/
def trackSearchRaw (db : Db) (userId : Nat) (field : SearchTermField) :
    Db × Except String UserPreferences :=
  match field with
  | .falsy => trackSearch db userId ⟨none⟩
  | .text term => trackSearch db userId ⟨some term⟩
  | .other =>
    ((findOrCreate db userId).1,
      .error ("Error tracking search behavior: " ++
        "searchData.searchTerm.toLowerCase is not a function"))

/-- A tracking event of one of the three kinds. -/
inductive TrackingEvent where
  | view (e : BehaviorData)
  | like (e : BehaviorData)
  | search (s : SearchData)

/-- The tracking operation of an event. -/
def track (db : Db) (userId : Nat) : TrackingEvent → Db × Except String UserPreferences
  | .view e => trackView db userId e
  | .like e => trackLike db userId e
  | .search s => trackSearch db userId s

/-- The state after a sequence of tracking events of one user, applied in order. -/
def runEvents (db : Db) (userId : Nat) (events : List TrackingEvent) : Db :=
  events.foldl (fun d ev => (track d userId ev).1) db

/-- The stored values of a profile row pass the model validators of the columns the tracking
operations write back: categories from the vocabulary, `minRating` at most 5. -/
def StoredValid (p : UserPreferences) : Prop :=
  (∀ c ∈ p.preferredCategories.getD [], c ∈ allowedCategories) ∧
    ∀ m, p.minRating = some m → m ≤ 5

/-- The values a view event asks to write pass the model validators: a category from the
vocabulary, a budget and a time of day from their lists, a rating of at most 5.5 (so that
`rating - 0.5` is at most 5).  Absent and empty fields ask for nothing. -/
def Acceptable (e : BehaviorData) : Prop :=
  (∀ c, truthyString e.category = some c → c ∈ allowedCategories) ∧
    (∀ b, truthyString e.budget = some b → b ∈ allowedBudgets) ∧
    (∀ t, truthyString e.timeOfDay = some t → t ∈ allowedTimesOfDay) ∧
    ∀ r, e.rating = some r → r ≤ 11 / 2

/-- The event with every field absent and every flag off. -/
def emptyEvent : BehaviorData where
  category := none
  location := none
  budget := none
  timeOfDay := none
  rating := none
  instagrammable := false
  trending := false
  exclusive := false
  viewDuration := none
  scrollDepth := none

/-- Modelled from the spec: the collapsed form of `analyzeAndUpdatePreferences`, the object
`updates` built without the two blocks behind the thresholds on `viewDuration` and
`scrollDepth`. -/
def collapsedViewUpdates (p : UserPreferences) (e : BehaviorData) : Updates :=
  { preferredCategories := unionInto none (p.preferredCategories.getD []) e.category
    preferredLocations := unionInto none (p.preferredLocations.getD []) e.location
    preferredBudget := truthyString e.budget
    preferredTimeOfDay := truthyString e.timeOfDay
    minRating :=
      match e.rating with
      | some r => if 4 < r then some (max (numberOr p.minRating 3) (r - 1 / 2)) else none
      | none => none
    instagrammable := e.instagrammable
    trending := e.trending
    exclusive := e.exclusive }

/-- The view event that asks for the same updates as a tracking event: a like carries neither
a time of day nor a rating, a search carries the keyword it matched as its category. -/
def viewOf : TrackingEvent → BehaviorData
  | .view e => e
  | .like e => { e with timeOfDay := none, rating := none }
  | .search s => { emptyEvent with category := matchedCategory s }

/-- The row a view event leaves of a stored row: the row with the updates written when the
validators accept them, the row as it was when they reject them. -/
def rowAfter (p : UserPreferences) (e : BehaviorData) : UserPreferences :=
  if validate (viewUpdates p e) then applyUpdates p (viewUpdates p e) else p

/-- Embedding of `getUserPreferences(userId)`: the state after the call and its result. -/
def getUserPreferences (db : Db) (userId : Nat) : Db × Except String UserPreferences :=
  ((findOrCreate db userId).1, .ok (findOrCreate db userId).2)

end UserBehaviorService

deriving instance DecidableEq for Except

/-! ## Sample states -/

/-- Sample discovery with the category, location and price left at fixed values. -/
def sampleDiscovery (id : Nat) (rating : ℚ) (trending : Bool) (tags : List String) : Discovery :=
  ⟨id, "seasonal", "Goa", rating, "$$", tags, trending⟩

/-- Sample state: user 1 likes discoveries 1 and 2; users 2, 3 and 4 share likes with user 1;
discovery 3 is liked by user 2 only. -/
def sampleDb : Db where
  likes := [⟨1, some 1, none⟩, ⟨1, some 2, none⟩, ⟨2, some 1, none⟩, ⟨2, some 2, none⟩,
    ⟨2, some 3, none⟩, ⟨3, some 1, none⟩, ⟨3, some 2, none⟩, ⟨4, some 1, none⟩]
  discoveries := [sampleDiscovery 1 4 true ["beach"], sampleDiscovery 2 5 true ["sun"],
    sampleDiscovery 3 3 false ["beach"], sampleDiscovery 4 (9 / 2) true []]
  userPreferences := []

/-- Sample state: user 1 likes the trending discovery 1 and nobody shares a like with user 1. -/
def lonelyDb : Db where
  likes := [⟨1, some 1, none⟩]
  discoveries := [sampleDiscovery 1 5 true ["beach"], sampleDiscovery 2 4 true ["sun"]]
  userPreferences := []

/-- Sample state: one trending discovery, no like rows and no preference rows. -/
def freshDb : Db where
  likes := []
  discoveries := [sampleDiscovery 7 5 true ["beach"]]
  userPreferences := []

/-- Sample state: user 1 likes discoveries 1 and 2; discovery 3 shares the tag `sun`,
discovery 5 shares the category of discovery 1, discovery 4 shares nothing with them. -/
def scenarioDb : Db where
  likes := [⟨1, some 1, none⟩, ⟨1, some 2, none⟩]
  discoveries := [⟨1, "hidden-gems", "Goa", 24 / 5, "$$", ["beach", "sun"], false⟩,
    ⟨2, "trending", "Bali", 4, "$", ["beach", "hiking"], true⟩,
    ⟨3, "exclusive", "Paris", 9 / 2, "$$$$", ["sun"], false⟩,
    ⟨4, "exclusive", "Rome", 49 / 10, "$$$", ["museum"], true⟩,
    ⟨5, "hidden-gems", "Rome", 3, "$$$", [], false⟩]
  userPreferences := []

/-- The scenario state with other prices on the two discoveries user 1 likes. -/
def repricedScenarioDb : Db where
  likes := [⟨1, some 1, none⟩, ⟨1, some 2, none⟩]
  discoveries := [⟨1, "hidden-gems", "Goa", 24 / 5, "$$$$", ["beach", "sun"], false⟩,
    ⟨2, "trending", "Bali", 4, "$$$", ["beach", "hiking"], true⟩,
    ⟨3, "exclusive", "Paris", 9 / 2, "$$$$", ["sun"], false⟩,
    ⟨4, "exclusive", "Rome", 49 / 10, "$$$", ["museum"], true⟩,
    ⟨5, "hidden-gems", "Rome", 3, "$$$", [], false⟩]
  userPreferences := []

/-- Sample state over both item spaces: user 1 likes discoveries 1, 2 and recommendation 1;
user 2 shares all three, user 3 shares two, user 4 shares one, user 5 shares none. -/
def overlapDb : Db where
  likes := [⟨1, some 1, none⟩, ⟨1, some 2, none⟩, ⟨1, none, some 1⟩, ⟨4, some 2, none⟩,
    ⟨3, some 1, none⟩, ⟨3, none, some 1⟩, ⟨2, some 1, none⟩, ⟨2, some 2, none⟩,
    ⟨2, none, some 1⟩, ⟨5, some 9, none⟩, ⟨3, none, some 8⟩]
  discoveries := []
  userPreferences := []

/-- Sample state: users 1 and 2 both like discovery 1 and recommendation 4; user 3 likes
discovery 7, which nobody else likes. -/
def pairDb : Db where
  likes := [⟨1, some 1, none⟩, ⟨2, some 1, none⟩, ⟨3, some 7, none⟩, ⟨2, none, some 4⟩,
    ⟨1, none, some 4⟩]
  discoveries := []
  userPreferences := []

/-- Sample view event: an adventure in Goa rated 4.8, trending, read for 20 seconds. -/
def adventureView : UserBehaviorService.BehaviorData :=
  { UserBehaviorService.emptyEvent with
    category := some "adventure"
    location := some "Goa"
    budget := some "$$"
    timeOfDay := some "morning"
    rating := some (24 / 5)
    trending := true
    viewDuration := some 20 }

/-- Sample view event: a discovery of category `hidden-gems` rated 4.2. -/
def hiddenGemView : UserBehaviorService.BehaviorData :=
  { UserBehaviorService.emptyEvent with category := some "hidden-gems", rating := some (21 / 5) }

/-- Sample state: user 1 has the profile row a first request creates. -/
def profileDb : Db where
  likes := []
  discoveries := []
  userPreferences := [LikeService.newPreferences 1]

/-- Sample view event carrying only the rating 6. -/
def overratedView : UserBehaviorService.BehaviorData :=
  { UserBehaviorService.emptyEvent with rating := some 6 }

/-- Sample view event carrying only the rating 4.8. -/
def ratedView : UserBehaviorService.BehaviorData :=
  { UserBehaviorService.emptyEvent with rating := some (24 / 5) }

/-- Sample like event: category `adventure` with the budget `cheap`. -/
def cheapAdventureLike : UserBehaviorService.BehaviorData :=
  { UserBehaviorService.emptyEvent with category := some "adventure", budget := some "cheap" }

/-- Sample like event: category `adventure` in Goa. -/
def adventureLike : UserBehaviorService.BehaviorData :=
  { UserBehaviorService.emptyEvent with category := some "adventure", location := some "Goa" }

/-- Sample like event: category `culture` in Rome. -/
def cultureLike : UserBehaviorService.BehaviorData :=
  { UserBehaviorService.emptyEvent with category := some "culture", location := some "Rome" }

/-- Sample like event carrying only the time of day `morning`. -/
def morningLike : UserBehaviorService.BehaviorData :=
  { UserBehaviorService.emptyEvent with timeOfDay := some "morning", trending := true }

/-- Sample view event carrying only the budget `cheap`. -/
def cheapView : UserBehaviorService.BehaviorData :=
  { UserBehaviorService.emptyEvent with budget := some "cheap" }

/-- Sample search: a term in mixed case that names two categories. -/
def foodSearch : UserBehaviorService.SearchData :=
  ⟨some "Best FOOD and Culture walks"⟩

/-- Sample search: a term that names no category. -/
def beachSearch : UserBehaviorService.SearchData :=
  ⟨some "Quiet BEACH near me"⟩

/-- Sample state: the profile of user 1 holds the category `culture` and nothing else. -/
def cultureProfileDb : Db where
  likes := []
  discoveries := []
  userPreferences := [{ LikeService.newPreferences 1 with preferredCategories := some ["culture"] }]

/-- Sample state: user 1 has liked the discoveries 4, 7 and 9 and the recommendation 7. -/
def likedDb : Db where
  likes := []
  discoveries := []
  userPreferences :=
    [{ LikeService.newPreferences 1 with
        likedDiscoveries := some [4, 7, 9]
        likedRecommendations := some [7] }]

/-- Sample state: discovery 9 is liked by users 1, 2 and 4, discovery 3 by users 1 and 2,
discovery 5 by user 1; user 3 has no list. -/
def popularDb : Db where
  likes := []
  discoveries := []
  userPreferences :=
    [{ LikeService.newPreferences 1 with likedDiscoveries := some [5, 3, 9] },
      { LikeService.newPreferences 2 with likedDiscoveries := some [9, 3] },
      { LikeService.newPreferences 3 with likedDiscoveries := none },
      { LikeService.newPreferences 4 with likedDiscoveries := some [9] }]

/-- Sample request of user 1 with the query parameter `limit=2`. -/
def limitTwoRequest : DiscoveryController.Request := ⟨some 1, some "2"⟩

/-- Sample check of a URL: the text names a scheme. -/
def sampleIsUrl (text : String) : Bool :=
  UserBehaviorService.includes text "://"

/-- Sample recommendation 1, tagged `beach` and `sunset`. -/
def sampleRecommendation : RecommendationService.Recommendation where
  id := 1
  title := "Sunset point"
  description := "A quiet cliff above the bay"
  rating := 9 / 2
  price := "$$"
  location := "Goa"
  duration := "2 hours"
  tags := ["beach", "sunset"]
  trending := false
  image := "https://example.com/sunset.jpg"

/-- The request body with every field absent. -/
def emptyData : RecommendationService.RecommendationData where
  title := none
  description := none
  rating := none
  price := none
  location := none
  duration := none
  tags := .absent
  trending := none
  image := none

/-- Sample request body that carries a new title and nothing else. -/
def titleOnlyData : RecommendationService.RecommendationData :=
  { emptyData with title := some "Sunset cliff" }

/-- Sample request body that carries the rating 7 and nothing else. -/
def overratedData : RecommendationService.RecommendationData :=
  { emptyData with rating := some 7 }

/-- Sample request body that carries the tags `view` and `quiet` and nothing else. -/
def retaggedData : RecommendationService.RecommendationData :=
  { emptyData with tags := .array ["view", "quiet"] }

/-- Sample state: user 1 likes, in this order, discovery 1 in Bali (rating 1.5), discoveries 2
and 3 in Goa (ratings 0.5 and 1) and discoveries 4 and 5 in Rome and Paris (rating 5);
discovery 6 in Bali and discovery 7 in Goa share no tag and no category with them. -/
def roundingDb : Db where
  likes := [⟨1, some 1, none⟩, ⟨1, some 2, none⟩, ⟨1, some 3, none⟩, ⟨1, some 4, none⟩,
    ⟨1, some 5, none⟩]
  discoveries := [⟨1, "food", "Bali", 3 / 2, "$", ["market"], false⟩,
    ⟨2, "culture", "Goa", 1 / 2, "$", ["fort"], false⟩,
    ⟨3, "nature", "Goa", 1, "$", ["beach"], false⟩,
    ⟨4, "history", "Rome", 5, "$$", ["forum"], false⟩,
    ⟨5, "shopping", "Paris", 5, "$$", ["arcade"], false⟩,
    ⟨6, "nightlife", "Bali", 4, "$$$", ["club"], false⟩,
    ⟨7, "nightlife", "Goa", 3, "$$$", ["bar"], false⟩]
  userPreferences := []

/-! ## Lemmas on the query primitives -/

open RecommendationService

theorem orderByDesc_pairwise {α β : Type} [LinearOrder β] (key : α → β) (rows : List α) :
    (orderByDesc key rows).Pairwise (fun a b => key b ≤ key a) :=
  List.sorted_insertionSort (byKeyDesc key) rows

theorem orderByDesc_perm {α β : Type} [LinearOrder β] (key : α → β) (rows : List α) :
    (orderByDesc key rows).Perm rows :=
  List.perm_insertionSort (byKeyDesc key) rows

theorem mem_orderByDesc {α β : Type} [LinearOrder β] (key : α → β) (rows : List α) (a : α) :
    a ∈ orderByDesc key rows ↔ a ∈ rows :=
  (orderByDesc_perm key rows).mem_iff

theorem sqlLimit_of_nonneg {α : Type} {limit : Int} (h : 0 ≤ limit) (rows : List α) :
    sqlLimit limit rows = .ok (rows.take limit.toNat) := by
  unfold sqlLimit
  rw [if_neg (not_lt.mpr h)]

theorem sqlLimit_eq_ok {α : Type} {limit : Int} {rows r : List α}
    (h : sqlLimit limit rows = .ok r) : r = rows.take limit.toNat := by
  unfold sqlLimit at h
  split at h
  · cases h
  · cases h; rfl

theorem rethrow_eq_ok {α : Type} {message : String} {e : Except String α} {v : α}
    (h : rethrow message e = .ok v) : e = .ok v := by
  cases e with
  | ok w => simpa [rethrow] using h
  | error m => simp [rethrow] at h

theorem mem_uniq {α : Type} [DecidableEq α] (l : List α) (a : α) : a ∈ uniq l ↔ a ∈ l := by
  induction l with
  | nil => simp [uniq]
  | cons b l ih =>
    by_cases h : a = b
    · simp [uniq, h]
    · simp [uniq, h, ih]

theorem nodup_uniq {α : Type} [DecidableEq α] (l : List α) : (uniq l).Nodup := by
  induction l with
  | nil => simp [uniq]
  | cons b l ih =>
    simp only [uniq, List.nodup_cons]
    exact ⟨by simp, ih.filter _⟩

theorem jsSlice_sublist {α : Type} (xs : List α) (n : Int) : (jsSlice xs n).Sublist xs := by
  unfold jsSlice
  split <;> exact List.take_sublist _ _

theorem jsSlice_of_nonneg {α : Type} (xs : List α) {n : Int} (h : 0 ≤ n) :
    jsSlice xs n = xs.take n.toNat := by
  unfold jsSlice
  rw [if_pos h]

/-! ## Lemmas on the recommendation service -/

theorem discoveryLikesOf_ids (db : Db) (userId : Nat) :
    (discoveryLikesOf db userId).filterMap (fun l => l.discoveryId) = likedDiscoveryIds db userId := by
  unfold discoveryLikesOf likedDiscoveryIds likesOf
  induction db.likes with
  | nil => rfl
  | cons l ls ih =>
    by_cases hu : l.userId = userId
    · cases hd : l.discoveryId with
      | none => simp [List.filter_cons, List.filterMap_cons, hu, hd, ih]
      | some d => simp [List.filter_cons, List.filterMap_cons, hu, hd, ih]
    · simp [List.filter_cons, hu, ih]

theorem discoveryLikesOf_eq_nil_of_no_likes {db : Db} {userId : Nat}
    (h : likesOf db userId = []) : discoveryLikesOf db userId = [] := by
  unfold discoveryLikesOf
  unfold likesOf at h
  rw [List.filter_eq_nil_iff] at h ⊢
  intro l hl hp
  apply h l hl
  simp only [Bool.and_eq_true, decide_eq_true_eq] at hp
  simpa using hp.1

theorem likedDiscoveryIds_eq_nil_of_no_discoveryLikes {db : Db} {userId : Nat}
    (h : discoveryLikesOf db userId = []) : likedDiscoveryIds db userId = [] := by
  rw [← discoveryLikesOf_ids, h]
  rfl

theorem findSimilarUsers_of_no_likes {db : Db} {userId : Nat} (limit : Int)
    (h : likesOf db userId = []) : findSimilarUsers db userId limit = .ok [] := by
  simp [findSimilarUsers, h]

theorem getCollaborativeRecommendations_of_no_similar {db : Db} {userId : Nat} (limit : Int)
    (hs : findSimilarUsers db userId 20 = .ok []) :
    getCollaborativeRecommendations db userId limit =
      rethrow "Failed to get collaborative recommendations" (trendingDiscoveries db limit) := by
  simp [getCollaborativeRecommendations, hs]

theorem getCollaborativeRecommendations_of_similar {db : Db} {userId : Nat} (limit : Int)
    {similar : List Nat} (hs : findSimilarUsers db userId 20 = .ok similar) (hne : similar ≠ []) :
    getCollaborativeRecommendations db userId limit =
      match similarUserLikes db similar limit with
      | .error _ => .error "Failed to get collaborative recommendations"
      | .ok rows =>
        .ok (orderByDesc (fun d => d.rating)
          (db.discoveries.filter (fun d =>
            decide (d.id ∈ jsSlice ((rows.map Prod.fst).filter
              (fun id => decide (id ∉ likedDiscoveryIds db userId))) limit)))) := by
  simp only [getCollaborativeRecommendations, hs, List.length_eq_zero, hne, if_false,
    discoveryLikesOf_ids]

theorem getDiscoveryBasedRecommendations_of_no_likes {db : Db} {userId : Nat} (limit : Int)
    (h : discoveryLikesOf db userId = []) :
    getDiscoveryBasedRecommendations db userId limit =
      rethrow "Failed to get discovery-based recommendations" (trendingDiscoveries db limit) := by
  simp [getDiscoveryBasedRecommendations, h]

theorem getPersonalizedDiscoveries_of_no_likes {db : Db} {userId : Nat} (limit : Int)
    (h : discoveryLikesOf db userId = []) :
    getPersonalizedDiscoveries db userId limit =
      rethrow "Failed to get personalized discoveries" (trendingDiscoveries db limit) := by
  simp [getPersonalizedDiscoveries, h]

theorem trendingDiscoveries_of_nonneg (db : Db) {limit : Int} (h : 0 ≤ limit) :
    trendingDiscoveries db limit =
      .ok ((orderByDesc (fun d => d.rating) (db.discoveries.filter (fun d => d.trending))).take
        limit.toNat) :=
  sqlLimit_of_nonneg h _

/-! ## Fallback to the trending list -/

/-- C1: for a user without any like row and a positive limit, the three strategies all return
the first `limit` entries of one ranking of the trending discoveries by rating descending. -/
theorem fallback_trending_of_no_likes (db : Db) (userId : Nat) (limit : Int)
    (hlikes : likesOf db userId = []) (hlimit : 0 < limit) :
    ∃ ranked : List Discovery,
      ranked.Perm (db.discoveries.filter (fun d => d.trending)) ∧
      ranked.Pairwise (fun a b => b.rating ≤ a.rating) ∧
      getCollaborativeRecommendations db userId limit = .ok (ranked.take limit.toNat) ∧
      getDiscoveryBasedRecommendations db userId limit = .ok (ranked.take limit.toNat) ∧
      getPersonalizedDiscoveries db userId limit = .ok (ranked.take limit.toNat) := by
  have hd := discoveryLikesOf_eq_nil_of_no_likes hlikes
  refine ⟨orderByDesc (fun d => d.rating) (db.discoveries.filter (fun d => d.trending)),
    orderByDesc_perm _ _, orderByDesc_pairwise _ _, ?_, ?_, ?_⟩
  · rw [getCollaborativeRecommendations_of_no_similar limit (findSimilarUsers_of_no_likes 20 hlikes),
      trendingDiscoveries_of_nonneg db hlimit.le]
    rfl
  · rw [getDiscoveryBasedRecommendations_of_no_likes limit hd,
      trendingDiscoveries_of_nonneg db hlimit.le]
    rfl
  · rw [getPersonalizedDiscoveries_of_no_likes limit hd,
      trendingDiscoveries_of_nonneg db hlimit.le]
    rfl

/-- Witness of C1: user 9 has no like row in the sample state; with limit 2 the three
strategies return the two best-rated trending discoveries. -/
theorem fallback_trending_of_no_likes_witness :
    ∃ ranked : List Discovery,
      ranked.Perm (sampleDb.discoveries.filter (fun d => d.trending)) ∧
      ranked.Pairwise (fun a b => b.rating ≤ a.rating) ∧
      getCollaborativeRecommendations sampleDb 9 2 = .ok (ranked.take (2 : Int).toNat) ∧
      getDiscoveryBasedRecommendations sampleDb 9 2 = .ok (ranked.take (2 : Int).toNat) ∧
      getPersonalizedDiscoveries sampleDb 9 2 = .ok (ranked.take (2 : Int).toNat) :=
  fallback_trending_of_no_likes sampleDb 9 2 (by decide) (by decide)


/-! ## Exclusion of liked discoveries -/

/-- C2, as stated, fails: user 1 likes the trending discovery 1 and shares likes with nobody,
and the collaborative strategy returns discovery 1. -/
theorem collaborative_fallback_returns_liked :
    findSimilarUsers lonelyDb 1 20 = .ok [] ∧
    getCollaborativeRecommendations lonelyDb 1 10 =
      .ok [sampleDiscovery 1 5 true ["beach"], sampleDiscovery 2 4 true ["sun"]] ∧
    (sampleDiscovery 1 5 true ["beach"]).id ∈ likedDiscoveryIds lonelyDb 1 := by
  decide

/-- C2, amended: when at least one similar user is found, the collaborative strategy returns
no discovery the user has liked. -/
theorem collaborative_excludes_liked_of_similar (db : Db) (userId : Nat) (limit : Int)
    (similar : List Nat) (r : List Discovery)
    (hs : findSimilarUsers db userId 20 = .ok similar) (hne : similar ≠ [])
    (hr : getCollaborativeRecommendations db userId limit = .ok r) :
    ∀ d ∈ r, d.id ∉ likedDiscoveryIds db userId := by
  rw [getCollaborativeRecommendations_of_similar limit hs hne] at hr
  intro d hd
  cases hrows : similarUserLikes db similar limit with
  | error m => rw [hrows] at hr; cases hr
  | ok rows =>
    rw [hrows] at hr
    simp only [Except.ok.injEq] at hr
    subst hr
    rw [mem_orderByDesc, List.mem_filter] at hd
    have hmem := (jsSlice_sublist _ _).subset (of_decide_eq_true hd.2)
    rw [List.mem_filter] at hmem
    exact of_decide_eq_true hmem.2

/-- Witness of C2 amended: in the sample state user 1 has similar users 2, 3 and 4, and with
limit 2 the strategy returns discovery 3 only, which user 1 has not liked. -/
theorem collaborative_excludes_liked_of_similar_witness :
    findSimilarUsers sampleDb 1 20 = .ok [2, 3, 4] ∧
    getCollaborativeRecommendations sampleDb 1 2 = .ok [sampleDiscovery 3 3 false ["beach"]] ∧
    (sampleDiscovery 3 3 false ["beach"]).id ∉ likedDiscoveryIds sampleDb 1 :=
  ⟨by decide, by decide,
    collaborative_excludes_liked_of_similar sampleDb 1 2 [2, 3, 4]
      [sampleDiscovery 3 3 false ["beach"]] (by decide) (by decide) (by decide) _
      (List.mem_singleton.mpr rfl)⟩

/-- C3: the discovery-based and the personalized strategy return no discovery the user has
liked. -/
theorem content_strategies_exclude_liked (db : Db) (userId : Nat) (limit : Int) :
    (∀ r, getDiscoveryBasedRecommendations db userId limit = .ok r →
      ∀ d ∈ r, d.id ∉ likedDiscoveryIds db userId) ∧
    (∀ r, getPersonalizedDiscoveries db userId limit = .ok r →
      ∀ d ∈ r, d.id ∉ likedDiscoveryIds db userId) := by
  by_cases hnil : discoveryLikesOf db userId = []
  · have hno := likedDiscoveryIds_eq_nil_of_no_discoveryLikes hnil
    constructor <;> intro r _ d _ <;> simp [hno]
  · constructor
    · intro r hr d hd
      simp only [getDiscoveryBasedRecommendations, List.length_eq_zero, hnil, if_false,
        discoveryLikesOf_ids] at hr
      have h := sqlLimit_eq_ok (rethrow_eq_ok hr)
      subst h
      have hmem := (List.take_sublist _ _).subset hd
      rw [mem_orderByDesc, List.mem_filter] at hmem
      simp only [Bool.and_eq_true, decide_eq_true_eq] at hmem
      exact hmem.2.1
    · intro r hr d hd
      simp only [getPersonalizedDiscoveries, List.length_eq_zero, hnil, if_false,
        discoveryLikesOf_ids] at hr
      have h := sqlLimit_eq_ok (rethrow_eq_ok hr)
      subst h
      have hmem := (List.take_sublist _ _).subset hd
      rw [mem_orderByDesc, List.mem_filter] at hmem
      simp only [Bool.and_eq_true, decide_eq_true_eq] at hmem
      exact hmem.2.1

/-- Witness of C3: for user 1 of the sample state both strategies return discoveries 4 and 3,
neither of which user 1 has liked. -/
theorem content_strategies_exclude_liked_witness :
    (∀ d ∈ [sampleDiscovery 4 (9 / 2) true [], sampleDiscovery 3 3 false ["beach"]],
      d.id ∉ likedDiscoveryIds sampleDb 1) ∧
    (∀ d ∈ [sampleDiscovery 4 (9 / 2) true [], sampleDiscovery 3 3 false ["beach"]],
      d.id ∉ likedDiscoveryIds sampleDb 1) :=
  ⟨(content_strategies_exclude_liked sampleDb 1 2).1 _ (by decide!),
    (content_strategies_exclude_liked sampleDb 1 2).2 _ (by decide!)⟩


/-! ## Selection of the collaborative strategy -/

theorem findSimilarUsers_ok (db : Db) (userId : Nat) {limit : Int} (h : 0 ≤ limit) :
    ∃ similar, findSimilarUsers db userId limit = .ok similar := by
  unfold findSimilarUsers
  simp only [sqlLimit_of_nonneg h]
  split
  · exact ⟨_, rfl⟩
  · exact ⟨_, rfl⟩

theorem similarUserLikes_of_nonneg (db : Db) (similar : List Nat) {limit : Int} (h : 0 ≤ limit) :
    ∃ rows, similarUserLikes db similar limit = .ok rows ∧
      rows.map Prod.fst = (idsByFrequency db similar).take (limit * 2).toNat := by
  refine ⟨_, sqlLimit_of_nonneg (by omega) _, ?_⟩
  rw [List.map_take]
  rfl

theorem nodup_groupCount_keys {α : Type} [DecidableEq α] (keys : List α) :
    ((groupCount keys).map Prod.fst).Nodup := by
  have : (groupCount keys).map Prod.fst = uniq keys := by
    unfold groupCount
    rw [List.map_map]
    exact List.map_id _
  rw [this]
  exact nodup_uniq keys

theorem nodup_idsByFrequency (db : Db) (similar : List Nat) : (idsByFrequency db similar).Nodup := by
  unfold idsByFrequency
  exact ((orderByDesc_perm _ _).map Prod.fst).nodup_iff.mpr (nodup_groupCount_keys _)

theorem length_filter_mem_of_nodup {α β : Type} [DecidableEq β] (f : α → β) (rows : List α)
    (sel : List β) (hrows : (rows.map f).Nodup) (hsel : sel.Nodup)
    (hsub : ∀ x ∈ sel, x ∈ rows.map f) :
    (rows.filter (fun d => decide (f d ∈ sel))).length = sel.length := by
  have hnd : ((rows.filter (fun d => decide (f d ∈ sel))).map f).Nodup :=
    hrows.sublist ((List.filter_sublist _).map f)
  have hperm : ((rows.filter (fun d => decide (f d ∈ sel))).map f).Perm sel := by
    rw [List.perm_ext_iff_of_nodup hnd hsel]
    intro x
    constructor
    · intro hx
      obtain ⟨d, hd, rfl⟩ := List.mem_map.mp hx
      exact of_decide_eq_true (List.mem_filter.mp hd).2
    · intro hx
      obtain ⟨d, hd, rfl⟩ := List.mem_map.mp (hsub x hx)
      exact List.mem_map.mpr ⟨d, List.mem_filter.mpr ⟨hd, decide_eq_true hx⟩, rfl⟩
  rw [← hperm.length_eq, List.length_map]

/-- C4, as stated, fails: in the sample state user 1 has similar users 2, 3 and 4, who like
discovery 1 three times, discovery 2 twice and discovery 3 once; discovery 3 is the first
frequency-ordered discovery user 1 has not liked and it is in the catalog, yet with limit 1
the strategy returns nothing, because discoveries 1 and 2 fill the first `2 * limit` places
of the frequency order. -/
theorem collaborative_misses_candidate :
    findSimilarUsers sampleDb 1 20 = .ok [2, 3, 4] ∧
    (candidateIds sampleDb [2, 3, 4]).map (fun c => (c, likeFrequency sampleDb [2, 3, 4] c)) =
      [(1, 3), (2, 2), (3, 1)] ∧
    idsByFrequency sampleDb [2, 3, 4] = [1, 2, 3] ∧
    claimedSelection sampleDb 1 [2, 3, 4] 1 = [3] ∧
    sampleDiscovery 3 3 false ["beach"] ∈ sampleDb.discoveries ∧
    getCollaborativeRecommendations sampleDb 1 1 = .ok [] := by
  decide

/-- The result of the collaborative strategy when the frequency query lists ids of equal
frequency in stored order. -/
theorem collaborative_result_in_stored_order (db : Db) (userId : Nat) (limit : Int)
    (similar : List Nat) (hs : findSimilarUsers db userId 20 = .ok similar) (hne : similar ≠ [])
    (hlimit : 0 < limit) :
    ∃ ranked : List Discovery,
      getCollaborativeRecommendations db userId limit = .ok ranked ∧
      ranked.Perm (db.discoveries.filter (fun d =>
        decide (d.id ∈ (freshAmongTop db userId similar limit).take limit.toNat))) ∧
      ranked.Pairwise (fun a b => b.rating ≤ a.rating) ∧
      ((db.discoveries.map (fun d => d.id)).Nodup →
        (∀ id ∈ (freshAmongTop db userId similar limit).take limit.toNat,
          id ∈ db.discoveries.map (fun d => d.id)) →
        limit.toNat ≤ (freshAmongTop db userId similar limit).length →
        ranked.length = limit.toNat) := by
  obtain ⟨rows, hrows, hfst⟩ := similarUserLikes_of_nonneg db similar hlimit.le
  refine ⟨_, ?_, orderByDesc_perm _ _, orderByDesc_pairwise _ _, ?_⟩
  · rw [getCollaborativeRecommendations_of_similar limit hs hne, hrows]
    simp only [hfst, jsSlice_of_nonneg _ hlimit.le]
    rfl
  · intro hcat hsub hlen
    rw [(orderByDesc_perm _ _).length_eq]
    have hnd : ((freshAmongTop db userId similar limit).take limit.toNat).Nodup :=
      ((nodup_idsByFrequency db similar).sublist
        ((List.take_sublist _ _).trans ((List.filter_sublist _).trans (List.take_sublist _ _))))
    rw [length_filter_mem_of_nodup (fun d : Discovery => d.id) _ _ hcat hnd hsub, List.length_take]
    exact Nat.min_eq_left hlen

/-! ### Selection by frequency, whatever the order of ties -/

/-- In a list sorted by `f` descending, fewer than `k` entries rank strictly above an entry of
the first `k`. -/
theorem filter_greater_of_mem_take {ids : List Nat} {f : Nat → Nat}
    (hsorted : ids.Pairwise (fun a b => f b ≤ f a)) {k x : Nat} (hx : x ∈ ids.take k) :
    (ids.filter (fun c => decide (f x < f c))).length < k := by
  obtain ⟨pre, post, hsplit⟩ := List.append_of_mem hx
  have hids : ids = pre ++ x :: (post ++ ids.drop k) := by
    conv_lhs => rw [← List.take_append_drop k ids, hsplit]
    simp
  have hlen : pre.length < k := by
    have h1 : (ids.take k).length ≤ k := by
      rw [List.length_take]
      exact Nat.min_le_left _ _
    rw [hsplit, List.length_append, List.length_cons] at h1
    omega
  rw [hids] at hsorted
  rw [List.pairwise_append, List.pairwise_cons] at hsorted
  have hrest : (x :: (post ++ ids.drop k)).filter (fun c => decide (f x < f c)) = [] := by
    rw [List.filter_eq_nil_iff]
    intro c hc
    rcases List.mem_cons.mp hc with rfl | hc
    · simp
    · have := hsorted.2.1.1 c hc
      simp only [decide_eq_true_eq, not_lt]
      exact this
  have hfilter : (ids.filter (fun c => decide (f x < f c))).length ≤ pre.length := by
    conv_lhs => rw [hids, List.filter_append, hrest, List.append_nil]
    exact List.length_filter_le _ _
  omega

/-- In a list sorted by `f` descending, an entry outside the first `k` has at least `k` other
entries that rank at least as high. -/
theorem take_le_filter_of_not_mem_take {ids : List Nat} {f : Nat → Nat}
    (hsorted : ids.Pairwise (fun a b => f b ≤ f a)) {k x : Nat}
    (hx : x ∈ ids) (hnot : x ∉ ids.take k) :
    k ≤ (ids.filter (fun c => decide (c ≠ x ∧ f x ≤ f c))).length := by
  have hdrop : x ∈ ids.drop k := by
    rw [← List.take_append_drop k ids, List.mem_append] at hx
    exact hx.resolve_left hnot
  have hk : k < ids.length := by
    by_contra hc
    rw [List.drop_eq_nil_of_le (not_lt.mp hc)] at hdrop
    cases hdrop
  have hlen : (ids.take k).length = k := by
    rw [List.length_take]
    exact Nat.min_eq_left hk.le
  have hsplit := hsorted
  rw [← List.take_append_drop k ids, List.pairwise_append] at hsplit
  have hall : (ids.take k).filter (fun c => decide (c ≠ x ∧ f x ≤ f c)) = ids.take k := by
    rw [List.filter_eq_self]
    intro c hc
    have hne : c ≠ x := fun h => hnot (h ▸ hc)
    have hle := hsplit.2.2 c hc x hdrop
    simp [hne, hle]
  have hsub : ((ids.take k).filter (fun c => decide (c ≠ x ∧ f x ≤ f c))).Sublist
      (ids.filter (fun c => decide (c ≠ x ∧ f x ≤ f c))) :=
    (List.take_sublist k ids).filter _
  have := hsub.length_le
  rw [hall, hlen] at this
  exact this

theorem idsByFrequency_perm (db : Db) (similar : List Nat) :
    (idsByFrequency db similar).Perm (candidateIds db similar) := by
  unfold idsByFrequency candidateIds
  have h : (groupCount (similarLikedIds db similar)).map Prod.fst =
      uniq (similarLikedIds db similar) := by
    unfold groupCount
    rw [List.map_map]
    exact List.map_id _
  rw [← h]
  exact (orderByDesc_perm _ _).map Prod.fst

theorem idsByFrequency_sorted (db : Db) (similar : List Nat) :
    (idsByFrequency db similar).Pairwise
      (fun a b => likeFrequency db similar b ≤ likeFrequency db similar a) := by
  unfold idsByFrequency
  rw [List.pairwise_map]
  have hsorted := orderByDesc_pairwise (fun p : Nat × Nat => p.2)
    (groupCount (similarLikedIds db similar))
  have hsnd : ∀ p ∈ orderByDesc (fun p : Nat × Nat => p.2)
      (groupCount (similarLikedIds db similar)), p.2 = likeFrequency db similar p.1 := by
    intro p hp
    rw [mem_orderByDesc] at hp
    unfold groupCount at hp
    obtain ⟨k, _, rfl⟩ := List.mem_map.mp hp
    rfl
  refine List.Pairwise.imp_of_mem ?_ hsorted
  intro a b ha hb hab
  rw [← hsnd a ha, ← hsnd b hb]
  exact hab

theorem mem_candidateIds (db : Db) (similar : List Nat) (id : Nat) :
    id ∈ candidateIds db similar ↔ 0 < likeFrequency db similar id := by
  unfold candidateIds likeFrequency
  rw [mem_uniq, List.count_pos_iff]

theorem length_filter_candidateIds (db : Db) (similar : List Nat) (test : Nat → Bool) :
    ((candidateIds db similar).filter test).length =
      ((idsByFrequency db similar).filter test).length :=
  ((idsByFrequency_perm db similar).filter test).length_eq.symm

/-- C4, amended: with similar users found and a positive limit, the collaborative strategy
returns, by rating descending, catalog discoveries of at most `limit` distinct ids.  Every
returned discovery is one the user has not liked, is liked by a similar user, and fewer than
`2 * limit` candidates are liked strictly more often than it.  A catalog discovery the user
has not liked, liked by a similar user and not returned, has at least `2 * limit` other
candidates liked at least as often, or at least `limit` other not-yet-liked candidates liked
at least as often.  And `limit` items are returned when at least `limit` not-yet-liked
candidates have fewer than `2 * limit` other candidates liked at least as often and every
candidate has exactly one catalog row.  Nothing here depends on the order of ids of equal
frequency. -/
theorem collaborative_selects_within_twice_limit (db : Db) (userId : Nat) (limit : Int)
    (similar : List Nat) (hs : findSimilarUsers db userId 20 = .ok similar) (hne : similar ≠ [])
    (hlimit : 0 < limit) :
    ∃ ranked : List Discovery,
      getCollaborativeRecommendations db userId limit = .ok ranked ∧
      ranked.Pairwise (fun a b => b.rating ≤ a.rating) ∧
      (uniq (ranked.map (fun d => d.id))).length ≤ limit.toNat ∧
      (∀ d ∈ ranked, d ∈ db.discoveries ∧ d.id ∉ likedDiscoveryIds db userId ∧
        0 < likeFrequency db similar d.id ∧
        ((candidateIds db similar).filter (fun c =>
          decide (likeFrequency db similar d.id < likeFrequency db similar c))).length <
            (limit * 2).toNat) ∧
      (∀ d ∈ db.discoveries, d.id ∉ likedDiscoveryIds db userId →
        0 < likeFrequency db similar d.id → d ∉ ranked →
        (limit * 2).toNat ≤ ((candidateIds db similar).filter (fun c =>
          decide (c ≠ d.id ∧
            likeFrequency db similar d.id ≤ likeFrequency db similar c))).length ∨
        limit.toNat ≤ ((candidateIds db similar).filter (fun c =>
          decide (c ∉ likedDiscoveryIds db userId ∧ c ≠ d.id ∧
            likeFrequency db similar d.id ≤ likeFrequency db similar c))).length) ∧
      ((db.discoveries.map (fun d => d.id)).Nodup →
        (∀ c ∈ candidateIds db similar, c ∈ db.discoveries.map (fun d => d.id)) →
        limit.toNat ≤ (surelyFetched db userId similar limit).length →
        ranked.length = limit.toNat) := by
  obtain ⟨ranked, hret, hperm, hsorted, hfull⟩ :=
    collaborative_result_in_stored_order db userId limit similar hs hne hlimit
  have hids_sorted := idsByFrequency_sorted db similar
  have hids_nodup := nodup_idsByFrequency db similar
  have hfresh_sub : (freshAmongTop db userId similar limit).Sublist (idsByFrequency db similar) :=
    (List.filter_sublist _).trans (List.take_sublist _ _)
  have hmem_ranked : ∀ d, d ∈ ranked ↔
      d ∈ db.discoveries ∧ d.id ∈ (freshAmongTop db userId similar limit).take limit.toNat := by
    intro d
    rw [hperm.mem_iff, List.mem_filter, decide_eq_true_eq]
  have hmem_fresh : ∀ id, id ∈ freshAmongTop db userId similar limit ↔
      id ∈ (idsByFrequency db similar).take (limit * 2).toNat ∧
        id ∉ likedDiscoveryIds db userId := by
    intro id
    unfold freshAmongTop
    rw [List.mem_filter, decide_eq_true_eq]
  refine ⟨ranked, hret, hsorted, ?_, ?_, ?_, ?_⟩
  · have hsel_nodup : ((freshAmongTop db userId similar limit).take limit.toNat).Nodup :=
      hids_nodup.sublist ((List.take_sublist _ _).trans hfresh_sub)
    have hsub : uniq (ranked.map (fun d => d.id)) ⊆
        (freshAmongTop db userId similar limit).take limit.toNat := by
      intro id hid
      rw [mem_uniq] at hid
      obtain ⟨d, hd, rfl⟩ := List.mem_map.mp hid
      exact ((hmem_ranked d).1 hd).2
    have hle := (List.subperm_of_subset (nodup_uniq _) hsub).length_le
    have htake : ((freshAmongTop db userId similar limit).take limit.toNat).length ≤
        limit.toNat := by
      rw [List.length_take]
      exact Nat.min_le_left _ _
    omega
  · intro d hd
    obtain ⟨hcat, hsel⟩ := (hmem_ranked d).1 hd
    obtain ⟨htop, hnew⟩ := (hmem_fresh d.id).1 ((List.take_sublist _ _).subset hsel)
    refine ⟨hcat, hnew, ?_, ?_⟩
    · rw [← mem_candidateIds]
      exact (idsByFrequency_perm db similar).subset ((List.take_sublist _ _).subset htop)
    · rw [length_filter_candidateIds]
      exact filter_greater_of_mem_take hids_sorted htop
  · intro d hd hnew hliked hout
    have hcand : d.id ∈ idsByFrequency db similar :=
      (idsByFrequency_perm db similar).symm.subset ((mem_candidateIds db similar d.id).2 hliked)
    have hnotsel : d.id ∉ (freshAmongTop db userId similar limit).take limit.toNat :=
      fun h => hout ((hmem_ranked d).2 ⟨hd, h⟩)
    by_cases htop : d.id ∈ (idsByFrequency db similar).take (limit * 2).toNat
    · right
      have hin : d.id ∈ freshAmongTop db userId similar limit := (hmem_fresh d.id).2 ⟨htop, hnew⟩
      have h1 := take_le_filter_of_not_mem_take (hids_sorted.sublist hfresh_sub) hin hnotsel
      have h2 : ((freshAmongTop db userId similar limit).filter (fun c =>
          decide (c ≠ d.id ∧ likeFrequency db similar d.id ≤ likeFrequency db similar c))).length ≤
          ((idsByFrequency db similar).filter (fun c =>
            decide (c ∉ likedDiscoveryIds db userId ∧ c ≠ d.id ∧
              likeFrequency db similar d.id ≤ likeFrequency db similar c))).length := by
        unfold freshAmongTop
        rw [List.filter_filter]
        have hsub : (((idsByFrequency db similar).take (limit * 2).toNat).filter (fun c =>
            decide (c ≠ d.id ∧ likeFrequency db similar d.id ≤ likeFrequency db similar c) &&
              decide (c ∉ likedDiscoveryIds db userId))).Sublist
            ((idsByFrequency db similar).filter (fun c =>
              decide (c ≠ d.id ∧ likeFrequency db similar d.id ≤ likeFrequency db similar c) &&
                decide (c ∉ likedDiscoveryIds db userId))) :=
          (List.take_sublist _ _).filter _
        have hcongr : (idsByFrequency db similar).filter (fun c =>
            decide (c ≠ d.id ∧ likeFrequency db similar d.id ≤ likeFrequency db similar c) &&
              decide (c ∉ likedDiscoveryIds db userId)) =
            (idsByFrequency db similar).filter (fun c =>
              decide (c ∉ likedDiscoveryIds db userId ∧ c ≠ d.id ∧
                likeFrequency db similar d.id ≤ likeFrequency db similar c)) := by
          apply List.filter_congr
          intro c _
          by_cases h1 : c ∉ likedDiscoveryIds db userId <;>
            by_cases h2 : c ≠ d.id ∧ likeFrequency db similar d.id ≤ likeFrequency db similar c <;>
            simp [h1, h2]
        rw [← hcongr]
        exact hsub.length_le
      rw [length_filter_candidateIds]
      omega
    · left
      rw [length_filter_candidateIds]
      exact take_le_filter_of_not_mem_take hids_sorted hcand htop
  · intro hcat hrows hsure
    apply hfull hcat
    · intro id hid
      have h1 := (hmem_fresh id).1 ((List.take_sublist _ _).subset hid)
      exact hrows id ((idsByFrequency_perm db similar).subset ((List.take_sublist _ _).subset h1.1))
    · have hnd : (surelyFetched db userId similar limit).Nodup := (nodup_uniq _).filter _
      have hsub : surelyFetched db userId similar limit ⊆ freshAmongTop db userId similar limit := by
        intro c hc
        unfold surelyFetched at hc
        rw [List.mem_filter, decide_eq_true_eq] at hc
        obtain ⟨hcand, hnew, hfew⟩ := hc
        rw [hmem_fresh]
        refine ⟨?_, hnew⟩
        by_contra hout
        have := take_le_filter_of_not_mem_take hids_sorted
          ((idsByFrequency_perm db similar).symm.subset hcand) hout
        rw [← length_filter_candidateIds] at this
        omega
      have := (List.subperm_of_subset hnd hsub).length_le
      omega

/-- Witness of C4 amended: in the sample state user 4 has similar users 1, 2 and 3; the
candidates 1 and 2 are liked three times each and candidate 3 once, user 4 has liked 1, and
with limit 1 exactly discovery 2 is returned, whichever of 1 and 2 the database lists first. -/
theorem collaborative_selects_within_twice_limit_witness :
    (getCollaborativeRecommendations sampleDb 4 1).map (fun r => r.map (fun d => d.id)) =
      .ok [2] ∧
    (candidateIds sampleDb [1, 2, 3]).map (fun c => (c, likeFrequency sampleDb [1, 2, 3] c)) =
      [(1, 3), (2, 3), (3, 1)] ∧
    surelyFetched sampleDb 4 [1, 2, 3] 1 = [2] ∧
    ∃ ranked : List Discovery,
      getCollaborativeRecommendations sampleDb 4 1 = .ok ranked ∧
      ranked.Pairwise (fun a b => b.rating ≤ a.rating) ∧
      (uniq (ranked.map (fun d => d.id))).length ≤ (1 : Int).toNat ∧
      ranked.length = (1 : Int).toNat :=
  ⟨by decide!, by decide, by decide,
    match collaborative_selects_within_twice_limit sampleDb 4 1 [1, 2, 3] (by decide)
      (by decide) (by decide) with
    | ⟨ranked, hret, hsorted, hdistinct, _, _, hfull⟩ =>
      ⟨ranked, hret, hsorted, hdistinct, hfull (by decide) (by decide) (by decide)⟩⟩

/-! ## Likes recorded by the like service -/

/-- The operation `likeDiscovery` leaves the `likes` table and the catalog as they were. -/
theorem likeDiscovery_likes_unchanged (db : Db) (userId discoveryId : Nat) :
    (LikeService.likeDiscovery db userId discoveryId).1.likes = db.likes ∧
    (LikeService.likeDiscovery db userId discoveryId).1.discoveries = db.discoveries :=
  ⟨rfl, rfl⟩

/-- C5 evaluated: users 1 and 2 both like discovery 7 through `likeDiscovery`, which succeeds
and stores the id in their preference rows; the `likes` table stays empty, the three strategies
still return discovery 7 to user 1 and `findSimilarUsers` finds nobody. -/
theorem likeDiscovery_invisible_to_recommender :
    (LikeService.likeDiscovery freshDb 1 7).2.success = true ∧
    (LikeService.likeDiscovery (LikeService.likeDiscovery freshDb 1 7).1 2 7).1.userPreferences.map
      (fun p => (p.userId, p.likedDiscoveries)) = [(1, some [7]), (2, some [7])] ∧
    (LikeService.likeDiscovery (LikeService.likeDiscovery freshDb 1 7).1 2 7).1.likes = [] ∧
    getCollaborativeRecommendations
      (LikeService.likeDiscovery (LikeService.likeDiscovery freshDb 1 7).1 2 7).1 1 10 =
        .ok [sampleDiscovery 7 5 true ["beach"]] ∧
    getDiscoveryBasedRecommendations
      (LikeService.likeDiscovery (LikeService.likeDiscovery freshDb 1 7).1 2 7).1 1 10 =
        .ok [sampleDiscovery 7 5 true ["beach"]] ∧
    getPersonalizedDiscoveries
      (LikeService.likeDiscovery (LikeService.likeDiscovery freshDb 1 7).1 2 7).1 1 10 =
        .ok [sampleDiscovery 7 5 true ["beach"]] ∧
    findSimilarUsers
      (LikeService.likeDiscovery (LikeService.likeDiscovery freshDb 1 7).1 2 7).1 1 10 = .ok [] := by
  decide

/-! ## Ranking by rating -/

theorem trendingDiscoveries_pairwise {db : Db} {limit : Int} {r : List Discovery}
    (h : trendingDiscoveries db limit = .ok r) : r.Pairwise (fun a b => b.rating ≤ a.rating) := by
  have hr := sqlLimit_eq_ok h
  subst hr
  exact (orderByDesc_pairwise _ _).sublist (List.take_sublist _ _)

/-- C6: whatever each of the three strategies returns, in the trending fallback and in the
personalised branch alike, is sorted by rating in non-increasing order. -/
theorem strategies_sorted_by_rating (db : Db) (userId : Nat) (limit : Int) :
    (∀ r, getCollaborativeRecommendations db userId limit = .ok r →
      r.Pairwise (fun a b => b.rating ≤ a.rating)) ∧
    (∀ r, getDiscoveryBasedRecommendations db userId limit = .ok r →
      r.Pairwise (fun a b => b.rating ≤ a.rating)) ∧
    (∀ r, getPersonalizedDiscoveries db userId limit = .ok r →
      r.Pairwise (fun a b => b.rating ≤ a.rating)) := by
  refine ⟨?_, ?_, ?_⟩
  · intro r hr
    obtain ⟨similar, hs⟩ := findSimilarUsers_ok db userId (show (0 : Int) ≤ 20 by decide)
    by_cases hne : similar = []
    · subst hne
      rw [getCollaborativeRecommendations_of_no_similar limit hs] at hr
      exact trendingDiscoveries_pairwise (rethrow_eq_ok hr)
    · rw [getCollaborativeRecommendations_of_similar limit hs hne] at hr
      cases hrows : similarUserLikes db similar limit with
      | error m => rw [hrows] at hr; cases hr
      | ok rows =>
        rw [hrows] at hr
        simp only [Except.ok.injEq] at hr
        subst hr
        exact orderByDesc_pairwise _ _
  · intro r hr
    by_cases hnil : discoveryLikesOf db userId = []
    · rw [getDiscoveryBasedRecommendations_of_no_likes limit hnil] at hr
      exact trendingDiscoveries_pairwise (rethrow_eq_ok hr)
    · simp only [getDiscoveryBasedRecommendations, List.length_eq_zero, hnil, if_false] at hr
      have h := sqlLimit_eq_ok (rethrow_eq_ok hr)
      subst h
      exact (orderByDesc_pairwise _ _).sublist (List.take_sublist _ _)
  · intro r hr
    by_cases hnil : discoveryLikesOf db userId = []
    · rw [getPersonalizedDiscoveries_of_no_likes limit hnil] at hr
      exact trendingDiscoveries_pairwise (rethrow_eq_ok hr)
    · simp only [getPersonalizedDiscoveries, List.length_eq_zero, hnil, if_false] at hr
      have h := sqlLimit_eq_ok (rethrow_eq_ok hr)
      subst h
      exact (orderByDesc_pairwise _ _).sublist (List.take_sublist _ _)

/-- Witness of C6: for user 1 of the sample state the collaborative strategy returns
discovery 3 and the two content strategies return discoveries 4 and 3, each list sorted. -/
theorem strategies_sorted_by_rating_witness :
    [sampleDiscovery 3 3 false ["beach"]].Pairwise (fun a b => b.rating ≤ a.rating) ∧
    [sampleDiscovery 4 (9 / 2) true [], sampleDiscovery 3 3 false ["beach"]].Pairwise
      (fun a b => b.rating ≤ a.rating) ∧
    [sampleDiscovery 4 (9 / 2) true [], sampleDiscovery 3 3 false ["beach"]].Pairwise
      (fun a b => b.rating ≤ a.rating) :=
  ⟨(strategies_sorted_by_rating sampleDb 1 2).1 _ (by decide),
    (strategies_sorted_by_rating sampleDb 1 2).2.1 _ (by decide!),
    (strategies_sorted_by_rating sampleDb 1 2).2.2 _ (by decide!)⟩


/-! ## The discovery-based strategy -/

theorem overlap_uniq_flatten_iff (tags : List String) (liked : List Discovery) :
    overlap tags (uniq (liked.map (fun d => d.tags)).flatten) = true ↔
      ∃ l ∈ liked, ∃ t ∈ tags, t ∈ l.tags := by
  simp only [overlap, List.any_eq_true, decide_eq_true_eq, mem_uniq, List.mem_flatten,
    List.mem_map]
  constructor
  · rintro ⟨t, ht, _, ⟨l, hl, rfl⟩, htl⟩
    exact ⟨l, hl, t, ht, htl⟩
  · rintro ⟨l, hl, t, ht, htl⟩
    exact ⟨t, ht, _, ⟨l, hl, rfl⟩, htl⟩

theorem mem_uniq_map_iff {β : Type} [DecidableEq β] (f : Discovery → β) (liked : List Discovery)
    (x : β) : x ∈ uniq (liked.map f) ↔ ∃ l ∈ liked, x = f l := by
  simp only [mem_uniq, List.mem_map]
  constructor
  · rintro ⟨l, hl, rfl⟩
    exact ⟨l, hl, rfl⟩
  · rintro ⟨l, hl, rfl⟩
    exact ⟨l, hl, rfl⟩

theorem discoveryLikesOf_ne_nil {db : Db} {userId : Nat}
    (h : likedDiscoveryIds db userId ≠ []) : discoveryLikesOf db userId ≠ [] := by
  intro hnil
  exact h (likedDiscoveryIds_eq_nil_of_no_discoveryLikes hnil)

theorem getDiscoveryBasedRecommendations_of_likes {db : Db} {userId : Nat} (limit : Int)
    (h : likedDiscoveryIds db userId ≠ []) :
    getDiscoveryBasedRecommendations db userId limit =
      rethrow "Failed to get discovery-based recommendations"
        (sqlLimit limit (orderByDesc (fun d => d.rating) (signatureCandidates db userId))) := by
  have hnil := discoveryLikesOf_ne_nil h
  simp only [getDiscoveryBasedRecommendations, List.length_eq_zero, hnil, if_false,
    discoveryLikesOf_ids, signatureCandidates]
  congr 3
  apply List.filter_congr
  intro d _
  rw [Bool.eq_iff_iff]
  simp only [Bool.and_eq_true, Bool.or_eq_true, decide_eq_true_eq, overlap_uniq_flatten_iff,
    mem_uniq_map_iff, matchesOn]
  constructor
  · rintro ⟨hid, hm⟩
    refine ⟨hid, ?_⟩
    rcases hm with ((⟨l, hl, h⟩ | ⟨l, hl, h⟩) | ⟨l, hl, h⟩) | ⟨l, hl, h⟩
    · exact ⟨l, hl, Or.inl h⟩
    · exact ⟨l, hl, Or.inr (Or.inl h)⟩
    · exact ⟨l, hl, Or.inr (Or.inr (Or.inl h))⟩
    · exact ⟨l, hl, Or.inr (Or.inr (Or.inr h))⟩
  · rintro ⟨hid, l, hl, hm⟩
    refine ⟨hid, ?_⟩
    rcases hm with h | h | h | h
    · exact Or.inl (Or.inl (Or.inl ⟨l, hl, h⟩))
    · exact Or.inl (Or.inl (Or.inr ⟨l, hl, h⟩))
    · exact Or.inl (Or.inr ⟨l, hl, h⟩)
    · exact Or.inr ⟨l, hl, h⟩

/-- C7: for a user with at least one liked discovery and a positive limit, the
discovery-based strategy returns the first `limit` entries of a ranking by rating descending of
exactly the catalog discoveries the user has not liked that share a tag with some liked
discovery or have the category, location or price of some liked discovery; every returned
item matches a liked discovery on one of the four axes. -/
theorem discovery_based_returns_signature_matches (db : Db) (userId : Nat) (limit : Int)
    (hliked : likedDiscoveryIds db userId ≠ []) (hlimit : 0 < limit) :
    ∃ ranked : List Discovery,
      ranked.Perm (signatureCandidates db userId) ∧
      ranked.Pairwise (fun a b => b.rating ≤ a.rating) ∧
      getDiscoveryBasedRecommendations db userId limit = .ok (ranked.take limit.toNat) ∧
      ∀ d ∈ ranked.take limit.toNat,
        d ∈ db.discoveries ∧ d.id ∉ likedDiscoveryIds db userId ∧
          ∃ l ∈ likedDiscoveries db userId,
            (∃ t ∈ d.tags, t ∈ l.tags) ∨ d.category = l.category ∨ d.location = l.location ∨
              d.price = l.price := by
  refine ⟨orderByDesc (fun d => d.rating) (signatureCandidates db userId), orderByDesc_perm _ _,
    orderByDesc_pairwise _ _, ?_, ?_⟩
  · rw [getDiscoveryBasedRecommendations_of_likes limit hliked, sqlLimit_of_nonneg hlimit.le]
    rfl
  · intro d hd
    have hmem := (List.take_sublist _ _).subset hd
    rw [mem_orderByDesc, signatureCandidates, List.mem_filter, decide_eq_true_eq] at hmem
    exact ⟨hmem.1, hmem.2.1, hmem.2.2⟩

/-- Witness of C7: user 1 of the scenario state, limit 5. -/
theorem discovery_based_returns_signature_matches_witness :
    ∃ ranked : List Discovery,
      ranked.Perm (signatureCandidates scenarioDb 1) ∧
      ranked.Pairwise (fun a b => b.rating ≤ a.rating) ∧
      getDiscoveryBasedRecommendations scenarioDb 1 5 = .ok (ranked.take (5 : Int).toNat) ∧
      ∀ d ∈ ranked.take (5 : Int).toNat,
        d ∈ scenarioDb.discoveries ∧ d.id ∉ likedDiscoveryIds scenarioDb 1 ∧
          ∃ l ∈ likedDiscoveries scenarioDb 1,
            (∃ t ∈ d.tags, t ∈ l.tags) ∨ d.category = l.category ∨ d.location = l.location ∨
              d.price = l.price :=
  discovery_based_returns_signature_matches scenarioDb 1 5 (by decide) (by decide)

/-! ## The personalized strategy: scores -/

theorem keys_addScore (scores : List (String × ℚ)) (key : String) (weight : ℚ) :
    (addScore scores key weight).map Prod.fst =
      if key ∈ scores.map Prod.fst then scores.map Prod.fst else scores.map Prod.fst ++ [key] := by
  unfold addScore
  by_cases h : key ∈ scores.map Prod.fst
  · have hany : scores.any (fun p => decide (p.1 = key)) = true := by
      obtain ⟨p, hp, rfl⟩ := List.mem_map.mp h
      exact List.any_eq_true.mpr ⟨p, hp, by simp⟩
    rw [if_pos hany, if_pos h, List.map_map]
    apply List.map_congr_left
    intro p _
    by_cases hk : p.1 = key <;> simp [hk]
  · have hany : ¬ scores.any (fun p => decide (p.1 = key)) = true := by
      intro hc
      obtain ⟨p, hp, hpk⟩ := List.any_eq_true.mp hc
      exact h (List.mem_map.mpr ⟨p, hp, of_decide_eq_true hpk⟩)
    rw [if_neg hany, if_neg h, List.map_append]
    rfl

theorem mem_keys_addScore (scores : List (String × ℚ)) (key : String) (weight : ℚ) (k : String) :
    k ∈ (addScore scores key weight).map Prod.fst ↔ k ∈ scores.map Prod.fst ∨ k = key := by
  rw [keys_addScore]
  split
  · constructor
    · exact Or.inl
    · rintro (h | rfl)
      · exact h
      · assumption
  · simp

theorem nodup_keys_addScore {scores : List (String × ℚ)} (key : String) (weight : ℚ)
    (h : (scores.map Prod.fst).Nodup) : ((addScore scores key weight).map Prod.fst).Nodup := by
  rw [keys_addScore]
  split
  · exact h
  · rename_i hk
    rw [List.nodup_append]
    exact ⟨h, List.nodup_singleton _, by
      intro a ha hb
      rw [List.mem_singleton] at hb
      exact hk (hb ▸ ha)⟩

theorem scoreOf_cons (p : String × ℚ) (ps : List (String × ℚ)) (k : String) :
    scoreOf (p :: ps) k = if p.1 = k then p.2 else scoreOf ps k := rfl

theorem scoreOf_eq_zero_of_not_mem {scores : List (String × ℚ)} {k : String}
    (h : k ∉ scores.map Prod.fst) : scoreOf scores k = 0 := by
  induction scores with
  | nil => rfl
  | cons p ps ih =>
    simp only [List.map_cons, List.mem_cons, not_or] at h
    simp only [scoreOf]
    rw [if_neg (fun hc => h.1 hc.symm)]
    exact ih h.2

theorem scoreOf_map_add (scores : List (String × ℚ)) (key : String) (weight : ℚ) (k : String) :
    scoreOf (scores.map (fun p => if p.1 = key then (p.1, numberAdd p.2 weight) else p)) k =
      if k = key then
        if k ∈ scores.map Prod.fst then numberAdd (scoreOf scores k) weight else scoreOf scores k
      else scoreOf scores k := by
  induction scores with
  | nil =>
    by_cases hk : k = key <;> simp [scoreOf, hk]
  | cons p ps ih =>
    rw [List.map_cons, scoreOf_cons, ih, scoreOf_cons, List.map_cons]
    by_cases hp : p.1 = key
    · rw [if_pos hp]
      by_cases hk : p.1 = k
      · have hkk : k = key := hk ▸ hp
        have hmem : k ∈ p.1 :: ps.map Prod.fst := hk ▸ List.mem_cons_self _ _
        rw [if_pos hk, if_pos hkk, if_pos hmem, if_pos hk]
      · have hkk : ¬ k = key := fun hc => hk (hp.trans hc.symm)
        rw [if_neg hk, if_neg hkk, if_neg hkk, if_neg hk]
    · rw [if_neg hp]
      by_cases hk : p.1 = k
      · have hkk : ¬ k = key := fun hc => hp (hk.trans hc)
        rw [if_pos hk, if_neg hkk, if_pos hk]
      · rw [if_neg hk, if_neg hk]
        have hmem : k ∈ p.1 :: ps.map Prod.fst ↔ k ∈ ps.map Prod.fst := by
          rw [List.mem_cons]
          exact ⟨fun h => h.resolve_left (fun hc => hk hc.symm), Or.inr⟩
        by_cases hkk : k = key
        · rw [if_pos hkk, if_pos hkk]
          exact if_congr hmem.symm rfl rfl
        · rw [if_neg hkk, if_neg hkk]

theorem scoreOf_append_single (scores : List (String × ℚ)) (key : String) (value : ℚ)
    (k : String) (h : key ∉ scores.map Prod.fst) :
    scoreOf (scores ++ [(key, value)]) k = if k = key then value else scoreOf scores k := by
  induction scores with
  | nil =>
    by_cases hk : key = k
    · simp [scoreOf, hk]
    · have : ¬ k = key := fun hc => hk hc.symm
      simp [scoreOf, hk, this]
  | cons p ps ih =>
    simp only [List.map_cons, List.mem_cons, not_or] at h
    rw [List.cons_append, scoreOf_cons, scoreOf_cons]
    by_cases hk : p.1 = k
    · have : ¬ k = key := fun hc => h.1 (hc.symm.trans hk.symm)
      simp [hk, this]
    · rw [if_neg hk, if_neg hk, ih h.2]

/-- The update `scores[key] = (scores[key] || 0) + weight` adds the weight to the score of
`key` and leaves the other scores. -/
theorem scoreOf_addScore (scores : List (String × ℚ)) (key : String) (weight : ℚ) (k : String) :
    scoreOf (addScore scores key weight) k =
      if k = key then numberAdd (scoreOf scores k) weight else scoreOf scores k := by
  unfold addScore
  by_cases h : key ∈ scores.map Prod.fst
  · have hany : scores.any (fun p => decide (p.1 = key)) = true := by
      obtain ⟨p, hp, rfl⟩ := List.mem_map.mp h
      exact List.any_eq_true.mpr ⟨p, hp, by simp⟩
    rw [if_pos hany, scoreOf_map_add]
    by_cases hk : k = key
    · subst hk
      simp [h]
    · simp [hk]
  · have hany : ¬ scores.any (fun p => decide (p.1 = key)) = true := by
      intro hc
      obtain ⟨p, hp, hpk⟩ := List.any_eq_true.mp hc
      exact h (List.mem_map.mpr ⟨p, hp, of_decide_eq_true hpk⟩)
    rw [if_neg hany, scoreOf_append_single _ _ _ _ h]
    by_cases hk : k = key
    · subst hk
      rw [if_pos rfl, if_pos rfl, scoreOf_eq_zero_of_not_mem h]
    · rw [if_neg hk, if_neg hk]

theorem scoreOf_foldl_tags (tags : List String) (weight : ℚ) (scores : List (String × ℚ))
    (k : String) :
    scoreOf (tags.foldl (fun acc tag => addScore acc tag weight) scores) k =
      (List.replicate (tags.count k) weight).foldl numberAdd (scoreOf scores k) := by
  induction tags generalizing scores with
  | nil => simp
  | cons t ts ih =>
    rw [List.foldl_cons, ih, scoreOf_addScore]
    by_cases hk : k = t
    · subst hk
      rw [if_pos rfl, List.count_cons_self, List.replicate_succ, List.foldl_cons]
    · have hne : ¬ (t == k) = true := by simpa using fun hc => hk hc.symm
      rw [if_neg hk, List.count_cons, if_neg hne, Nat.add_zero]

theorem mem_keys_foldl_tags (tags : List String) (weight : ℚ) (scores : List (String × ℚ))
    (k : String) :
    k ∈ (tags.foldl (fun acc tag => addScore acc tag weight) scores).map Prod.fst ↔
      k ∈ scores.map Prod.fst ∨ k ∈ tags := by
  induction tags generalizing scores with
  | nil => simp
  | cons t ts ih =>
    rw [List.foldl_cons, ih, mem_keys_addScore, List.mem_cons, or_assoc]

theorem nodup_keys_foldl_tags (tags : List String) (weight : ℚ) {scores : List (String × ℚ)}
    (h : (scores.map Prod.fst).Nodup) :
    ((tags.foldl (fun acc tag => addScore acc tag weight) scores).map Prod.fst).Nodup := by
  induction tags generalizing scores with
  | nil => exact h
  | cons t ts ih =>
    rw [List.foldl_cons]
    exact ih (nodup_keys_addScore t weight h)


/-- The weights the loop adds to the score of a tag: the weight of each liked discovery, once
per occurrence of the tag in its tag list. -/
theorem scoreOf_foldl_scoreLike (liked : List Discovery) (scores : PreferenceScores) (k : String) :
    scoreOf (liked.foldl scoreLike scores).tags k =
        (liked.flatMap (fun d => List.replicate (d.tags.count k) (likeWeight d))).foldl numberAdd
          (scoreOf scores.tags k) ∧
    scoreOf (liked.foldl scoreLike scores).categories k =
        ((liked.filter (fun d => decide (d.category = k))).map likeWeight).foldl numberAdd
          (scoreOf scores.categories k) ∧
    scoreOf (liked.foldl scoreLike scores).locations k =
        ((liked.filter (fun d => decide (d.location = k))).map likeWeight).foldl numberAdd
          (scoreOf scores.locations k) := by
  induction liked generalizing scores with
  | nil => exact ⟨rfl, rfl, rfl⟩
  | cons d ds ih =>
    rw [List.foldl_cons]
    obtain ⟨h1, h2, h3⟩ := ih (scoreLike scores d)
    rw [h1, h2, h3]
    refine ⟨?_, ?_, ?_⟩
    · rw [List.flatMap_cons, List.foldl_append]
      simp only [scoreLike, scoreOf_foldl_tags]
    · simp only [scoreLike, scoreOf_addScore]
      by_cases h : d.category = k
      · rw [if_pos h.symm, List.filter_cons, if_pos (decide_eq_true h), List.map_cons,
          List.foldl_cons]
      · rw [if_neg (fun hc => h hc.symm), List.filter_cons, if_neg (by simpa using h)]
    · simp only [scoreLike, scoreOf_addScore]
      by_cases h : d.location = k
      · rw [if_pos h.symm, List.filter_cons, if_pos (decide_eq_true h), List.map_cons,
          List.foldl_cons]
      · rw [if_neg (fun hc => h hc.symm), List.filter_cons, if_neg (by simpa using h)]

/-- When no tag list names a tag twice, the weights added to the score of a tag are those of
the liked discoveries carrying it. -/
theorem flatMap_replicate_count (liked : List Discovery) (k : String)
    (hnodup : ∀ d ∈ liked, d.tags.Nodup) :
    liked.flatMap (fun d => List.replicate (d.tags.count k) (likeWeight d)) =
      (liked.filter (fun d => decide (k ∈ d.tags))).map likeWeight := by
  induction liked with
  | nil => rfl
  | cons d ds ih =>
    rw [List.flatMap_cons, ih (fun x hx => hnodup x (List.mem_cons_of_mem _ hx))]
    by_cases hk : k ∈ d.tags
    · rw [List.count_eq_one_of_mem (hnodup d (List.mem_cons_self _ _)) hk]
      simp [List.filter_cons, hk]
    · rw [List.count_eq_zero_of_not_mem hk]
      simp [List.filter_cons, hk]

theorem keys_foldl_scoreLike (liked : List Discovery) (scores : PreferenceScores) (k : String) :
    (k ∈ (liked.foldl scoreLike scores).tags.map Prod.fst ↔
        k ∈ scores.tags.map Prod.fst ∨ ∃ d ∈ liked, k ∈ d.tags) ∧
    (k ∈ (liked.foldl scoreLike scores).categories.map Prod.fst ↔
        k ∈ scores.categories.map Prod.fst ∨ ∃ d ∈ liked, k = d.category) ∧
    (k ∈ (liked.foldl scoreLike scores).locations.map Prod.fst ↔
        k ∈ scores.locations.map Prod.fst ∨ ∃ d ∈ liked, k = d.location) := by
  induction liked generalizing scores with
  | nil => simp
  | cons d ds ih =>
    rw [List.foldl_cons]
    obtain ⟨h1, h2, h3⟩ := ih (scoreLike scores d)
    rw [h1, h2, h3]
    simp only [scoreLike, mem_keys_foldl_tags, mem_keys_addScore, List.mem_cons, exists_eq_or_imp,
      or_assoc]
    exact ⟨trivial, trivial, trivial⟩

theorem nodup_keys_foldl_scoreLike (liked : List Discovery) (scores : PreferenceScores)
    (ht : (scores.tags.map Prod.fst).Nodup) (hc : (scores.categories.map Prod.fst).Nodup)
    (hl : (scores.locations.map Prod.fst).Nodup) :
    ((liked.foldl scoreLike scores).tags.map Prod.fst).Nodup ∧
    ((liked.foldl scoreLike scores).categories.map Prod.fst).Nodup ∧
    ((liked.foldl scoreLike scores).locations.map Prod.fst).Nodup := by
  induction liked generalizing scores with
  | nil => exact ⟨ht, hc, hl⟩
  | cons d ds ih =>
    rw [List.foldl_cons]
    exact ih (scoreLike scores d) (nodup_keys_foldl_tags _ _ ht) (nodup_keys_addScore _ _ hc)
      (nodup_keys_addScore _ _ hl)

/-! ## The personalized strategy: top keys -/

theorem scoreOf_of_mem {scores : List (String × ℚ)} (h : (scores.map Prod.fst).Nodup)
    {p : String × ℚ} (hp : p ∈ scores) : scoreOf scores p.1 = p.2 := by
  induction scores with
  | nil => cases hp
  | cons q qs ih =>
    rw [List.map_cons, List.nodup_cons] at h
    rw [scoreOf_cons]
    rcases List.mem_cons.mp hp with rfl | hmem
    · rw [if_pos rfl]
    · have hne : ¬ q.1 = p.1 := fun hc => h.1 (hc ▸ List.mem_map.mpr ⟨p, hmem, rfl⟩)
      rw [if_neg hne]
      exact ih h.2 hmem

theorem topKeys_isTopSelection (scores : List (String × ℚ)) (n : Nat)
    (h : (scores.map Prod.fst).Nodup) : IsTopSelection scores n (topKeys scores n) := by
  have hperm : ((orderByDesc Prod.snd scores).map Prod.fst).Perm (scores.map Prod.fst) :=
    (orderByDesc_perm Prod.snd scores).map Prod.fst
  have hnd : ((orderByDesc Prod.snd scores).map Prod.fst).Nodup := hperm.nodup_iff.mpr h
  have hsorted := orderByDesc_pairwise Prod.snd scores
  refine ⟨hnd.sublist (List.take_sublist _ _), ?_, ?_, ?_, ?_⟩
  · unfold topKeys
    rw [List.length_take]
    exact Nat.min_le_left _ _
  · intro k hk
    exact hperm.subset ((List.take_sublist _ _).subset hk)
  · intro k hk k2 hk2 hk2top
    unfold topKeys at hk hk2top
    rw [← List.map_take] at hk hk2top
    obtain ⟨p, hp, rfl⟩ := List.mem_map.mp hk
    obtain ⟨q, hq, rfl⟩ := List.mem_map.mp hk2
    have hq2 : q ∈ orderByDesc Prod.snd scores := (mem_orderByDesc _ _ _).mpr hq
    rw [← List.take_append_drop n (orderByDesc Prod.snd scores), List.mem_append] at hq2
    have hqdrop : q ∈ (orderByDesc Prod.snd scores).drop n := by
      rcases hq2 with hq2 | hq2
      · exact absurd (List.mem_map.mpr ⟨q, hq2, rfl⟩) hk2top
      · exact hq2
    rw [← List.take_append_drop n (orderByDesc Prod.snd scores), List.pairwise_append] at hsorted
    have hle := hsorted.2.2 p hp q hqdrop
    have hpmem : p ∈ scores :=
      (mem_orderByDesc _ _ _).mp ((List.take_sublist _ _).subset hp)
    rw [scoreOf_of_mem h hpmem, scoreOf_of_mem h hq]
    exact hle
  · intro hlen k hk
    unfold topKeys
    rw [List.take_of_length_le]
    · exact hperm.symm.subset hk
    · rw [hperm.length_eq]
      exact hlen


/-! ## The personalized strategy: scores, selection and result -/

theorem getPersonalizedDiscoveries_of_likes {db : Db} {userId : Nat} (limit : Int)
    (h : likedDiscoveryIds db userId ≠ []) :
    getPersonalizedDiscoveries db userId limit =
      rethrow "Failed to get personalized discoveries"
        (sqlLimit limit
          (orderByDesc (fun d => d.rating)
            (db.discoveries.filter (fun d =>
              decide (d.id ∉ likedDiscoveryIds db userId) &&
                (overlap d.tags (topKeys (preferenceScores db userId).tags 5) ||
                  decide (d.category ∈ topKeys (preferenceScores db userId).categories 3) ||
                  decide (d.location ∈ topKeys (preferenceScores db userId).locations 3)))))) := by
  have hnil := discoveryLikesOf_ne_nil h
  simp only [getPersonalizedDiscoveries, List.length_eq_zero, hnil, if_false,
    discoveryLikesOf_ids]

/-- The arithmetic of numbers on sample values: 0.1 and 0.3 are the doubles nearest to them,
small dyadic numbers are doubles, and 0.1 + 0.2 is the double above 0.3, although the exact
sum of the quotients is three tenths. -/
theorem numberAdd_samples :
    toDouble (1 / 10) = 3602879701896397 / 36028797018963968 ∧
    toDouble (3 / 10) = 5404319552844595 / 18014398509481984 ∧
    toDouble (9 / 2) = 9 / 2 ∧ toDouble 5 = 5 ∧ toDouble (-5 / 2) = -5 / 2 ∧
    numberDiv (1 / 2) 5 = toDouble (1 / 10) ∧ numberDiv (3 / 2) 5 = toDouble (3 / 10) ∧
    numberAdd (numberDiv (1 / 2) 5) (numberDiv 1 5) = 5404319552844596 / 18014398509481984 ∧
    toDouble (3 / 10) < numberAdd (numberDiv (1 / 2) 5) (numberDiv 1 5) ∧
    ((1 / 2 : ℚ) / 5 + 1 / 5 = 3 / 2 / 5) := by
  decide!

/-- C8: for a user with at least one liked discovery and a positive limit, the accumulated
score of a tag, a category and a location is the sum of `rating / 5` over the liked
discoveries carrying it, the weights being added in the arithmetic of the code (doubles, in
the order of the like rows; for the tags, when no tag list names a tag twice); the keys are
the tags, categories and locations of the liked discoveries; the selected sets are choices of
the 5, 3 and 3 best keys by these scores; and the strategy returns a list whose every item
carries a selected tag or has a selected category or location. -/
theorem personalized_scores_and_selection (db : Db) (userId : Nat) (limit : Int)
    (hliked : likedDiscoveryIds db userId ≠ []) (hlimit : 0 < limit) :
    ((∀ d ∈ likedDiscoveries db userId, d.tags.Nodup) →
      ∀ k, scoreOf (preferenceScores db userId).tags k =
        claimedScore (likedDiscoveries db userId) (fun d => decide (k ∈ d.tags))) ∧
    (∀ k, scoreOf (preferenceScores db userId).categories k =
      claimedScore (likedDiscoveries db userId) (fun d => decide (d.category = k))) ∧
    (∀ k, scoreOf (preferenceScores db userId).locations k =
      claimedScore (likedDiscoveries db userId) (fun d => decide (d.location = k))) ∧
    (∀ k, k ∈ (preferenceScores db userId).tags.map Prod.fst ↔
      ∃ d ∈ likedDiscoveries db userId, k ∈ d.tags) ∧
    (∀ k, k ∈ (preferenceScores db userId).categories.map Prod.fst ↔
      ∃ d ∈ likedDiscoveries db userId, k = d.category) ∧
    (∀ k, k ∈ (preferenceScores db userId).locations.map Prod.fst ↔
      ∃ d ∈ likedDiscoveries db userId, k = d.location) ∧
    IsTopSelection (preferenceScores db userId).tags 5
      (topKeys (preferenceScores db userId).tags 5) ∧
    IsTopSelection (preferenceScores db userId).categories 3
      (topKeys (preferenceScores db userId).categories 3) ∧
    IsTopSelection (preferenceScores db userId).locations 3
      (topKeys (preferenceScores db userId).locations 3) ∧
    ∃ r, getPersonalizedDiscoveries db userId limit = .ok r ∧
      ∀ d ∈ r, (∃ t ∈ d.tags, t ∈ topKeys (preferenceScores db userId).tags 5) ∨
        d.category ∈ topKeys (preferenceScores db userId).categories 3 ∨
        d.location ∈ topKeys (preferenceScores db userId).locations 3 := by
  have hscore := fun k => scoreOf_foldl_scoreLike (likedDiscoveries db userId)
    { tags := [], categories := [], locations := [], priceRanges := [] } k
  have hkeys := fun k => keys_foldl_scoreLike (likedDiscoveries db userId)
    { tags := [], categories := [], locations := [], priceRanges := [] } k
  have hnd := nodup_keys_foldl_scoreLike (likedDiscoveries db userId)
    { tags := [], categories := [], locations := [], priceRanges := [] }
    List.nodup_nil List.nodup_nil List.nodup_nil
  refine ⟨?_, ?_, ?_, ?_, ?_, ?_, topKeys_isTopSelection _ _ hnd.1,
    topKeys_isTopSelection _ _ hnd.2.1, topKeys_isTopSelection _ _ hnd.2.2, ?_⟩
  · intro hnodup k
    have h := (hscore k).1
    rw [flatMap_replicate_count _ k hnodup] at h
    exact h
  · intro k
    exact (hscore k).2.1
  · intro k
    exact (hscore k).2.2
  · intro k
    have h := (hkeys k).1
    simpa using h
  · intro k
    have h := (hkeys k).2.1
    simpa using h
  · intro k
    have h := (hkeys k).2.2
    simpa using h
  · have hret := getPersonalizedDiscoveries_of_likes limit hliked
    rw [sqlLimit_of_nonneg hlimit.le] at hret
    refine ⟨_, hret, ?_⟩
    · intro d hd
      have hmem := (List.take_sublist _ _).subset hd
      rw [mem_orderByDesc, List.mem_filter] at hmem
      simp only [Bool.and_eq_true, Bool.or_eq_true, decide_eq_true_eq, overlap,
        List.any_eq_true] at hmem
      rcases hmem.2.2 with (h | h) | h
      · exact Or.inl h
      · exact Or.inr (Or.inl h)
      · exact Or.inr (Or.inr h)

/-- Witness of C8: in the rounding state the weights 0.1 and 0.2 of the two discoveries in Goa
add up to 0.30000000000000004, above the weight 0.3 of the discovery in Bali, so Goa is the
third selected location and discovery 7 in Goa is returned. -/
theorem personalized_scores_and_selection_witness :
    scoreOf (preferenceScores roundingDb 1).locations "Goa" =
      5404319552844596 / 18014398509481984 ∧
    scoreOf (preferenceScores roundingDb 1).locations "Bali" =
      5404319552844595 / 18014398509481984 ∧
    topKeys (preferenceScores roundingDb 1).locations 3 = ["Rome", "Paris", "Goa"] ∧
    (getPersonalizedDiscoveries roundingDb 1 5).map (fun r => r.map (fun d => d.id)) = .ok [7] ∧
    scoreOf (preferenceScores roundingDb 1).locations "Goa" =
      claimedScore (likedDiscoveries roundingDb 1) (fun d => decide (d.location = "Goa")) ∧
    scoreOf (preferenceScores roundingDb 1).tags "beach" =
      claimedScore (likedDiscoveries roundingDb 1) (fun d => decide ("beach" ∈ d.tags)) ∧
    IsTopSelection (preferenceScores roundingDb 1).locations 3
      (topKeys (preferenceScores roundingDb 1).locations 3) ∧
    ∃ r, getPersonalizedDiscoveries roundingDb 1 5 = .ok r ∧
      ∀ d ∈ r, (∃ t ∈ d.tags, t ∈ topKeys (preferenceScores roundingDb 1).tags 5) ∨
        d.category ∈ topKeys (preferenceScores roundingDb 1).categories 3 ∨
        d.location ∈ topKeys (preferenceScores roundingDb 1).locations 3 :=
  ⟨by decide!, by decide!, by decide!, by decide!,
    (personalized_scores_and_selection roundingDb 1 5 (by decide) (by decide)).2.2.1 "Goa",
    (personalized_scores_and_selection roundingDb 1 5 (by decide) (by decide)).1 (by decide!)
      "beach",
    (personalized_scores_and_selection roundingDb 1 5 (by decide)
      (by decide)).2.2.2.2.2.2.2.2.1,
    (personalized_scores_and_selection roundingDb 1 5 (by decide)
      (by decide)).2.2.2.2.2.2.2.2.2⟩

/-! ## The personalized strategy does not read prices of liked discoveries -/

theorem fields_of_repriced {a b : Discovery} (h : { a with price := b.price } = b) :
    a.id = b.id ∧ { a with price := "" } = { b with price := "" } ∧
      (a.price = b.price → a = b) := by
  cases a
  cases b
  simp only [Discovery.mk.injEq] at h ⊢
  obtain ⟨h1, h2, h3, h4, _, h6, h7⟩ := h
  exact ⟨h1, ⟨h1, h2, h3, h4, trivial, h6, h7⟩, fun hp => ⟨h1, h2, h3, h4, hp, h6, h7⟩⟩

theorem likedDiscovery_map_congr {liked : List Nat} {ds1 ds2 : List Discovery}
    (h : DiffersOnlyInLikedPrice liked ds1 ds2) (likes : List Like) (ups1 ups2 : List UserPreferences)
    (l : Like) :
    (likedDiscovery ⟨likes, ds1, ups1⟩ l).map (fun d => { d with price := "" }) =
      (likedDiscovery ⟨likes, ds2, ups2⟩ l).map (fun d => { d with price := "" }) := by
  unfold likedDiscovery
  cases l.discoveryId with
  | none => rfl
  | some v =>
    simp only
    unfold DiffersOnlyInLikedPrice at h
    induction h with
    | nil => rfl
    | @cons a b l1 l2 hab _ ih =>
      obtain ⟨hid, hstrip, _⟩ := fields_of_repriced hab.1
      rw [List.find?_cons, List.find?_cons, ← hid]
      by_cases hv : a.id = v
      · have hdec : decide (a.id = v) = true := decide_eq_true hv
        simp only [hdec, Option.map_some']
        exact congrArg some hstrip
      · have hdec : decide (a.id = v) = false := decide_eq_false hv
        simp only [hdec]
        exact ih

theorem filterMap_map_congr {α β γ : Type} (f g : α → Option β) (s : β → γ) (l : List α)
    (h : ∀ a, (f a).map s = (g a).map s) :
    (l.filterMap f).map s = (l.filterMap g).map s := by
  rw [List.map_filterMap, List.map_filterMap]
  congr 1
  funext a
  exact h a

theorem foldl_scoreLike_congr (l1 l2 : List Discovery) (s1 s2 : PreferenceScores)
    (hl : l1.map (fun d => { d with price := "" }) = l2.map (fun d => { d with price := "" }))
    (ht : s1.tags = s2.tags) (hc : s1.categories = s2.categories)
    (hloc : s1.locations = s2.locations) :
    (l1.foldl scoreLike s1).tags = (l2.foldl scoreLike s2).tags ∧
    (l1.foldl scoreLike s1).categories = (l2.foldl scoreLike s2).categories ∧
    (l1.foldl scoreLike s1).locations = (l2.foldl scoreLike s2).locations := by
  induction l1 generalizing l2 s1 s2 with
  | nil =>
    cases l2 with
    | nil => exact ⟨ht, hc, hloc⟩
    | cons b bs => simp at hl
  | cons a as ih =>
    cases l2 with
    | nil => simp at hl
    | cons b bs =>
      simp only [List.map_cons, List.cons.injEq] at hl
      obtain ⟨_, hcat, hlo, hrat, _, htags, _⟩ := Discovery.mk.inj hl.1
      rw [List.foldl_cons, List.foldl_cons]
      apply ih bs _ _ hl.2
      · simp only [scoreLike, likeWeight, ht, htags, hrat]
      · simp only [scoreLike, likeWeight, hc, hcat, hrat]
      · simp only [scoreLike, likeWeight, hloc, hlo, hrat]

theorem filter_congr_of_differsOnlyInLikedPrice {liked : List Nat} {ds1 ds2 : List Discovery}
    (h : DiffersOnlyInLikedPrice liked ds1 ds2) (q : Discovery → Bool) :
    ds1.filter (fun d => decide (d.id ∉ liked) && q d) =
      ds2.filter (fun d => decide (d.id ∉ liked) && q d) := by
  unfold DiffersOnlyInLikedPrice at h
  induction h with
  | nil => rfl
  | @cons a b l1 l2 hab _ ih =>
    obtain ⟨hid, _, heq⟩ := fields_of_repriced hab.1
    by_cases hmem : a.id ∈ liked
    · have hb : b.id ∈ liked := hid ▸ hmem
      rw [List.filter_cons, List.filter_cons]
      simp only [hmem, hb, not_true_eq_false, decide_False, Bool.false_and]
      exact ih
    · have heq := heq (hab.2 hmem)
      subst heq
      rw [List.filter_cons, List.filter_cons, ih]

theorem eq_of_differsOnlyInLikedPrice_nil {ds1 ds2 : List Discovery}
    (h : DiffersOnlyInLikedPrice [] ds1 ds2) : ds1 = ds2 := by
  unfold DiffersOnlyInLikedPrice at h
  induction h with
  | nil => rfl
  | @cons a b l1 l2 hab _ ih =>
    have heq := (fields_of_repriced hab.1).2.2 (hab.2 (List.not_mem_nil _))
    rw [heq, ih]

/-- C9: two states with the same like rows whose catalogs differ only in the `price` of
discoveries the user has liked give the same result of `getPersonalizedDiscoveries`, hence the
same sequence of item ids. -/
theorem personalized_ignores_liked_price (db1 db2 : Db) (userId : Nat) (limit : Int)
    (hlikes : db1.likes = db2.likes)
    (hcat : DiffersOnlyInLikedPrice (likedDiscoveryIds db1 userId) db1.discoveries
      db2.discoveries) :
    getPersonalizedDiscoveries db1 userId limit = getPersonalizedDiscoveries db2 userId limit ∧
    (getPersonalizedDiscoveries db1 userId limit).map (List.map (fun d => d.id)) =
      (getPersonalizedDiscoveries db2 userId limit).map (List.map (fun d => d.id)) := by
  suffices h : getPersonalizedDiscoveries db1 userId limit =
      getPersonalizedDiscoveries db2 userId limit from ⟨h, by rw [h]⟩
  obtain ⟨likes, ds1, ups1⟩ := db1
  obtain ⟨likes2, ds2, ups2⟩ := db2
  simp only at hlikes hcat
  subst hlikes
  have hids : likedDiscoveryIds ⟨likes, ds2, ups2⟩ userId = likedDiscoveryIds ⟨likes, ds1, ups1⟩ userId :=
    rfl
  have hrows : discoveryLikesOf ⟨likes, ds2, ups2⟩ userId = discoveryLikesOf ⟨likes, ds1, ups1⟩ userId :=
    rfl
  by_cases hnil : likedDiscoveryIds ⟨likes, ds1, ups1⟩ userId = []
  · rw [hnil] at hcat
    have hds := eq_of_differsOnlyInLikedPrice_nil hcat
    subst hds
    rfl
  · rw [getPersonalizedDiscoveries_of_likes limit hnil,
      getPersonalizedDiscoveries_of_likes limit (hids ▸ hnil), hids]
    have hliked : (likedDiscoveries ⟨likes, ds1, ups1⟩ userId).map (fun d => { d with price := "" }) =
        (likedDiscoveries ⟨likes, ds2, ups2⟩ userId).map (fun d => { d with price := "" }) := by
      unfold likedDiscoveries
      rw [hrows]
      exact filterMap_map_congr _ _ _ _ (likedDiscovery_map_congr hcat likes ups1 ups2)
    obtain ⟨h1, h2, h3⟩ := foldl_scoreLike_congr _ _
      { tags := [], categories := [], locations := [], priceRanges := [] }
      { tags := [], categories := [], locations := [], priceRanges := [] } hliked rfl rfl rfl
    have ht : (preferenceScores ⟨likes, ds1, ups1⟩ userId).tags =
        (preferenceScores ⟨likes, ds2, ups2⟩ userId).tags := h1
    have hc : (preferenceScores ⟨likes, ds1, ups1⟩ userId).categories =
        (preferenceScores ⟨likes, ds2, ups2⟩ userId).categories := h2
    have hl : (preferenceScores ⟨likes, ds1, ups1⟩ userId).locations =
        (preferenceScores ⟨likes, ds2, ups2⟩ userId).locations := h3
    rw [ht, hc, hl]
    simp only
    rw [filter_congr_of_differsOnlyInLikedPrice hcat]

/-- Witness of C9: the scenario state and its repriced variant, user 1, limit 5. -/
theorem personalized_ignores_liked_price_witness :
    getPersonalizedDiscoveries scenarioDb 1 5 = getPersonalizedDiscoveries repricedScenarioDb 1 5 ∧
    (getPersonalizedDiscoveries scenarioDb 1 5).map (List.map (fun d => d.id)) =
      (getPersonalizedDiscoveries repricedScenarioDb 1 5).map (List.map (fun d => d.id)) :=
  personalized_ignores_liked_price scenarioDb repricedScenarioDb 1 5 rfl
    (List.Forall₂.cons ⟨rfl, by decide⟩ (List.Forall₂.cons ⟨rfl, by decide⟩
      (List.Forall₂.cons ⟨rfl, by decide⟩ (List.Forall₂.cons ⟨rfl, by decide⟩
        (List.Forall₂.cons ⟨rfl, by decide⟩ List.Forall₂.nil)))))


/-! ## The similarity finder -/

theorem truthyId_eq_some (o : Option Nat) (v : Nat) :
    truthyId o = some v ↔ o = some v ∧ v ≠ 0 := by
  unfold truthyId
  cases o with
  | none => simp
  | some w =>
    by_cases hw : w = 0
    · subst hw
      simp only [if_true, Option.some.injEq]
      constructor
      · intro h; cases h
      · rintro ⟨h, hv⟩; exact absurd h.symm hv
    · simp only [hw, if_false, Option.some.injEq]
      constructor
      · rintro rfl; exact ⟨rfl, hw⟩
      · rintro ⟨h, _⟩; exact h

theorem sqlIn_eq_true (o : Option Nat) (ids : List Nat) :
    sqlIn o ids = true ↔ ∃ v, o = some v ∧ v ∈ ids := by
  unfold sqlIn
  cases o with
  | none => simp
  | some w => simp

theorem mem_likedItems_discovery (db : Db) (userId v : Nat) :
    (ItemSpace.discovery, v) ∈ likedItems db userId ↔
      v ∈ (likesOf db userId).filterMap (fun l => truthyId l.discoveryId) := by
  simp [likedItems]

theorem mem_likedItems_recommendation (db : Db) (userId v : Nat) :
    (ItemSpace.recommendation, v) ∈ likedItems db userId ↔
      v ∈ (likesOf db userId).filterMap (fun l => truthyId l.recommendationId) := by
  simp [likedItems]

theorem mem_truthy_discoveryIds (db : Db) (userId v : Nat) :
    v ∈ (likesOf db userId).filterMap (fun l => truthyId l.discoveryId) ↔
      ∃ l ∈ db.likes, l.userId = userId ∧ l.discoveryId = some v ∧ v ≠ 0 := by
  simp only [List.mem_filterMap, likesOf, List.mem_filter, decide_eq_true_eq, truthyId_eq_some]
  constructor
  · rintro ⟨l, ⟨hl, hu⟩, hd, hv⟩
    exact ⟨l, hl, hu, hd, hv⟩
  · rintro ⟨l, hl, hu, hd, hv⟩
    exact ⟨l, ⟨hl, hu⟩, hd, hv⟩

theorem mem_truthy_recommendationIds (db : Db) (userId v : Nat) :
    v ∈ (likesOf db userId).filterMap (fun l => truthyId l.recommendationId) ↔
      ∃ l ∈ db.likes, l.userId = userId ∧ l.recommendationId = some v ∧ v ≠ 0 := by
  simp only [List.mem_filterMap, likesOf, List.mem_filter, decide_eq_true_eq, truthyId_eq_some]
  constructor
  · rintro ⟨l, ⟨hl, hu⟩, hd, hv⟩
    exact ⟨l, hl, hu, hd, hv⟩
  · rintro ⟨l, hl, hu, hd, hv⟩
    exact ⟨l, ⟨hl, hu⟩, hd, hv⟩

theorem count_map_eq_length_filter {α β : Type} [DecidableEq β] (f : α → β) (l : List α) (c : β) :
    (l.map f).count c = (l.filter (fun a => decide (f a = c))).length := by
  induction l with
  | nil => rfl
  | cons a as ih =>
    by_cases h : f a = c
    · simp [List.filter_cons, h, ih]
    · have hne : ¬ (f a == c) = true := by simpa using h
      simp [List.filter_cons, h, ih, List.count_cons, hne]

/-- The like rows of `other` that the similarity query of `userId` matches. -/
theorem mem_matchingLikes_of (db : Db) (userId other : Nat) (l : Like) :
    l ∈ (matchingLikes db userId
        ((likesOf db userId).filterMap (fun l => truthyId l.discoveryId))
        ((likesOf db userId).filterMap (fun l => truthyId l.recommendationId))).filter
          (fun a => decide (a.userId = other)) ↔
      l ∈ db.likes ∧ l.userId = other ∧ other ≠ userId ∧
        ((∃ v, l.discoveryId = some v ∧
            v ∈ (likesOf db userId).filterMap (fun l => truthyId l.discoveryId)) ∨
          (∃ v, l.recommendationId = some v ∧
            v ∈ (likesOf db userId).filterMap (fun l => truthyId l.recommendationId))) := by
  simp only [matchingLikes, List.mem_filter, Bool.and_eq_true, Bool.or_eq_true, decide_eq_true_eq,
    sqlIn_eq_true]
  constructor
  · rintro ⟨⟨hl, hne, hm⟩, hu⟩
    exact ⟨hl, hu, hu ▸ hne, hm⟩
  · rintro ⟨hl, hu, hne, hm⟩
    exact ⟨⟨hl, hu ▸ hne, hm⟩, hu⟩


theorem itemOf_of_discovery {l : Like} {v : Nat} (hd : l.discoveryId = some v) (hv : v ≠ 0) :
    itemOf l = (ItemSpace.discovery, v) := by
  unfold itemOf
  rw [(truthyId_eq_some _ _).mpr ⟨hd, hv⟩]

theorem itemOf_of_recommendation {l : Like} {v : Nat} (hd : l.discoveryId = none)
    (hr : l.recommendationId = some v) (hv : v ≠ 0) :
    itemOf l = (ItemSpace.recommendation, v) := by
  unfold itemOf
  rw [hd, (truthyId_eq_some _ _).mpr ⟨hr, hv⟩]
  rfl

theorem discoveryId_of_itemOf {l : Like} {v : Nat} (h : itemOf l = (ItemSpace.discovery, v)) :
    l.discoveryId = some v := by
  unfold itemOf at h
  cases ht : truthyId l.discoveryId with
  | none => rw [ht] at h; cases h
  | some w =>
    rw [ht] at h
    cases h
    exact ((truthyId_eq_some _ _).mp ht).1

theorem recommendationId_of_itemOf {l : Like} {v : Nat}
    (h : itemOf l = (ItemSpace.recommendation, v)) (hv : v ≠ 0) :
    l.recommendationId = some v := by
  unfold itemOf at h
  cases ht : truthyId l.discoveryId with
  | some w => rw [ht] at h; cases h
  | none =>
    rw [ht] at h
    cases hr : truthyId l.recommendationId with
    | none =>
      rw [hr] at h
      cases h
      exact absurd rfl hv
    | some w =>
      rw [hr] at h
      cases h
      exact ((truthyId_eq_some _ _).mp hr).1

/-- A matched like row names an item liked by the target user. -/
theorem itemOf_of_matched (db : Db) (userId : Nat) {l : Like}
    (hone : l.discoveryId = none ∨ l.recommendationId = none)
    (hm : (∃ v, l.discoveryId = some v ∧
            v ∈ (likesOf db userId).filterMap (fun l => truthyId l.discoveryId)) ∨
          (∃ v, l.recommendationId = some v ∧
            v ∈ (likesOf db userId).filterMap (fun l => truthyId l.recommendationId))) :
    (∃ v, l.discoveryId = some v ∧ v ≠ 0 ∧ itemOf l = (ItemSpace.discovery, v) ∧
        (ItemSpace.discovery, v) ∈ likedItems db userId) ∨
    (∃ v, l.recommendationId = some v ∧ v ≠ 0 ∧ itemOf l = (ItemSpace.recommendation, v) ∧
        (ItemSpace.recommendation, v) ∈ likedItems db userId) := by
  rcases hm with ⟨v, hd, hv⟩ | ⟨v, hr, hv⟩
  · obtain ⟨_, _, _, _, hv0⟩ := (mem_truthy_discoveryIds db userId v).mp hv
    exact Or.inl ⟨v, hd, hv0, itemOf_of_discovery hd hv0,
      (mem_likedItems_discovery db userId v).mpr hv⟩
  · obtain ⟨_, _, _, _, hv0⟩ := (mem_truthy_recommendationIds db userId v).mp hv
    have hdn : l.discoveryId = none := by
      rcases hone with h | h
      · exact h
      · rw [hr] at h; cases h
    exact Or.inr ⟨v, hr, hv0, itemOf_of_recommendation hdn hr hv0,
      (mem_likedItems_recommendation db userId v).mpr hv⟩

theorem count_matching_eq_overlapCount (db : Db) (userId other : Nat)
    (hwf : LikesWellFormed db.likes) (hne : other ≠ userId) :
    ((matchingLikes db userId
        ((likesOf db userId).filterMap (fun l => truthyId l.discoveryId))
        ((likesOf db userId).filterMap (fun l => truthyId l.recommendationId))).map
          (fun l => l.userId)).count other = overlapCount db userId other := by
  rw [count_map_eq_length_filter]
  have hnd2 : ((uniq (likedItems db userId)).filter
      (fun i => decide (i ∈ likedItems db other))).Nodup := (nodup_uniq _).filter _
  have hnd1 : (((matchingLikes db userId
        ((likesOf db userId).filterMap (fun l => truthyId l.discoveryId))
        ((likesOf db userId).filterMap (fun l => truthyId l.recommendationId))).filter
          (fun a => decide (a.userId = other))).map itemOf).Nodup := by
    rw [List.Nodup, List.pairwise_map]
    have hsub : ((matchingLikes db userId
        ((likesOf db userId).filterMap (fun l => truthyId l.discoveryId))
        ((likesOf db userId).filterMap (fun l => truthyId l.recommendationId))).filter
          (fun a => decide (a.userId = other))).Sublist db.likes :=
      (List.filter_sublist _).trans (List.filter_sublist _)
    refine List.Pairwise.imp_of_mem ?_ ((hwf.2.1.and hwf.2.2).sublist hsub)
    intro a b ha hb hab heq
    obtain ⟨hal, hau, _, ham⟩ := (mem_matchingLikes_of db userId other a).mp ha
    obtain ⟨_, hbu, _, _⟩ := (mem_matchingLikes_of db userId other b).mp hb
    have huser : a.userId = b.userId := hau.trans hbu.symm
    rcases itemOf_of_matched db userId (hwf.1 a hal) ham with
      ⟨v, hd, hv0, hitem, _⟩ | ⟨v, hr, hv0, hitem, _⟩
    · have hbd := discoveryId_of_itemOf (heq ▸ hitem)
      have := hab.1 huser (hd.trans hbd.symm)
      rw [hd] at this
      cases this
    · have hbr := recommendationId_of_itemOf (heq ▸ hitem) hv0
      have := hab.2 huser (hr.trans hbr.symm)
      rw [hr] at this
      cases this
  have hperm : (((matchingLikes db userId
        ((likesOf db userId).filterMap (fun l => truthyId l.discoveryId))
        ((likesOf db userId).filterMap (fun l => truthyId l.recommendationId))).filter
          (fun a => decide (a.userId = other))).map itemOf).Perm
      ((uniq (likedItems db userId)).filter (fun i => decide (i ∈ likedItems db other))) := by
    rw [List.perm_ext_iff_of_nodup hnd1 hnd2]
    intro x
    rw [List.mem_filter, mem_uniq, decide_eq_true_eq, List.mem_map]
    constructor
    · rintro ⟨l, hl, rfl⟩
      obtain ⟨hll, hlu, _, hlm⟩ := (mem_matchingLikes_of db userId other l).mp hl
      rcases itemOf_of_matched db userId (hwf.1 l hll) hlm with
        ⟨v, hd, hv0, hitem, hmemU⟩ | ⟨v, hr, hv0, hitem, hmemU⟩
      · rw [hitem]
        exact ⟨hmemU, (mem_likedItems_discovery db other v).mpr
          ((mem_truthy_discoveryIds db other v).mpr ⟨l, hll, hlu, hd, hv0⟩)⟩
      · rw [hitem]
        exact ⟨hmemU, (mem_likedItems_recommendation db other v).mpr
          ((mem_truthy_recommendationIds db other v).mpr ⟨l, hll, hlu, hr, hv0⟩)⟩
    · rintro ⟨hxU, hxO⟩
      obtain ⟨space, v⟩ := x
      cases space with
      | discovery =>
        have hvU := (mem_likedItems_discovery db userId v).mp hxU
        obtain ⟨l, hll, hlu, hd, hv0⟩ :=
          (mem_truthy_discoveryIds db other v).mp ((mem_likedItems_discovery db other v).mp hxO)
        exact ⟨l, (mem_matchingLikes_of db userId other l).mpr
          ⟨hll, hlu, hne, Or.inl ⟨v, hd, hvU⟩⟩, itemOf_of_discovery hd hv0⟩
      | recommendation =>
        have hvU := (mem_likedItems_recommendation db userId v).mp hxU
        obtain ⟨l, hll, hlu, hr, hv0⟩ :=
          (mem_truthy_recommendationIds db other v).mp
            ((mem_likedItems_recommendation db other v).mp hxO)
        have hdn : l.discoveryId = none := by
          rcases hwf.1 l hll with h | h
          · exact h
          · rw [hr] at h; cases h
        exact ⟨l, (mem_matchingLikes_of db userId other l).mpr
          ⟨hll, hlu, hne, Or.inr ⟨v, hr, hvU⟩⟩, itemOf_of_recommendation hdn hr hv0⟩
  rw [overlapCount, ← hperm.length_eq, List.length_map]


theorem mem_groupCount {α : Type} [DecidableEq α] (keys : List α) (p : α × Nat) :
    p ∈ groupCount keys ↔ p.1 ∈ keys ∧ p.2 = keys.count p.1 := by
  unfold groupCount
  rw [List.mem_map]
  constructor
  · rintro ⟨k, hk, rfl⟩
    exact ⟨(mem_uniq _ _).mp hk, rfl⟩
  · rintro ⟨hk, hc⟩
    exact ⟨p.1, (mem_uniq _ _).mpr hk, Prod.ext rfl hc.symm⟩

theorem findSimilarUsers_of_likes {db : Db} {userId : Nat} {limit : Int}
    (hlikes : likesOf db userId ≠ []) (hlimit : 0 ≤ limit) :
    findSimilarUsers db userId limit =
      .ok (((orderByDesc Prod.snd
        (groupCount ((matchingLikes db userId
          ((likesOf db userId).filterMap (fun l => truthyId l.discoveryId))
          ((likesOf db userId).filterMap (fun l => truthyId l.recommendationId))).map
            (fun l => l.userId)))).take limit.toNat).map Prod.fst) := by
  simp only [findSimilarUsers, List.length_eq_zero, hlikes, if_false, sqlLimit_of_nonneg hlimit]

/-- C10: under the invariants of the `likes` table, for a user with at least one like row and
a positive limit, `findSimilarUsers` returns at most `limit` distinct user ids, none the user's
own, each having liked an item the user liked, ordered by non-increasing overlap count, and no
other user left out has a strictly greater overlap count than a returned one. -/
theorem findSimilarUsers_ranks_by_overlap (db : Db) (userId : Nat) (limit : Int)
    (hwf : LikesWellFormed db.likes) (hlikes : likesOf db userId ≠ []) (hlimit : 0 < limit) :
    ∃ r, findSimilarUsers db userId limit = .ok r ∧ r.length ≤ limit.toNat ∧ r.Nodup ∧
      (∀ c ∈ r, c ≠ userId ∧ ∃ i ∈ likedItems db userId, i ∈ likedItems db c) ∧
      r.Pairwise (fun a b => overlapCount db userId b ≤ overlapCount db userId a) ∧
      ∀ c, c ≠ userId → c ∉ r → ∀ a ∈ r, overlapCount db userId c ≤ overlapCount db userId a := by
  refine ⟨_, findSimilarUsers_of_likes hlikes hlimit.le, ?_, ?_, ?_, ?_, ?_⟩
  all_goals
    generalize hkeys : (matchingLikes db userId
      ((likesOf db userId).filterMap (fun l => truthyId l.discoveryId))
      ((likesOf db userId).filterMap (fun l => truthyId l.recommendationId))).map
        (fun l => l.userId) = keys
  all_goals
    have hother : ∀ c ∈ keys, c ≠ userId := by
      intro c hc
      rw [← hkeys, List.mem_map] at hc
      obtain ⟨l, hl, rfl⟩ := hc
      simp only [matchingLikes, List.mem_filter, Bool.and_eq_true, decide_eq_true_eq] at hl
      exact hl.2.1
    have hcount : ∀ c, c ≠ userId → keys.count c = overlapCount db userId c := by
      intro c hc
      rw [← hkeys]
      exact count_matching_eq_overlapCount db userId c hwf hc
    have hsnd : ∀ p ∈ orderByDesc Prod.snd (groupCount keys),
        p.1 ∈ keys ∧ p.2 = overlapCount db userId p.1 := by
      intro p hp
      obtain ⟨hk, hc⟩ := (mem_groupCount keys p).mp ((mem_orderByDesc _ _ _).mp hp)
      exact ⟨hk, hc.trans (hcount p.1 (hother p.1 hk))⟩
  · rw [List.length_map, List.length_take]
    exact Nat.min_le_left _ _
  · rw [List.map_take]
    have hperm : ((orderByDesc Prod.snd (groupCount keys)).map Prod.fst).Perm
        ((groupCount keys).map Prod.fst) := (orderByDesc_perm _ _).map Prod.fst
    exact (hperm.nodup_iff.mpr (nodup_groupCount_keys keys)).sublist (List.take_sublist _ _)
  · intro c hc
    obtain ⟨p, hp, rfl⟩ := List.mem_map.mp hc
    obtain ⟨hk, hc2⟩ := hsnd p ((List.take_sublist _ _).subset hp)
    refine ⟨hother p.1 hk, ?_⟩
    have hpos : 0 < overlapCount db userId p.1 := by
      rw [← hcount p.1 (hother p.1 hk)]
      exact List.count_pos_iff.mpr hk
    unfold overlapCount at hpos
    obtain ⟨i, hi⟩ := List.exists_mem_of_length_pos hpos
    rw [List.mem_filter, mem_uniq, decide_eq_true_eq] at hi
    exact ⟨i, hi.1, hi.2⟩
  · rw [List.pairwise_map]
    refine List.Pairwise.imp_of_mem ?_
      ((orderByDesc_pairwise Prod.snd (groupCount keys)).sublist (List.take_sublist _ _))
    intro p q hp hq hle
    rw [← (hsnd p ((List.take_sublist _ _).subset hp)).2,
      ← (hsnd q ((List.take_sublist _ _).subset hq)).2]
    exact hle
  · intro c hc hout a ha
    obtain ⟨p, hp, rfl⟩ := List.mem_map.mp ha
    rw [← (hsnd p ((List.take_sublist _ _).subset hp)).2]
    by_cases hmem : c ∈ keys
    · have hq : (c, keys.count c) ∈ orderByDesc Prod.snd (groupCount keys) :=
        (mem_orderByDesc _ _ _).mpr ((mem_groupCount keys _).mpr ⟨hmem, rfl⟩)
      rw [← List.take_append_drop limit.toNat (orderByDesc Prod.snd (groupCount keys)),
        List.mem_append] at hq
      have hqdrop : (c, keys.count c) ∈ (orderByDesc Prod.snd (groupCount keys)).drop limit.toNat := by
        rcases hq with hq | hq
        · exact absurd (List.mem_map.mpr ⟨_, hq, rfl⟩) hout
        · exact hq
      have hsorted := orderByDesc_pairwise Prod.snd (groupCount keys)
      rw [← List.take_append_drop limit.toNat (orderByDesc Prod.snd (groupCount keys)),
        List.pairwise_append] at hsorted
      have hle := hsorted.2.2 p hp _ hqdrop
      rw [← hcount c hc]
      exact hle
    · rw [← hcount c hc, List.count_eq_zero_of_not_mem hmem]
      exact Nat.zero_le _

/-- Witness of C10: user 1 of the overlap state, limit 2. -/
theorem findSimilarUsers_ranks_by_overlap_witness :
    LikesWellFormed overlapDb.likes ∧
    findSimilarUsers overlapDb 1 2 = .ok [2, 3] ∧
    ∃ r, findSimilarUsers overlapDb 1 2 = .ok r ∧ r.length ≤ (2 : Int).toNat ∧ r.Nodup ∧
      (∀ c ∈ r, c ≠ 1 ∧ ∃ i ∈ likedItems overlapDb 1, i ∈ likedItems overlapDb c) ∧
      r.Pairwise (fun a b => overlapCount overlapDb 1 b ≤ overlapCount overlapDb 1 a) ∧
      ∀ c, c ≠ 1 → c ∉ r → ∀ a ∈ r, overlapCount overlapDb 1 c ≤ overlapCount overlapDb 1 a :=
  ⟨by decide, by decide,
    findSimilarUsers_ranks_by_overlap overlapDb 1 2 (by decide) (by decide) (by decide)⟩


/-! ## The similarity finder: empty input, symmetric pairs, limits -/

/-- C11: for a user without any like row, `findSimilarUsers` returns the empty sequence and
raises no error, whatever the limit. -/
theorem findSimilarUsers_empty_of_no_likes (db : Db) (userId : Nat) (limit : Int)
    (hlikes : likesOf db userId = []) : findSimilarUsers db userId limit = .ok [] := by
  unfold findSimilarUsers
  simp only [hlikes, List.length_nil, if_true]

/-- Witness of C11: user 9 has no like row in the sample state; the limit is negative. -/
theorem findSimilarUsers_empty_of_no_likes_witness :
    likesOf sampleDb 9 = [] ∧ findSimilarUsers sampleDb 9 (-3) = .ok [] :=
  ⟨by decide, findSimilarUsers_empty_of_no_likes sampleDb 9 (-3) (by decide)⟩

theorem uniq_eq_singleton {α : Type} [DecidableEq α] {l : List α} {b : α}
    (hall : ∀ k ∈ l, k = b) (hne : l ≠ []) : uniq l = [b] := by
  cases l with
  | nil => exact absurd rfl hne
  | cons x xs =>
    have hx : x = b := hall x (List.mem_cons_self _ _)
    subst hx
    simp only [uniq, List.cons.injEq, true_and, List.filter_eq_nil_iff]
    intro a ha
    have := hall a (List.mem_cons_of_mem _ ((mem_uniq _ _).mp ha))
    simp [this]

theorem likesOf_ne_nil_of_likedItems {db : Db} {userId : Nat} {i : ItemSpace × Nat}
    (h : i ∈ likedItems db userId) : likesOf db userId ≠ [] := by
  intro hnil
  simp [likedItems, hnil] at h

theorem mem_likedItems_of_matched {db : Db} {userId : Nat} {l : Like}
    (hl : l ∈ db.likes)
    (hm : (sqlIn l.discoveryId
          ((likesOf db userId).filterMap (fun l => truthyId l.discoveryId)) ||
        sqlIn l.recommendationId
          ((likesOf db userId).filterMap (fun l => truthyId l.recommendationId))) = true) :
    ∃ i ∈ likedItems db l.userId, i ∈ likedItems db userId := by
  rw [Bool.or_eq_true, sqlIn_eq_true, sqlIn_eq_true] at hm
  rcases hm with ⟨v, hd, hv⟩ | ⟨v, hr, hv⟩
  · obtain ⟨_, _, _, _, hv0⟩ := (mem_truthy_discoveryIds db userId v).mp hv
    exact ⟨(ItemSpace.discovery, v),
      (mem_likedItems_discovery db l.userId v).mpr
        ((mem_truthy_discoveryIds db l.userId v).mpr ⟨l, hl, rfl, hd, hv0⟩),
      (mem_likedItems_discovery db userId v).mpr hv⟩
  · obtain ⟨_, _, _, _, hv0⟩ := (mem_truthy_recommendationIds db userId v).mp hv
    exact ⟨(ItemSpace.recommendation, v),
      (mem_likedItems_recommendation db l.userId v).mpr
        ((mem_truthy_recommendationIds db l.userId v).mpr ⟨l, hl, rfl, hr, hv0⟩),
      (mem_likedItems_recommendation db userId v).mpr hv⟩

theorem matched_of_shared_item {db : Db} {userId other : Nat} {i : ItemSpace × Nat}
    (hne : other ≠ userId) (hi : i ∈ likedItems db userId) (ho : i ∈ likedItems db other) :
    other ∈ (matchingLikes db userId
      ((likesOf db userId).filterMap (fun l => truthyId l.discoveryId))
      ((likesOf db userId).filterMap (fun l => truthyId l.recommendationId))).map
        (fun l => l.userId) := by
  obtain ⟨space, v⟩ := i
  rw [List.mem_map]
  cases space with
  | discovery =>
    have hvU := (mem_likedItems_discovery db userId v).mp hi
    obtain ⟨l, hll, hlu, hd, _⟩ :=
      (mem_truthy_discoveryIds db other v).mp ((mem_likedItems_discovery db other v).mp ho)
    refine ⟨l, ?_, hlu⟩
    simp only [matchingLikes, List.mem_filter, Bool.and_eq_true, Bool.or_eq_true,
      decide_eq_true_eq, sqlIn_eq_true]
    exact ⟨hll, hlu ▸ hne, Or.inl ⟨v, hd, hvU⟩⟩
  | recommendation =>
    have hvU := (mem_likedItems_recommendation db userId v).mp hi
    obtain ⟨l, hll, hlu, hr, _⟩ :=
      (mem_truthy_recommendationIds db other v).mp
        ((mem_likedItems_recommendation db other v).mp ho)
    refine ⟨l, ?_, hlu⟩
    simp only [matchingLikes, List.mem_filter, Bool.and_eq_true, Bool.or_eq_true,
      decide_eq_true_eq, sqlIn_eq_true]
    exact ⟨hll, hlu ▸ hne, Or.inr ⟨v, hr, hvU⟩⟩

theorem findSimilarUsers_eq_singleton (db : Db) (a b : Nat) (limit : Int) (hab : b ≠ a)
    (hshare : ∃ i ∈ likedItems db a, i ∈ likedItems db b)
    (hothers : ∀ c, c ≠ a → c ≠ b → ∀ i ∈ likedItems db c, i ∉ likedItems db a)
    (hlimit : 1 ≤ limit) : findSimilarUsers db a limit = .ok [b] := by
  obtain ⟨i, hia, hib⟩ := hshare
  rw [findSimilarUsers_of_likes (likesOf_ne_nil_of_likedItems hia) (by omega)]
  have hmem := matched_of_shared_item hab hia hib
  have hall : ∀ k ∈ (matchingLikes db a
      ((likesOf db a).filterMap (fun l => truthyId l.discoveryId))
      ((likesOf db a).filterMap (fun l => truthyId l.recommendationId))).map
        (fun l => l.userId), k = b := by
    intro k hk
    obtain ⟨l, hl, rfl⟩ := List.mem_map.mp hk
    simp only [matchingLikes, List.mem_filter, Bool.and_eq_true, decide_eq_true_eq] at hl
    by_contra hkb
    obtain ⟨j, hjc, hja⟩ := mem_likedItems_of_matched hl.1 hl.2.2
    exact (hothers l.userId hl.2.1 hkb j hjc) hja
  have huniq := uniq_eq_singleton hall (List.ne_nil_of_mem hmem)
  have hpos : limit.toNat = (limit.toNat - 1) + 1 := by omega
  simp only [groupCount, huniq, List.map_cons, List.map_nil, orderByDesc, List.insertionSort,
    List.orderedInsert]
  rw [hpos, List.take_succ_cons]
  simp

theorem overlapCount_comm (db : Db) (a b : Nat) : overlapCount db a b = overlapCount db b a := by
  unfold overlapCount
  apply List.Perm.length_eq
  rw [List.perm_ext_iff_of_nodup ((nodup_uniq _).filter _) ((nodup_uniq _).filter _)]
  intro x
  simp only [List.mem_filter, mem_uniq, decide_eq_true_eq]
  exact And.comm

/-- C12: when users `a` and `b` share a liked item and no other user has liked an item that
`a` or `b` liked, `findSimilarUsers` returns exactly `[b]` for `a` and `[a]` for `b` at every
limit of at least 1; the overlap count of the pair is the same seen from either side, and so
is the count the query computes, under the invariants of the `likes` table. -/
theorem findSimilarUsers_symmetric_pair (db : Db) (a b : Nat) (limit : Int) (hab : a ≠ b)
    (hshare : ∃ i ∈ likedItems db a, i ∈ likedItems db b)
    (hothers : ∀ c, c ≠ a → c ≠ b →
      ∀ i ∈ likedItems db c, i ∉ likedItems db a ∧ i ∉ likedItems db b)
    (hlimit : 1 ≤ limit) :
    findSimilarUsers db a limit = .ok [b] ∧ findSimilarUsers db b limit = .ok [a] ∧
      overlapCount db a b = overlapCount db b a ∧
      (LikesWellFormed db.likes → computedOverlap db a b = computedOverlap db b a) := by
  refine ⟨?_, ?_, overlapCount_comm db a b, ?_⟩
  · exact findSimilarUsers_eq_singleton db a b limit hab.symm hshare
      (fun c hca hcb i hi => (hothers c hca hcb i hi).1) hlimit
  · obtain ⟨i, hia, hib⟩ := hshare
    exact findSimilarUsers_eq_singleton db b a limit hab ⟨i, hib, hia⟩
      (fun c hcb hca i hi => (hothers c hca hcb i hi).2) hlimit
  · intro hwf
    unfold computedOverlap
    rw [count_matching_eq_overlapCount db a b hwf hab.symm,
      count_matching_eq_overlapCount db b a hwf hab, overlapCount_comm]

/-- Witness of C12: in the pair state users 1 and 2 share discovery 1 and recommendation 4,
user 3 likes something else. -/
theorem findSimilarUsers_symmetric_pair_witness :
    findSimilarUsers pairDb 1 5 = .ok [2] ∧ findSimilarUsers pairDb 2 5 = .ok [1] ∧
      overlapCount pairDb 1 2 = overlapCount pairDb 2 1 ∧
      computedOverlap pairDb 1 2 = computedOverlap pairDb 2 1 ∧ computedOverlap pairDb 1 2 = 2 :=
  match findSimilarUsers_symmetric_pair pairDb 1 2 5 (by decide) (by decide)
    (by
      intro c hca hcb i hi
      have hnil : likedItems pairDb c = [] ∨ c = 3 := by
        by_cases h3 : c = 3
        · exact Or.inr h3
        · left
          simp [likedItems, likesOf, pairDb, Ne.symm hca, Ne.symm hcb, Ne.symm h3]
      rcases hnil with hnil | rfl
      · rw [hnil] at hi
        cases hi
      · revert i
        decide)
    (by decide) with
  | ⟨h1, h2, h3, h4⟩ => ⟨h1, h2, h3, h4 (by decide), by decide⟩

/-- C13, as stated, fails: for user 1 of the sample state the service returns users 2, 3
and 4 at limit 10, the empty sequence at limit 0, and an error at limit -1. -/
theorem findSimilarUsers_nonpositive_limit_differs :
    findSimilarUsers sampleDb 1 10 = .ok [2, 3, 4] ∧
    findSimilarUsers sampleDb 1 0 = .ok [] ∧
    findSimilarUsers sampleDb 1 (-1) = .error "Failed to find similar users" := by
  decide

/-- C13, amended: the service passes its limit to the query as it is, so at limit 0 it
returns the empty sequence without failing, for every user; the default 10 is what the
controller puts in place of a limit parameter that parses to `NaN` or to 0, a positive parsed
value being handed on unchanged. -/
theorem findSimilarUsers_zero_limit_and_default (db : Db) (userId : Nat) :
    findSimilarUsers db userId 0 = .ok [] ∧
    DiscoveryController.limitOrDefault none = 10 ∧
    DiscoveryController.limitOrDefault (some 0) = 10 ∧
    ∀ n : Int, 0 < n → DiscoveryController.limitOrDefault (some n) = n := by
  refine ⟨?_, rfl, rfl, ?_⟩
  · by_cases hlikes : likesOf db userId = []
    · exact findSimilarUsers_of_no_likes 0 hlikes
    · rw [findSimilarUsers_of_likes hlikes (le_refl 0)]
      rfl
  · intro n hn
    simp [DiscoveryController.limitOrDefault, ne_of_gt hn]

/-! ## Lemmas on the tracking operations -/

open UserBehaviorService

theorem profileOf_userId {db : Db} {userId : Nat} {p : UserPreferences}
    (h : profileOf db userId = some p) : p.userId = userId := by
  unfold profileOf at h
  have := List.find?_some h
  simpa using this

theorem findOrCreate_of_some {db : Db} {userId : Nat} {p : UserPreferences}
    (h : profileOf db userId = some p) : findOrCreate db userId = (db, p) := by
  unfold findOrCreate
  rw [h]

theorem newPreferences_userId (userId : Nat) : (LikeService.newPreferences userId).userId = userId :=
  rfl

theorem profileOf_findOrCreate (db : Db) (userId : Nat) :
    profileOf (findOrCreate db userId).1 userId = some (findOrCreate db userId).2 := by
  unfold findOrCreate
  cases h : profileOf db userId with
  | some p => exact h
  | none =>
    simp only
    unfold profileOf at h ⊢
    rw [List.find?_append, h]
    simp [newPreferences_userId]

theorem applyUpdates_userId (p : UserPreferences) (u : Updates) :
    (applyUpdates p u).userId = p.userId := rfl

theorem find?_updateFirst {rows : List UserPreferences} {userId : Nat} {p : UserPreferences}
    (f : UserPreferences → UserPreferences) (hf : ∀ row, (f row).userId = row.userId)
    (h : rows.find? (fun q => decide (q.userId = userId)) = some p) :
    (LikeService.updateFirst rows userId f).find? (fun q => decide (q.userId = userId)) =
      some (f p) := by
  induction rows with
  | nil => cases h
  | cons q qs ih =>
    unfold LikeService.updateFirst
    by_cases hq : q.userId = userId
    · rw [List.find?_cons] at h
      simp only [hq, decide_True] at h
      cases h
      rw [if_pos hq, List.find?_cons]
      simp [hf, hq]
    · rw [List.find?_cons] at h
      simp only [hq, decide_False] at h
      rw [if_neg hq, List.find?_cons]
      simp only [hq, decide_False]
      exact ih h

theorem updateFirst_eq_self {rows : List UserPreferences} {userId : Nat} {p : UserPreferences}
    (f : UserPreferences → UserPreferences)
    (h : rows.find? (fun q => decide (q.userId = userId)) = some p) (hfix : f p = p) :
    LikeService.updateFirst rows userId f = rows := by
  induction rows with
  | nil => rfl
  | cons q qs ih =>
    unfold LikeService.updateFirst
    by_cases hq : q.userId = userId
    · rw [List.find?_cons] at h
      simp only [hq, decide_True] at h
      cases h
      rw [if_pos hq, hfix]
    · rw [List.find?_cons] at h
      simp only [hq, decide_False] at h
      rw [if_neg hq, ih h]

theorem applyUpdates_of_isEmpty {p : UserPreferences} {u : Updates} (h : u.isEmpty = true) :
    applyUpdates p u = p := by
  cases p
  cases u
  simp only [Updates.isEmpty, Bool.and_eq_true, Option.isNone_iff_eq_none, Bool.not_eq_true'] at h
  obtain ⟨⟨⟨⟨⟨⟨⟨h1, h2⟩, h3⟩, h4⟩, h5⟩, h6⟩, h7⟩, h8⟩ := h
  subst h1 h2 h3 h4 h5 h6 h7 h8
  simp [applyUpdates]

/-- What `saveUpdates` does to a stored row: either the row becomes `applyUpdates p u` and is
returned, or the update is rejected and the state stays as it was. -/
theorem saveUpdates_cases (db : Db) (p : UserPreferences) (u : Updates)
    (hp : profileOf db p.userId = some p) :
    ((saveUpdates db p u).2 = .ok (applyUpdates p u) ∧
        profileOf (saveUpdates db p u).1 p.userId = some (applyUpdates p u) ∧
        (u.isEmpty = true ∨ validate u = true)) ∨
      ((saveUpdates db p u).2 = .error "Validation error" ∧ (saveUpdates db p u).1 = db ∧
        u.isEmpty = false ∧ validate u = false) := by
  unfold saveUpdates
  by_cases he : u.isEmpty = true
  · left
    rw [if_pos he, applyUpdates_of_isEmpty he]
    exact ⟨rfl, hp, Or.inl he⟩
  · rw [if_neg he]
    by_cases hv : validate u = true
    · left
      rw [if_pos hv]
      refine ⟨rfl, ?_, Or.inr hv⟩
      exact find?_updateFirst _ (fun row => applyUpdates_userId row u) hp
    · right
      rw [if_neg hv]
      exact ⟨rfl, rfl, by simpa using he, by simpa using hv⟩

theorem rethrowWith_fst (words : String) (r : Db × Except String UserPreferences) :
    (rethrowWith words r).1 = r.1 := by
  obtain ⟨db, res⟩ := r
  cases res <;> rfl

theorem rethrowWith_ok (words : String) (r : Db × Except String UserPreferences)
    (p : UserPreferences) : (rethrowWith words r).2 = .ok p ↔ r.2 = .ok p := by
  obtain ⟨db, res⟩ := r
  cases res <;> simp [rethrowWith]

theorem rethrowWith_error (words : String) (r : Db × Except String UserPreferences)
    (m : String) : (rethrowWith words r).2 = .error m → ∃ m0, r.2 = .error m0 := by
  obtain ⟨db, res⟩ := r
  cases res with
  | ok p => simp [rethrowWith]
  | error m0 => exact fun _ => ⟨m0, rfl⟩

/-- The outcome of a tracking operation that builds `u` from the row in hand: on success the
stored row is `applyUpdates p u`; on failure the stored row is the row in hand. -/
theorem tracked_outcome (words : String) (db : Db) (userId : Nat) (u : Updates) :
    ((rethrowWith words
          (saveUpdates (findOrCreate db userId).1 (findOrCreate db userId).2 u)).2 =
        .ok (applyUpdates (findOrCreate db userId).2 u) ∧
      profileOf (rethrowWith words
          (saveUpdates (findOrCreate db userId).1 (findOrCreate db userId).2 u)).1 userId =
        some (applyUpdates (findOrCreate db userId).2 u) ∧
      (u.isEmpty = true ∨ validate u = true)) ∨
    ((∃ m, (rethrowWith words
          (saveUpdates (findOrCreate db userId).1 (findOrCreate db userId).2 u)).2 = .error m) ∧
      (rethrowWith words
          (saveUpdates (findOrCreate db userId).1 (findOrCreate db userId).2 u)).1 =
        (findOrCreate db userId).1 ∧
      u.isEmpty = false ∧ validate u = false) := by
  have hp := profileOf_findOrCreate db userId
  have hid := profileOf_userId hp
  generalize (findOrCreate db userId).1 = db1 at hp ⊢
  generalize (findOrCreate db userId).2 = p at hp hid ⊢
  subst hid
  rcases saveUpdates_cases _ _ u hp with ⟨h1, h2, h3⟩ | ⟨h1, h2, h3, h4⟩
  · left
    exact ⟨(rethrowWith_ok _ _ _).mpr h1, by rw [rethrowWith_fst]; exact h2, h3⟩
  · right
    refine ⟨?_, by rw [rethrowWith_fst]; exact h2, h3, h4⟩
    generalize saveUpdates db1 p u = r at h1
    obtain ⟨d, res⟩ := r
    cases res with
    | ok q => exact absurd h1 (by simp)
    | error m0 => exact ⟨_, rfl⟩

/-! ## Monotonicity of the learned preferences -/

theorem tracked_profile (words : String) (db : Db) (userId : Nat) (u : Updates) :
    profileOf (rethrowWith words
        (saveUpdates (findOrCreate db userId).1 (findOrCreate db userId).2 u)).1 userId =
      some (applyUpdates (findOrCreate db userId).2 u) ∨
    profileOf (rethrowWith words
        (saveUpdates (findOrCreate db userId).1 (findOrCreate db userId).2 u)).1 userId =
      some (findOrCreate db userId).2 := by
  rcases tracked_outcome words db userId u with ⟨_, h, _⟩ | ⟨_, h, _, _⟩
  · exact Or.inl h
  · right
    rw [h]
    exact profileOf_findOrCreate db userId

theorem le_numberOr_three (m : ℚ) : m ≤ numberOr (some m) 3 := by
  unfold numberOr
  by_cases h : m = 0
  · subst h
    simp
  · simp [h]

theorem viewUpdates_minRating (p : UserPreferences) (e : BehaviorData) :
    (viewUpdates p e).minRating =
      match e.rating with
      | some r => if 4 < r then some (max (numberOr p.minRating 3) (r - 1 / 2)) else none
      | none => none := rfl

/-- The row `applyUpdates p u` keeps set flags set, and does not lower `minRating` when the
new value, if any, is a maximum with the stored one. -/
theorem applyUpdates_monotone (p : UserPreferences) (u : Updates)
    (hu : u.minRating = none ∨ ∃ x, u.minRating = some (max (numberOr p.minRating 3) x)) :
    (∀ m, p.minRating = some m → ∃ m2, (applyUpdates p u).minRating = some m2 ∧ m ≤ m2) ∧
    (p.instagrammable = true → (applyUpdates p u).instagrammable = true) ∧
    (p.trending = true → (applyUpdates p u).trending = true) ∧
    (p.exclusive = true → (applyUpdates p u).exclusive = true) := by
  refine ⟨?_, ?_, ?_, ?_⟩
  · intro m hm
    rcases hu with hu | ⟨x, hu⟩
    · exact ⟨m, by simp [applyUpdates, hu, hm], le_refl m⟩
    · refine ⟨max (numberOr p.minRating 3) x, by simp only [applyUpdates, hu], ?_⟩
      rw [hm]
      exact le_trans (le_numberOr_three m) (le_max_left _ _)
  · intro h
    simp [applyUpdates, h]
  · intro h
    simp [applyUpdates, h]
  · intro h
    simp [applyUpdates, h]

theorem viewUpdates_minRating_shape (p : UserPreferences) (e : BehaviorData) :
    (viewUpdates p e).minRating = none ∨
      ∃ x, (viewUpdates p e).minRating = some (max (numberOr p.minRating 3) x) := by
  rw [viewUpdates_minRating]
  cases e.rating with
  | none => exact Or.inl rfl
  | some r =>
    by_cases h : 4 < r
    · right
      exact ⟨r - 1 / 2, by simp [h]⟩
    · left
      simp [h]

theorem trackView_profile {db : Db} {userId : Nat} {p : UserPreferences} (e : BehaviorData)
    (hp : profileOf db userId = some p) :
    profileOf (trackView db userId e).1 userId = some (applyUpdates p (viewUpdates p e)) ∨
      profileOf (trackView db userId e).1 userId = some p := by
  have h := tracked_profile "Error tracking user behavior: " db userId
    (viewUpdates (findOrCreate db userId).2 e)
  unfold trackView analyzeAndUpdatePreferences
  rw [findOrCreate_of_some hp] at h ⊢
  exact h

theorem trackLike_profile {db : Db} {userId : Nat} {p : UserPreferences} (e : BehaviorData)
    (hp : profileOf db userId = some p) :
    profileOf (trackLike db userId e).1 userId = some (applyUpdates p (likeUpdates p e)) ∨
      profileOf (trackLike db userId e).1 userId = some p := by
  have h := tracked_profile "Error tracking like behavior: " db userId
    (likeUpdates (findOrCreate db userId).2 e)
  unfold trackLike
  rw [findOrCreate_of_some hp] at h ⊢
  exact h

theorem trackSearch_profile {db : Db} {userId : Nat} {p : UserPreferences} (s : SearchData)
    (hp : profileOf db userId = some p) :
    profileOf (trackSearch db userId s).1 userId = some (applyUpdates p (searchUpdates p s)) ∨
      profileOf (trackSearch db userId s).1 userId = some p := by
  have h := tracked_profile "Error tracking search behavior: " db userId
    (searchUpdates (findOrCreate db userId).2 s)
  unfold trackSearch
  rw [findOrCreate_of_some hp] at h ⊢
  exact h

/-- One tracking event on a stored profile: the profile is still stored afterwards, with
`minRating` not lowered and no flag reset. -/
theorem track_monotone (db : Db) (userId : Nat) (ev : TrackingEvent) (p : UserPreferences)
    (hp : profileOf db userId = some p) :
    ∃ p2, profileOf (track db userId ev).1 userId = some p2 ∧
      (∀ m, p.minRating = some m → ∃ m2, p2.minRating = some m2 ∧ m ≤ m2) ∧
      (p.instagrammable = true → p2.instagrammable = true) ∧
      (p.trending = true → p2.trending = true) ∧
      (p.exclusive = true → p2.exclusive = true) := by
  have hsame : (∀ m, p.minRating = some m → ∃ m2, p.minRating = some m2 ∧ m ≤ m2) ∧
      (p.instagrammable = true → p.instagrammable = true) ∧
      (p.trending = true → p.trending = true) ∧ (p.exclusive = true → p.exclusive = true) :=
    ⟨fun m hm => ⟨m, hm, le_refl m⟩, id, id, id⟩
  have hnone : ∀ u : Updates, u.minRating = none →
      u.minRating = none ∨ ∃ x, u.minRating = some (max (numberOr p.minRating 3) x) :=
    fun _ h => Or.inl h
  cases ev with
  | view e =>
    rcases trackView_profile e hp with h | h
    · exact ⟨applyUpdates p (viewUpdates p e), h,
        applyUpdates_monotone p _ (viewUpdates_minRating_shape p e)⟩
    · exact ⟨p, h, hsame⟩
  | like e =>
    rcases trackLike_profile e hp with h | h
    · exact ⟨applyUpdates p (likeUpdates p e), h,
        applyUpdates_monotone p _ (hnone (likeUpdates p e) rfl)⟩
    · exact ⟨p, h, hsame⟩
  | search s =>
    rcases trackSearch_profile s hp with h | h
    · exact ⟨applyUpdates p (searchUpdates p s), h,
        applyUpdates_monotone p _ (hnone (searchUpdates p s) rfl)⟩
    · exact ⟨p, h, hsame⟩

/-- C14: along every sequence of tracking events of a user, from one step to the next the
stored profile keeps a `minRating` at least as high as before and keeps every flag among
`instagrammable`, `trending`, `exclusive` that was set. -/
theorem tracking_never_lowers (db : Db) (userId : Nat) (events : List TrackingEvent)
    (ev : TrackingEvent) (p : UserPreferences)
    (hp : profileOf (runEvents db userId events) userId = some p) :
    ∃ p2, profileOf (runEvents db userId (events ++ [ev])) userId = some p2 ∧
      (∀ m, p.minRating = some m → ∃ m2, p2.minRating = some m2 ∧ m ≤ m2) ∧
      (p.instagrammable = true → p2.instagrammable = true) ∧
      (p.trending = true → p2.trending = true) ∧
      (p.exclusive = true → p2.exclusive = true) := by
  have hrun : runEvents db userId (events ++ [ev]) =
      (track (runEvents db userId events) userId ev).1 := by
    unfold runEvents
    rw [List.foldl_append]
    rfl
  rw [hrun]
  exact track_monotone _ userId ev p hp

/-- Witness of C14: after an adventure view on the fresh state the profile has `minRating`
4.3 and `trending` set; a further view of a `hidden-gems` discovery rated 4.2 is rejected and
leaves both as they were. -/
theorem tracking_never_lowers_witness :
    profileOf (runEvents freshDb 1 [TrackingEvent.view adventureView]) 1 =
      some (applyUpdates (LikeService.newPreferences 1) (viewUpdates (LikeService.newPreferences 1)
        adventureView)) ∧
    ∃ p2, profileOf (runEvents freshDb 1
        ([TrackingEvent.view adventureView] ++ [TrackingEvent.view hiddenGemView])) 1 = some p2 ∧
      (∀ m, (applyUpdates (LikeService.newPreferences 1) (viewUpdates (LikeService.newPreferences 1)
          adventureView)).minRating = some m → ∃ m2, p2.minRating = some m2 ∧ m ≤ m2) ∧
      ((applyUpdates (LikeService.newPreferences 1) (viewUpdates (LikeService.newPreferences 1)
          adventureView)).instagrammable = true → p2.instagrammable = true) ∧
      ((applyUpdates (LikeService.newPreferences 1) (viewUpdates (LikeService.newPreferences 1)
          adventureView)).trending = true → p2.trending = true) ∧
      ((applyUpdates (LikeService.newPreferences 1) (viewUpdates (LikeService.newPreferences 1)
          adventureView)).exclusive = true → p2.exclusive = true) :=
  ⟨by decide!,
    tracking_never_lowers freshDb 1 [TrackingEvent.view adventureView]
      (TrackingEvent.view hiddenGemView) _ (by decide!)⟩

/-! ## Idempotence of `trackView` -/

theorem unionInto_none_eq (current : List String) (value : Option String) :
    unionInto none current value =
      match truthyString value with
      | some v => if v ∈ current then none else some (current ++ [v])
      | none => none := rfl

/-- The second union of `analyzeAndUpdatePreferences`, behind the engagement threshold, never
changes what the first one left. -/
theorem unionInto_again (stored : Option (List String)) (value : Option String) :
    unionInto (unionInto none (stored.getD []) value)
        ((match unionInto none (stored.getD []) value with
          | some cs => some cs
          | none => stored).getD []) value =
      unionInto none (stored.getD []) value := by
  unfold unionInto
  cases hv : truthyString value with
  | none => rfl
  | some v =>
    by_cases hmem : v ∈ stored.getD []
    · simp [hmem]
    · simp [hmem]

theorem viewUpdates_preferredCategories (p : UserPreferences) (e : BehaviorData) :
    (viewUpdates p e).preferredCategories =
      unionInto none (p.preferredCategories.getD []) e.category := by
  simp only [viewUpdates]
  split
  · exact unionInto_again p.preferredCategories e.category
  · rfl

theorem viewUpdates_preferredLocations (p : UserPreferences) (e : BehaviorData) :
    (viewUpdates p e).preferredLocations =
      unionInto none (p.preferredLocations.getD []) e.location := by
  simp only [viewUpdates]
  split
  · exact unionInto_again p.preferredLocations e.location
  · rfl

/-- After the union has been written, the same value asks for no further union. -/
theorem unionInto_after (stored : Option (List String)) (value : Option String) :
    unionInto none
        ((match unionInto none (stored.getD []) value with
          | some cs => some cs
          | none => stored).getD []) value = none := by
  unfold unionInto
  cases hv : truthyString value with
  | none => rfl
  | some v =>
    by_cases hmem : v ∈ stored.getD []
    · simp [hmem]
    · simp [hmem]

theorem numberOr_of_pos {m : ℚ} (h : 0 < m) (fallback : ℚ) : numberOr (some m) fallback = m := by
  unfold numberOr
  simp [ne_of_gt h]

theorem applyUpdates_eq_self (p : UserPreferences) (u : Updates)
    (h1 : ∀ cs, u.preferredCategories = some cs → p.preferredCategories = some cs)
    (h2 : ∀ ls, u.preferredLocations = some ls → p.preferredLocations = some ls)
    (h3 : ∀ b, u.preferredBudget = some b → p.preferredBudget = some b)
    (h4 : ∀ t, u.preferredTimeOfDay = some t → p.preferredTimeOfDay = some t)
    (h5 : ∀ m, u.minRating = some m → p.minRating = some m)
    (h6 : u.instagrammable = true → p.instagrammable = true)
    (h7 : u.trending = true → p.trending = true)
    (h8 : u.exclusive = true → p.exclusive = true) : applyUpdates p u = p := by
  cases p
  cases u
  simp only [applyUpdates, UserPreferences.mk.injEq, true_and]
  simp only at h1 h2 h3 h4 h5 h6 h7 h8
  refine ⟨?_, ?_, ?_, ?_, ?_, ?_, ?_, ?_⟩
  · split
    · exact (h3 _ rfl).symm
    · rfl
  · split
    · exact (h2 _ rfl).symm
    · rfl
  · split
    · exact (h1 _ rfl).symm
    · rfl
  · split
    · exact (h5 _ rfl).symm
    · rfl
  · split
    · exact (h4 _ rfl).symm
    · rfl
  · rename_i ui _ _
    cases hb : ui
    · exact Bool.false_or _
    · rw [h6 hb]
      rfl
  · rename_i _ ut _
    cases hb : ut
    · exact Bool.false_or _
    · rw [h7 hb]
      rfl
  · rename_i _ _ ue
    cases hb : ue
    · exact ⟨Bool.false_or _, trivial⟩
    · rw [h8 hb]
      exact ⟨rfl, trivial⟩

theorem viewUpdates_fixed (p : UserPreferences) (e : BehaviorData) :
    applyUpdates (applyUpdates p (viewUpdates p e))
        (viewUpdates (applyUpdates p (viewUpdates p e)) e) =
      applyUpdates p (viewUpdates p e) := by
  apply applyUpdates_eq_self
  · intro cs hcs
    rw [viewUpdates_preferredCategories] at hcs
    have hp2 : (applyUpdates p (viewUpdates p e)).preferredCategories =
        match unionInto none (p.preferredCategories.getD []) e.category with
        | some cs => some cs
        | none => p.preferredCategories := by
      rw [← viewUpdates_preferredCategories]
      rfl
    rw [hp2, unionInto_after] at hcs
    cases hcs
  · intro ls hls
    rw [viewUpdates_preferredLocations] at hls
    have hp2 : (applyUpdates p (viewUpdates p e)).preferredLocations =
        match unionInto none (p.preferredLocations.getD []) e.location with
        | some ls => some ls
        | none => p.preferredLocations := by
      rw [← viewUpdates_preferredLocations]
      rfl
    rw [hp2, unionInto_after] at hls
    cases hls
  · intro b hb
    have hb2 : truthyString e.budget = some b := hb
    show (match (viewUpdates p e).preferredBudget with
      | some b => some b
      | none => p.preferredBudget) = some b
    have hb3 : (viewUpdates p e).preferredBudget = some b := hb2
    rw [hb3]
  · intro t ht
    have ht2 : truthyString e.timeOfDay = some t := ht
    show (match (viewUpdates p e).preferredTimeOfDay with
      | some t => some t
      | none => p.preferredTimeOfDay) = some t
    have ht3 : (viewUpdates p e).preferredTimeOfDay = some t := ht2
    rw [ht3]
  · intro m hm
    rw [viewUpdates_minRating] at hm
    show (match (viewUpdates p e).minRating with
      | some m => some m
      | none => p.minRating) = some m
    have hfirst := viewUpdates_minRating p e
    cases hr : e.rating with
    | none =>
      rw [hr] at hm
      cases hm
    | some r =>
      rw [hr] at hm hfirst
      by_cases h4 : 4 < r
      · simp only [h4, if_true] at hm hfirst
        rw [hfirst]
        have hp2 : (applyUpdates p (viewUpdates p e)).minRating =
            some (max (numberOr p.minRating 3) (r - 1 / 2)) := by
          show (match (viewUpdates p e).minRating with
            | some m => some m
            | none => p.minRating) = _
          rw [hfirst]
        rw [hp2] at hm
        have hpos : (0 : ℚ) < max (numberOr p.minRating 3) (r - 1 / 2) := by
          apply lt_of_lt_of_le _ (le_max_right _ _)
          linarith
        rw [numberOr_of_pos hpos, max_eq_left (le_max_right _ _)] at hm
        exact hm
      · simp only [h4, if_false] at hm
        cases hm
  · intro h
    have he : e.instagrammable = true := h
    show (e.instagrammable || p.instagrammable) = true
    rw [he]
    rfl
  · intro h
    have he : e.trending = true := h
    show (e.trending || p.trending) = true
    rw [he]
    rfl
  · intro h
    have he : e.exclusive = true := h
    show (e.exclusive || p.exclusive) = true
    rw [he]
    rfl

theorem saveUpdates_fst_eq_self {db : Db} {userId : Nat} {p : UserPreferences} {u : Updates}
    (hp : profileOf db userId = some p) (hfix : applyUpdates p u = p) :
    (saveUpdates db p u).1 = db := by
  have hid := profileOf_userId hp
  subst hid
  unfold saveUpdates
  split
  · rfl
  · split
    · have := updateFirst_eq_self (fun row => applyUpdates row u) hp hfix
      simp only [this]
    · rfl

/-- C15: applying `trackView` with the same event a second time changes nothing: the state
after two applications is the state after one, and so is the stored profile, in all its
fields. -/
theorem trackView_idempotent (db : Db) (userId : Nat) (e : BehaviorData) :
    (trackView (trackView db userId e).1 userId e).1 = (trackView db userId e).1 ∧
    profileOf (trackView (trackView db userId e).1 userId e).1 userId =
      profileOf (trackView db userId e).1 userId := by
  suffices h : (trackView (trackView db userId e).1 userId e).1 = (trackView db userId e).1 from
    ⟨h, by rw [h]⟩
  have hout := tracked_outcome "Error tracking user behavior: " db userId
    (viewUpdates (findOrCreate db userId).2 e)
  have hfirst : trackView db userId e = rethrowWith "Error tracking user behavior: "
      (saveUpdates (findOrCreate db userId).1 (findOrCreate db userId).2
        (viewUpdates (findOrCreate db userId).2 e)) := rfl
  rw [← hfirst] at hout
  rcases hout with ⟨_, hprof, _⟩ | ⟨_, hdb, hne, hinv⟩
  · have hsecond : trackView (trackView db userId e).1 userId e =
        rethrowWith "Error tracking user behavior: "
          (saveUpdates (findOrCreate (trackView db userId e).1 userId).1
            (findOrCreate (trackView db userId e).1 userId).2
            (viewUpdates (findOrCreate (trackView db userId e).1 userId).2 e)) := rfl
    rw [hsecond, rethrowWith_fst, findOrCreate_of_some hprof]
    exact saveUpdates_fst_eq_self hprof (viewUpdates_fixed _ e)
  · have hp0 := profileOf_findOrCreate db userId
    have hsecond : trackView (trackView db userId e).1 userId e =
        rethrowWith "Error tracking user behavior: "
          (saveUpdates (findOrCreate (trackView db userId e).1 userId).1
            (findOrCreate (trackView db userId e).1 userId).2
            (viewUpdates (findOrCreate (trackView db userId e).1 userId).2 e)) := rfl
    rw [hsecond, rethrowWith_fst, hdb, findOrCreate_of_some hp0]
    unfold saveUpdates
    simp [hne, hinv]

/-! ## Outcomes of the tracking operations on a stored profile -/

theorem trackView_outcome {db : Db} {userId : Nat} {p : UserPreferences} (e : BehaviorData)
    (hp : profileOf db userId = some p) :
    ((trackView db userId e).2 = .ok (applyUpdates p (viewUpdates p e)) ∧
      profileOf (trackView db userId e).1 userId = some (applyUpdates p (viewUpdates p e)) ∧
      ((viewUpdates p e).isEmpty = true ∨ validate (viewUpdates p e) = true)) ∨
    ((∃ m, (trackView db userId e).2 = .error m) ∧ (trackView db userId e).1 = db ∧
      (viewUpdates p e).isEmpty = false ∧ validate (viewUpdates p e) = false) := by
  have h := tracked_outcome "Error tracking user behavior: " db userId
    (viewUpdates (findOrCreate db userId).2 e)
  unfold trackView analyzeAndUpdatePreferences
  rw [findOrCreate_of_some hp] at h ⊢
  exact h

theorem trackLike_outcome {db : Db} {userId : Nat} {p : UserPreferences} (e : BehaviorData)
    (hp : profileOf db userId = some p) :
    ((trackLike db userId e).2 = .ok (applyUpdates p (likeUpdates p e)) ∧
      profileOf (trackLike db userId e).1 userId = some (applyUpdates p (likeUpdates p e)) ∧
      ((likeUpdates p e).isEmpty = true ∨ validate (likeUpdates p e) = true)) ∨
    ((∃ m, (trackLike db userId e).2 = .error m) ∧ (trackLike db userId e).1 = db ∧
      (likeUpdates p e).isEmpty = false ∧ validate (likeUpdates p e) = false) := by
  have h := tracked_outcome "Error tracking like behavior: " db userId
    (likeUpdates (findOrCreate db userId).2 e)
  unfold trackLike
  rw [findOrCreate_of_some hp] at h ⊢
  exact h

theorem trackSearch_outcome {db : Db} {userId : Nat} {p : UserPreferences} (s : SearchData)
    (hp : profileOf db userId = some p) :
    ((trackSearch db userId s).2 = .ok (applyUpdates p (searchUpdates p s)) ∧
      profileOf (trackSearch db userId s).1 userId = some (applyUpdates p (searchUpdates p s)) ∧
      ((searchUpdates p s).isEmpty = true ∨ validate (searchUpdates p s) = true)) ∨
    ((∃ m, (trackSearch db userId s).2 = .error m) ∧ (trackSearch db userId s).1 = db ∧
      (searchUpdates p s).isEmpty = false ∧ validate (searchUpdates p s) = false) := by
  have h := tracked_outcome "Error tracking search behavior: " db userId
    (searchUpdates (findOrCreate db userId).2 s)
  unfold trackSearch
  rw [findOrCreate_of_some hp] at h ⊢
  exact h

/-- The categories a union asks to write are valid when the stored ones and the value are. -/
theorem unionInto_valid {stored : Option (List String)} {value : Option String}
    (hstored : ∀ c ∈ stored.getD [], c ∈ allowedCategories)
    (hvalue : ∀ c, truthyString value = some c → c ∈ allowedCategories) :
    ∀ cs, unionInto none (stored.getD []) value = some cs →
      cs.all (fun c => decide (c ∈ allowedCategories)) = true := by
  intro cs hcs
  rw [unionInto_none_eq] at hcs
  cases hv : truthyString value with
  | none =>
    rw [hv] at hcs
    cases hcs
  | some v =>
    rw [hv] at hcs
    simp only at hcs
    split at hcs
    · cases hcs
    · cases hcs
      rw [List.all_eq_true]
      intro c hc
      rw [List.mem_append, List.mem_singleton] at hc
      rcases hc with hc | rfl
      · exact decide_eq_true (hstored c hc)
      · exact decide_eq_true (hvalue c hv)

theorem numberOr_three_le_five {stored : Option ℚ} (h : ∀ m, stored = some m → m ≤ 5) :
    numberOr stored 3 ≤ 5 := by
  unfold numberOr
  cases stored with
  | none => norm_num
  | some v =>
    by_cases hv : v = 0
    · simp only [hv, if_true]
      norm_num
    · simp only [hv, if_false]
      exact h v rfl

theorem validate_viewUpdates {p : UserPreferences} {e : BehaviorData} (hp : StoredValid p)
    (he : Acceptable e) : validate (viewUpdates p e) = true := by
  obtain ⟨hc, hb, ht, hr⟩ := he
  have h1 := viewUpdates_preferredCategories p e
  have h5 := viewUpdates_minRating p e
  have h3 : (viewUpdates p e).preferredBudget = truthyString e.budget := rfl
  have h4 : (viewUpdates p e).preferredTimeOfDay = truthyString e.timeOfDay := rfl
  unfold validate
  rw [h1, h3, h4, h5]
  simp only [Bool.and_eq_true]
  refine ⟨⟨⟨?_, ?_⟩, ?_⟩, ?_⟩
  · cases hu : unionInto none (p.preferredCategories.getD []) e.category with
    | none => rfl
    | some cs => exact unionInto_valid hp.1 hc cs hu
  · cases hu : truthyString e.budget with
    | none => rfl
    | some b => exact decide_eq_true (hb b hu)
  · cases hu : truthyString e.timeOfDay with
    | none => rfl
    | some t => exact decide_eq_true (ht t hu)
  · cases hrat : e.rating with
    | none => rfl
    | some r =>
      by_cases h4r : 4 < r
      · simp only [h4r, if_true, Bool.and_eq_true, decide_eq_true_eq]
        constructor
        · apply le_trans _ (le_max_right _ _)
          linarith
        · apply max_le (numberOr_three_le_five hp.2)
          have := hr r hrat
          linarith
      · simp only [h4r, if_false]

theorem validate_likeUpdates {p : UserPreferences} {e : BehaviorData}
    (hp : ∀ c ∈ p.preferredCategories.getD [], c ∈ allowedCategories)
    (hc : ∀ c, truthyString e.category = some c → c ∈ allowedCategories)
    (hb : ∀ b, truthyString e.budget = some b → b ∈ allowedBudgets) :
    validate (likeUpdates p e) = true := by
  unfold validate likeUpdates
  simp only [Bool.and_eq_true, and_true]
  refine ⟨?_, ?_⟩
  · cases hu : unionInto none (p.preferredCategories.getD []) e.category with
    | none => rfl
    | some cs => exact unionInto_valid hp hc cs hu
  · cases hu : truthyString e.budget with
    | none => rfl
    | some b => exact decide_eq_true (hb b hu)

theorem matchedCategory_mem {s : SearchData} {k : String} (h : matchedCategory s = some k) :
    k ∈ searchCategories ∧
      ∃ term, s.searchTerm = some term ∧ includes (toLowerCase term) k = true := by
  unfold matchedCategory at h
  cases ht : truthyString s.searchTerm with
  | none =>
    rw [ht] at h
    cases h
  | some term =>
    rw [ht] at h
    simp only at h
    have hterm : s.searchTerm = some term := by
      unfold truthyString at ht
      cases hs : s.searchTerm with
      | none => rw [hs] at ht; cases ht
      | some v =>
        rw [hs] at ht
        simp only at ht
        split at ht
        · cases ht
        · cases ht; rfl
    exact ⟨List.mem_of_find?_eq_some h, term, hterm, List.find?_some h⟩

theorem truthyString_mem_allowed {value : Option String} {c : String}
    (h : truthyString value = some c) : value = some c ∧ c ≠ "" := by
  unfold truthyString at h
  cases value with
  | none => cases h
  | some v =>
    simp only at h
    split at h
    · cases h
    · rename_i hne
      cases h
      exact ⟨rfl, hne⟩

theorem validate_searchUpdates {p : UserPreferences} (s : SearchData)
    (hp : ∀ c ∈ p.preferredCategories.getD [], c ∈ allowedCategories) :
    validate (searchUpdates p s) = true := by
  unfold validate searchUpdates
  simp only [Bool.and_eq_true, and_true]
  cases hu : unionInto none (p.preferredCategories.getD []) (matchedCategory s) with
  | none => rfl
  | some cs =>
    refine unionInto_valid hp ?_ cs hu
    intro c hc
    exact (matchedCategory_mem (truthyString_mem_allowed hc).1).1

/-! ## The ratchet of `minRating` -/

theorem max_numberOr_eq {m r : ℚ} (hr : 4 < r) :
    max (numberOr (some m) 3) (r - 1 / 2) = max m (r - 1 / 2) := by
  unfold numberOr
  by_cases hm : m = 0
  · subst hm
    simp only [if_true]
    rw [max_eq_right (by linarith), max_eq_right (by linarith)]
  · simp only [hm, if_false]

/-- C16, as stated, fails: on the stored profile with `minRating` 3, a view event with rating
6 is rejected, because 5.5 is above the maximum 5 of the column, and `minRating` stays 3. -/
theorem trackView_rating_above_range_rejected :
    profileOf profileDb 1 = some (LikeService.newPreferences 1) ∧
    (LikeService.newPreferences 1).minRating = some 3 ∧
    (trackView profileDb 1 overratedView).2 =
      .error "Error tracking user behavior: Validation error" ∧
    (profileOf (trackView profileDb 1 overratedView).1 1).map (fun p => p.minRating) =
      some (some 3) := by
  decide!

/-- C16, amended: on a stored profile with `minRating` `m`, a view event with rating `r`
above 4 that `trackView` accepts sets `minRating` to `max m (r - 0.5)`, and it is accepted
when the stored values and the values the event asks to write pass the validators, which
needs `r` at most 5.5; a view event whose rating is absent or at most 4 leaves `minRating`
at `m`. -/
theorem trackView_minRating (db : Db) (userId : Nat) (e : BehaviorData) (p : UserPreferences)
    (m : ℚ) (hp : profileOf db userId = some p) (hm : p.minRating = some m) :
    (∀ r, e.rating = some r → 4 < r → ∀ p2, (trackView db userId e).2 = .ok p2 →
      p2.minRating = some (max m (r - 1 / 2)) ∧
        profileOf (trackView db userId e).1 userId = some p2) ∧
    (StoredValid p → Acceptable e → ∃ p2, (trackView db userId e).2 = .ok p2) ∧
    ((∀ r, e.rating = some r → r ≤ 4) →
      ∃ p2, profileOf (trackView db userId e).1 userId = some p2 ∧ p2.minRating = some m) := by
  refine ⟨?_, ?_, ?_⟩
  · intro r hr h4 p2 hok
    rcases trackView_outcome e hp with ⟨hres, hprof, _⟩ | ⟨⟨msg, herr⟩, _⟩
    · rw [hres] at hok
      cases hok
      refine ⟨?_, hprof⟩
      show (match (viewUpdates p e).minRating with
        | some m => some m
        | none => p.minRating) = _
      rw [viewUpdates_minRating, hr]
      simp only [h4, if_true, hm, max_numberOr_eq h4]
    · rw [herr] at hok
      cases hok
  · intro hvalid hacc
    rcases trackView_outcome e hp with ⟨hres, _, _⟩ | ⟨_, _, _, hinv⟩
    · exact ⟨_, hres⟩
    · rw [validate_viewUpdates hvalid hacc] at hinv
      cases hinv
  · intro hlow
    have hnone : (viewUpdates p e).minRating = none := by
      rw [viewUpdates_minRating]
      cases hr : e.rating with
      | none => rfl
      | some r =>
        have := hlow r hr
        simp only [not_lt.mpr this, if_false]
    rcases trackView_outcome e hp with ⟨_, hprof, _⟩ | ⟨_, hdb, _, _⟩
    · refine ⟨_, hprof, ?_⟩
      show (match (viewUpdates p e).minRating with
        | some m => some m
        | none => p.minRating) = _
      rw [hnone]
      exact hm
    · rw [hdb]
      exact ⟨p, hp, hm⟩

/-- Witness of C16 amended: on the stored profile with `minRating` 3 a view event with rating
4.8 is accepted and sets `minRating` to `max 3 4.3`. -/
theorem trackView_minRating_witness :
    (trackView profileDb 1 ratedView).2 =
      .ok (applyUpdates (LikeService.newPreferences 1)
        (viewUpdates (LikeService.newPreferences 1) ratedView)) ∧
    (applyUpdates (LikeService.newPreferences 1)
      (viewUpdates (LikeService.newPreferences 1) ratedView)).minRating =
        some (max 3 (24 / 5 - 1 / 2)) :=
  ⟨by decide!,
    ((trackView_minRating profileDb 1 ratedView (LikeService.newPreferences 1) 3 (by decide)
      (by decide)).1 (24 / 5) rfl (by norm_num) _ (by decide!)).1⟩

/-! ## Unions of categories and locations -/

theorem mem_union_result (stored : Option (List String)) {value : Option String} {v : String}
    (hv : truthyString value = some v) (x : String) :
    x ∈ (match unionInto none (stored.getD []) value with
        | some cs => some cs
        | none => stored).getD [] ↔ x ∈ stored.getD [] ∨ x = v := by
  rw [unionInto_none_eq, hv]
  simp only
  by_cases hmem : v ∈ stored.getD []
  · rw [if_pos hmem]
    constructor
    · exact Or.inl
    · rintro (h | rfl)
      · exact h
      · exact hmem
  · rw [if_neg hmem]
    simp [List.mem_append]

/-- C17, as stated, fails: a like event with category `adventure` and the budget `cheap` is
rejected as a whole, and the stored categories stay empty. -/
theorem trackLike_rejected_keeps_categories :
    (trackLike profileDb 1 cheapAdventureLike).2 =
      .error "Error tracking like behavior: Validation error" ∧
    (profileOf (trackLike profileDb 1 cheapAdventureLike).1 1).map
      (fun p => p.preferredCategories) = some (some []) := by
  decide

/-- C17, amended: on a stored profile whose categories are from the vocabulary, a like event
with a category `c` from the vocabulary and a budget that is absent, empty or one of the four
tiers is accepted, and afterwards the stored categories are, as a set, the former ones and
`c`; a non-empty location of the event is likewise added to the stored locations. -/
theorem trackLike_unions (db : Db) (userId : Nat) (e : BehaviorData) (p : UserPreferences)
    (c : String) (hp : profileOf db userId = some p)
    (hstored : ∀ x ∈ p.preferredCategories.getD [], x ∈ allowedCategories)
    (hc : e.category = some c) (hcv : c ∈ allowedCategories)
    (hb : ∀ b, truthyString e.budget = some b → b ∈ allowedBudgets) :
    ∃ p2, (trackLike db userId e).2 = .ok p2 ∧
      profileOf (trackLike db userId e).1 userId = some p2 ∧
      (∀ x, x ∈ p2.preferredCategories.getD [] ↔ x ∈ p.preferredCategories.getD [] ∨ x = c) ∧
      ∀ l, truthyString e.location = some l →
        ∀ x, x ∈ p2.preferredLocations.getD [] ↔ x ∈ p.preferredLocations.getD [] ∨ x = l := by
  have hne : c ≠ "" := by
    intro h
    rw [h] at hcv
    revert hcv
    decide
  have htruthy : truthyString e.category = some c := by
    rw [hc]
    simp [truthyString, hne]
  have hvalid : validate (likeUpdates p e) = true :=
    validate_likeUpdates hstored (by
      intro c2 hc2
      rw [htruthy] at hc2
      cases hc2
      exact hcv) hb
  rcases trackLike_outcome e hp with ⟨hres, hprof, _⟩ | ⟨_, _, _, hinv⟩
  · refine ⟨_, hres, hprof, ?_, ?_⟩
    · exact mem_union_result p.preferredCategories htruthy
    · intro l hl
      exact mem_union_result p.preferredLocations hl
  · rw [hvalid] at hinv
    cases hinv

/-- Witness of C17 amended: on the stored fresh profile, liking `adventure` and then `culture`
leaves the categories `adventure` and `culture`. -/
theorem trackLike_unions_witness :
    (profileOf (trackLike (trackLike profileDb 1 adventureLike).1 1 cultureLike).1 1).map
      (fun p => p.preferredCategories) = some (some ["adventure", "culture"]) ∧
    ∃ p2, (trackLike profileDb 1 adventureLike).2 = .ok p2 ∧
      profileOf (trackLike profileDb 1 adventureLike).1 1 = some p2 ∧
      (∀ x, x ∈ p2.preferredCategories.getD [] ↔
        x ∈ (LikeService.newPreferences 1).preferredCategories.getD [] ∨ x = "adventure") ∧
      ∀ l, truthyString adventureLike.location = some l →
        ∀ x, x ∈ p2.preferredLocations.getD [] ↔
          x ∈ (LikeService.newPreferences 1).preferredLocations.getD [] ∨ x = l :=
  ⟨by decide,
    trackLike_unions profileDb 1 adventureLike (LikeService.newPreferences 1) "adventure"
      (by decide) (by decide) rfl (by decide) (by decide)⟩

/-! ## Budget and time of day: the last write wins -/

/-- C18, as stated, fails: a like event carrying the time of day `morning` is accepted, and
the stored time of day stays empty; a view event carrying the budget `cheap` is rejected, and
the stored budget stays empty. -/
theorem scalar_fields_not_always_written :
    (trackLike profileDb 1 morningLike).2 =
      .ok { LikeService.newPreferences 1 with trending := true } ∧
    (profileOf (trackLike profileDb 1 morningLike).1 1).map (fun p => p.preferredTimeOfDay) =
      some none ∧
    (trackView profileDb 1 cheapView).2 =
      .error "Error tracking user behavior: Validation error" ∧
    (profileOf (trackView profileDb 1 cheapView).1 1).map (fun p => p.preferredBudget) =
      some none := by
  decide

/-- C18, amended: whenever `trackView` accepts an event, the returned profile is the stored
one and has the non-empty budget and the non-empty time of day the event carries; whenever
`trackLike` accepts an event, the returned profile is the stored one and has the non-empty
budget the event carries. -/
theorem accepted_event_writes_scalars (db : Db) (userId : Nat) (e : BehaviorData) :
    (∀ p2, (trackView db userId e).2 = .ok p2 →
      profileOf (trackView db userId e).1 userId = some p2 ∧
      (∀ b, truthyString e.budget = some b → p2.preferredBudget = some b) ∧
      ∀ t, truthyString e.timeOfDay = some t → p2.preferredTimeOfDay = some t) ∧
    (∀ p2, (trackLike db userId e).2 = .ok p2 →
      profileOf (trackLike db userId e).1 userId = some p2 ∧
      ∀ b, truthyString e.budget = some b → p2.preferredBudget = some b) := by
  constructor
  · intro p2 hok
    have hout := tracked_outcome "Error tracking user behavior: " db userId
      (viewUpdates (findOrCreate db userId).2 e)
    have hdef : trackView db userId e = rethrowWith "Error tracking user behavior: "
        (saveUpdates (findOrCreate db userId).1 (findOrCreate db userId).2
          (viewUpdates (findOrCreate db userId).2 e)) := rfl
    rw [← hdef] at hout
    rcases hout with ⟨hres, hprof, _⟩ | ⟨⟨msg, herr⟩, _⟩
    · rw [hres] at hok
      cases hok
      refine ⟨hprof, ?_, ?_⟩
      · intro b hb
        show (match (viewUpdates (findOrCreate db userId).2 e).preferredBudget with
          | some b => some b
          | none => (findOrCreate db userId).2.preferredBudget) = some b
        have : (viewUpdates (findOrCreate db userId).2 e).preferredBudget = some b := hb
        rw [this]
      · intro t ht
        show (match (viewUpdates (findOrCreate db userId).2 e).preferredTimeOfDay with
          | some t => some t
          | none => (findOrCreate db userId).2.preferredTimeOfDay) = some t
        have : (viewUpdates (findOrCreate db userId).2 e).preferredTimeOfDay = some t := ht
        rw [this]
    · rw [herr] at hok
      cases hok
  · intro p2 hok
    have hout := tracked_outcome "Error tracking like behavior: " db userId
      (likeUpdates (findOrCreate db userId).2 e)
    have hdef : trackLike db userId e = rethrowWith "Error tracking like behavior: "
        (saveUpdates (findOrCreate db userId).1 (findOrCreate db userId).2
          (likeUpdates (findOrCreate db userId).2 e)) := rfl
    rw [← hdef] at hout
    rcases hout with ⟨hres, hprof, _⟩ | ⟨⟨msg, herr⟩, _⟩
    · rw [hres] at hok
      cases hok
      refine ⟨hprof, ?_⟩
      intro b hb
      show (match (likeUpdates (findOrCreate db userId).2 e).preferredBudget with
        | some b => some b
        | none => (findOrCreate db userId).2.preferredBudget) = some b
      have : (likeUpdates (findOrCreate db userId).2 e).preferredBudget = some b := hb
      rw [this]
    · rw [herr] at hok
      cases hok

/-- Witness of C18 amended: the adventure view on the fresh state is accepted and stores the
budget `$$` and the time of day `morning`. -/
theorem accepted_event_writes_scalars_witness :
    (profileOf (trackView freshDb 1 adventureView).1 1).map
      (fun p => (p.preferredBudget, p.preferredTimeOfDay)) = some (some "$$", some "morning") ∧
    profileOf (trackView freshDb 1 adventureView).1 1 =
      some (applyUpdates (LikeService.newPreferences 1)
        (viewUpdates (LikeService.newPreferences 1) adventureView)) ∧
    (applyUpdates (LikeService.newPreferences 1)
      (viewUpdates (LikeService.newPreferences 1) adventureView)).preferredBudget = some "$$" :=
  ⟨by decide!,
    ((accepted_event_writes_scalars freshDb 1 adventureView).1 _ (by decide!)).1,
    ((accepted_event_writes_scalars freshDb 1 adventureView).1 _ (by decide!)).2.1 "$$" rfl⟩

/-! ## Rejected and accepted events -/

theorem storedValid_newPreferences (userId : Nat) :
    StoredValid (LikeService.newPreferences userId) := by
  constructor
  · intro c hc
    cases hc
  · intro m hm
    have : m = 3 := by
      have h : (LikeService.newPreferences userId).minRating = some 3 := rfl
      rw [h] at hm
      cases hm
      rfl
    rw [this]
    norm_num

theorem storedValid_findOrCreate {db : Db} {userId : Nat}
    (hstored : ∀ p, profileOf db userId = some p → StoredValid p) :
    StoredValid (findOrCreate db userId).2 := by
  unfold findOrCreate
  cases h : profileOf db userId with
  | some p => exact hstored p h
  | none => exact storedValid_newPreferences userId

/-- C19, as stated, fails: a view of a discovery of category `hidden-gems`, which is not in
the vocabulary of `preferredCategories`, makes `trackView` fail; a like with the budget
`cheap` makes `trackLike` fail; and a search whose `searchTerm` is truthy and not a string
makes `trackSearch` fail. -/
theorem trackView_rejects_unknown_category :
    (trackView freshDb 1 hiddenGemView).2 =
      .error "Error tracking user behavior: Validation error" ∧
    (trackLike freshDb 1 cheapAdventureLike).2 =
      .error "Error tracking like behavior: Validation error" ∧
    (trackSearchRaw freshDb 1 SearchTermField.other).2 =
      .error "Error tracking search behavior: searchData.searchTerm.toLowerCase is not a function" := by
  decide!

theorem tracking_error_keeps_row (db : Db) (userId : Nat) (ev : TrackingEvent) (msg : String)
    (herr : (track db userId ev).2 = .error msg) :
    profileOf (track db userId ev).1 userId = some (findOrCreate db userId).2 := by
  have hp0 := profileOf_findOrCreate db userId
  cases ev with
  | view e =>
    rcases tracked_outcome "Error tracking user behavior: " db userId
      (viewUpdates (findOrCreate db userId).2 e) with ⟨hres, _, _⟩ | ⟨_, hdb, _, _⟩
    · have herr2 : (trackView db userId e).2 = .error msg := herr
      have hres2 : (trackView db userId e).2 = .ok _ := hres
      rw [hres2] at herr2
      cases herr2
    · have hdb2 : (trackView db userId e).1 = (findOrCreate db userId).1 := hdb
      show profileOf (trackView db userId e).1 userId = _
      rw [hdb2]
      exact hp0
  | like e =>
    rcases tracked_outcome "Error tracking like behavior: " db userId
      (likeUpdates (findOrCreate db userId).2 e) with ⟨hres, _, _⟩ | ⟨_, hdb, _, _⟩
    · have herr2 : (trackLike db userId e).2 = .error msg := herr
      have hres2 : (trackLike db userId e).2 = .ok _ := hres
      rw [hres2] at herr2
      cases herr2
    · have hdb2 : (trackLike db userId e).1 = (findOrCreate db userId).1 := hdb
      show profileOf (trackLike db userId e).1 userId = _
      rw [hdb2]
      exact hp0
  | search s =>
    rcases tracked_outcome "Error tracking search behavior: " db userId
      (searchUpdates (findOrCreate db userId).2 s) with ⟨hres, _, _⟩ | ⟨_, hdb, _, _⟩
    · have herr2 : (trackSearch db userId s).2 = .error msg := herr
      have hres2 : (trackSearch db userId s).2 = .ok _ := hres
      rw [hres2] at herr2
      cases herr2
    · have hdb2 : (trackSearch db userId s).1 = (findOrCreate db userId).1 := hdb
      show profileOf (trackSearch db userId s).1 userId = _
      rw [hdb2]
      exact hp0

theorem trackSearch_completes {db : Db} {userId : Nat}
    (hstored : ∀ p, profileOf db userId = some p → StoredValid p) (s : SearchData) :
    ∃ p2, (trackSearch db userId s).2 = .ok p2 := by
  have hvalid := storedValid_findOrCreate hstored
  rcases tracked_outcome "Error tracking search behavior: " db userId
    (searchUpdates (findOrCreate db userId).2 s) with ⟨hres, _, _⟩ | ⟨_, _, _, hinv⟩
  · exact ⟨_, hres⟩
  · rw [validate_searchUpdates s hvalid.1] at hinv
    cases hinv

/-- C19, amended: with stored values that pass the validators, `trackSearch` completes
without error when the field `searchTerm` is absent, falsy or a string, and fails with the
rethrown `TypeError` when it is any other truthy value, leaving the row found or created at
its start; `trackView` completes whenever the values the event asks to write pass the
validators, and `trackLike` whenever its category and budget do, absent and empty fields
being ignored; and a tracking operation that fails on a rejected value leaves the stored
profile as the row found or created at its start. -/
theorem tracking_completes_when_acceptable (db : Db) (userId : Nat)
    (hstored : ∀ p, profileOf db userId = some p → StoredValid p) :
    (∀ field, field ≠ SearchTermField.other →
      ∃ p2, (trackSearchRaw db userId field).2 = .ok p2) ∧
    ((trackSearchRaw db userId SearchTermField.other).2 =
        .error "Error tracking search behavior: searchData.searchTerm.toLowerCase is not a function" ∧
      profileOf (trackSearchRaw db userId SearchTermField.other).1 userId =
        some (findOrCreate db userId).2) ∧
    (∀ s, ∃ p2, (trackSearch db userId s).2 = .ok p2) ∧
    (∀ e, Acceptable e → ∃ p2, (trackView db userId e).2 = .ok p2) ∧
    (∀ e, (∀ c, truthyString e.category = some c → c ∈ allowedCategories) →
      (∀ b, truthyString e.budget = some b → b ∈ allowedBudgets) →
      ∃ p2, (trackLike db userId e).2 = .ok p2) ∧
    (∀ ev msg, (track db userId ev).2 = .error msg →
      profileOf (track db userId ev).1 userId = some (findOrCreate db userId).2) := by
  have hvalid := storedValid_findOrCreate hstored
  refine ⟨?_, ⟨rfl, profileOf_findOrCreate db userId⟩, trackSearch_completes hstored, ?_, ?_,
    tracking_error_keeps_row db userId⟩
  · intro field hfield
    cases field with
    | falsy => exact trackSearch_completes hstored ⟨none⟩
    | text term => exact trackSearch_completes hstored ⟨some term⟩
    | other => exact absurd rfl hfield
  · intro e hacc
    rcases tracked_outcome "Error tracking user behavior: " db userId
      (viewUpdates (findOrCreate db userId).2 e) with ⟨hres, _, _⟩ | ⟨_, _, _, hinv⟩
    · exact ⟨_, hres⟩
    · rw [validate_viewUpdates hvalid hacc] at hinv
      cases hinv
  · intro e hc hb
    rcases tracked_outcome "Error tracking like behavior: " db userId
      (likeUpdates (findOrCreate db userId).2 e) with ⟨hres, _, _⟩ | ⟨_, _, _, hinv⟩
    · exact ⟨_, hres⟩
    · rw [validate_likeUpdates hvalid.1 hc hb] at hinv
      cases hinv

/-- Witness of C19 amended: on the fresh state the search and the adventure view complete,
the adventure like completes, the search with a number as its term fails, and the rejected
view of a `hidden-gems` discovery leaves the row created at its start. -/
theorem tracking_completes_when_acceptable_witness :
    (∃ p2, (trackSearchRaw freshDb 1 (SearchTermField.text "Best FOOD and Culture walks")).2 =
      .ok p2) ∧
    (trackSearchRaw freshDb 1 SearchTermField.other).2 =
      .error "Error tracking search behavior: searchData.searchTerm.toLowerCase is not a function" ∧
    (∃ p2, (trackSearch freshDb 1 foodSearch).2 = .ok p2) ∧
    (∃ p2, (trackView freshDb 1 ratedView).2 = .ok p2) ∧
    (∃ p2, (trackLike freshDb 1 adventureLike).2 = .ok p2) ∧
    profileOf (track freshDb 1 (TrackingEvent.view hiddenGemView)).1 1 =
      some (findOrCreate freshDb 1).2 :=
  ⟨(tracking_completes_when_acceptable freshDb 1 (fun _ hp => nomatch hp)).1 _ (by decide),
    (tracking_completes_when_acceptable freshDb 1 (fun _ hp => nomatch hp)).2.1.1,
    (tracking_completes_when_acceptable freshDb 1 (fun _ hp => nomatch hp)).2.2.1 foodSearch,
    (tracking_completes_when_acceptable freshDb 1 (fun _ hp => nomatch hp)).2.2.2.1 ratedView
      ⟨by decide, by decide, by decide, by
        intro r hr
        cases hr
        norm_num⟩,
    (tracking_completes_when_acceptable freshDb 1 (fun _ hp => nomatch hp)).2.2.2.2.1
      adventureLike (by decide) (by decide),
    (tracking_completes_when_acceptable freshDb 1 (fun _ hp => nomatch hp)).2.2.2.2.2
      (TrackingEvent.view hiddenGemView) "Error tracking user behavior: Validation error"
      (by decide!)⟩

/-! ## Learning from search terms -/

theorem matchedCategory_eq_none {s : SearchData}
    (h : ∀ term, s.searchTerm = some term →
      ∀ k ∈ searchCategories, includes (toLowerCase term) k = false) :
    matchedCategory s = none := by
  unfold matchedCategory
  cases ht : truthyString s.searchTerm with
  | none => rfl
  | some term =>
    simp only
    rw [List.find?_eq_none]
    intro k hk
    rw [h term (truthyString_mem_allowed ht).1 k hk]
    simp

theorem matchedCategory_isSome {s : SearchData} {term k : String} (hterm : s.searchTerm = some term)
    (hk : k ∈ searchCategories) (hin : includes (toLowerCase term) k = true) :
    ∃ k2, matchedCategory s = some k2 := by
  have hne : term ≠ "" := by
    intro h
    rw [h] at hin
    revert hin
    revert k
    decide
  unfold matchedCategory
  rw [hterm]
  simp only [truthyString, hne, if_false]
  cases hf : searchCategories.find? (fun cat => includes (toLowerCase term) cat) with
  | some k2 => exact ⟨k2, rfl⟩
  | none =>
    rw [List.find?_eq_none] at hf
    exact absurd hin (hf k hk)

theorem truthyString_of_searchCategory {k : String} (hk : k ∈ searchCategories) :
    truthyString (some k) = some k := by
  have hne : k ≠ "" := by
    intro h
    rw [h] at hk
    revert hk
    decide
  simp [truthyString, hne]

theorem applyUpdates_searchUpdates (p : UserPreferences) (s : SearchData) :
    applyUpdates p (searchUpdates p s) =
      { p with preferredCategories := (applyUpdates p (searchUpdates p s)).preferredCategories } := by
  cases p
  simp [applyUpdates, searchUpdates]

/-- C20: on a stored profile whose categories are from the vocabulary, `trackSearch` leaves
the state as it was when the search term is absent or its lower-cased form contains none of
the eight keywords; when it contains one, the operation succeeds and a contained keyword is
among the stored categories afterwards; in every case only `preferredCategories` can differ
from before, and every category it holds was there before or is one of the keywords. -/
theorem trackSearch_learns_keyword (db : Db) (userId : Nat) (s : SearchData)
    (p : UserPreferences) (hp : profileOf db userId = some p)
    (hstored : ∀ c ∈ p.preferredCategories.getD [], c ∈ allowedCategories) :
    ((∀ term, s.searchTerm = some term →
        ∀ k ∈ searchCategories, includes (toLowerCase term) k = false) →
      trackSearch db userId s = (db, .ok p)) ∧
    (∀ term k, s.searchTerm = some term → k ∈ searchCategories →
      includes (toLowerCase term) k = true →
      ∃ p2 k2, (trackSearch db userId s).2 = .ok p2 ∧
        profileOf (trackSearch db userId s).1 userId = some p2 ∧ k2 ∈ searchCategories ∧
        includes (toLowerCase term) k2 = true ∧ k2 ∈ p2.preferredCategories.getD []) ∧
    ∃ p2, profileOf (trackSearch db userId s).1 userId = some p2 ∧
      p2 = { p with preferredCategories := p2.preferredCategories } ∧
      ∀ c ∈ p2.preferredCategories.getD [],
        c ∈ p.preferredCategories.getD [] ∨ c ∈ searchCategories := by
  have hshape : ∀ c ∈ (applyUpdates p (searchUpdates p s)).preferredCategories.getD [],
      c ∈ p.preferredCategories.getD [] ∨ c ∈ searchCategories := by
    intro c hc
    cases hm : matchedCategory s with
    | none =>
      have : (applyUpdates p (searchUpdates p s)).preferredCategories = p.preferredCategories := by
        simp [applyUpdates, searchUpdates, hm, unionInto, truthyString]
      rw [this] at hc
      exact Or.inl hc
    | some k2 =>
      have hk2 := (matchedCategory_mem hm).1
      have hmem := (mem_union_result p.preferredCategories
        (truthyString_of_searchCategory hk2) c).mp (by
          rw [← hm]
          exact hc)
      rcases hmem with h | rfl
      · exact Or.inl h
      · exact Or.inr hk2
  refine ⟨?_, ?_, ?_⟩
  · intro hnone
    have hm := matchedCategory_eq_none hnone
    unfold trackSearch
    rw [findOrCreate_of_some hp]
    simp [searchUpdates, hm, unionInto, truthyString, saveUpdates, Updates.isEmpty, rethrowWith]
  · intro term k hterm hk hin
    obtain ⟨k2, hm⟩ := matchedCategory_isSome hterm hk hin
    obtain ⟨hk2, term2, hterm2, hin2⟩ := matchedCategory_mem hm
    have hsame : term2 = term := by
      rw [hterm] at hterm2
      cases hterm2
      rfl
    subst hsame
    rcases trackSearch_outcome s hp with ⟨hres, hprof, _⟩ | ⟨_, _, _, hinv⟩
    · refine ⟨_, k2, hres, hprof, hk2, hin2, ?_⟩
      have := (mem_union_result p.preferredCategories
        (truthyString_of_searchCategory hk2) k2).mpr (Or.inr rfl)
      rw [← hm] at this
      exact this
    · rw [validate_searchUpdates s hstored] at hinv
      cases hinv
  · rcases trackSearch_outcome s hp with ⟨_, hprof, _⟩ | ⟨_, hdb, _, _⟩
    · exact ⟨_, hprof, applyUpdates_searchUpdates p s, hshape⟩
    · rw [hdb]
      exact ⟨p, hp, rfl, fun c hc => Or.inl hc⟩

/-- Witness of C20: on the stored fresh profile the search for `Best FOOD and Culture walks`
stores the category `culture`, and the search for `Quiet BEACH near me` changes nothing. -/
theorem trackSearch_learns_keyword_witness :
    trackSearch profileDb 1 beachSearch = (profileDb, .ok (LikeService.newPreferences 1)) ∧
    (profileOf (trackSearch profileDb 1 foodSearch).1 1).map (fun p => p.preferredCategories) =
      some (some ["culture"]) ∧
    ∃ p2 k2, (trackSearch profileDb 1 foodSearch).2 = .ok p2 ∧
      profileOf (trackSearch profileDb 1 foodSearch).1 1 = some p2 ∧ k2 ∈ searchCategories ∧
      includes (toLowerCase "Best FOOD and Culture walks") k2 = true ∧
      k2 ∈ p2.preferredCategories.getD [] :=
  ⟨(trackSearch_learns_keyword profileDb 1 beachSearch (LikeService.newPreferences 1)
      (by decide) (by decide)).1 (by
        intro term hterm
        cases hterm
        decide),
    by decide,
    (trackSearch_learns_keyword profileDb 1 foodSearch (LikeService.newPreferences 1)
      (by decide) (by decide)).2.1 "Best FOOD and Culture walks" "food" rfl (by decide)
      (by decide)⟩

/-! ## The engagement thresholds of `trackView` -/

/-- The object `updates` of a view event, key by key: the two blocks behind the thresholds on
`viewDuration` and `scrollDepth` leave no trace in it. -/
theorem viewUpdates_eq_fields (p : UserPreferences) (e : BehaviorData) :
    viewUpdates p e =
      { preferredCategories := unionInto none (p.preferredCategories.getD []) e.category
        preferredLocations := unionInto none (p.preferredLocations.getD []) e.location
        preferredBudget := truthyString e.budget
        preferredTimeOfDay := truthyString e.timeOfDay
        minRating :=
          match e.rating with
          | some r => if 4 < r then some (max (numberOr p.minRating 3) (r - 1 / 2)) else none
          | none => none
        instagrammable := e.instagrammable
        trending := e.trending
        exclusive := e.exclusive } := by
  rw [← viewUpdates_preferredCategories p e, ← viewUpdates_preferredLocations p e]
  rfl

theorem viewUpdates_thresholds (p : UserPreferences) (e : BehaviorData)
    (viewDuration scrollDepth : Option ℚ) :
    viewUpdates p { e with viewDuration := viewDuration, scrollDepth := scrollDepth } =
      viewUpdates p e := by
  rw [viewUpdates_eq_fields, viewUpdates_eq_fields]

/-- C21: the engagement thresholds of `trackView` are redundant.  A view event and the same
event with `viewDuration` and `scrollDepth` removed, or replaced by any other values, lead to
the same state, hence the same profile, and to the same result; and the object `updates` of a
view event is the one of the collapsed form, built without the two threshold blocks. -/
theorem trackView_thresholds_redundant (db : Db) (userId : Nat) (e : BehaviorData) :
    trackView db userId { e with viewDuration := none, scrollDepth := none } =
        trackView db userId e ∧
      (∀ viewDuration scrollDepth : Option ℚ,
        trackView db userId { e with viewDuration := viewDuration, scrollDepth := scrollDepth } =
          trackView db userId e) ∧
      ∀ p, viewUpdates p e = collapsedViewUpdates p e := by
  have h : ∀ viewDuration scrollDepth : Option ℚ,
      trackView db userId { e with viewDuration := viewDuration, scrollDepth := scrollDepth } =
        trackView db userId e := by
    intro viewDuration scrollDepth
    unfold trackView analyzeAndUpdatePreferences
    rw [viewUpdates_thresholds]
  exact ⟨h none none, h, fun p => viewUpdates_eq_fields p e⟩

theorem trackView_thresholds_redundant_witness :
    adventureView.viewDuration = some 20 ∧
    (profileOf (trackView freshDb 1 adventureView).1 1).map
      (fun p => (p.preferredCategories, p.preferredLocations)) =
        some (some ["adventure"], some ["Goa"]) ∧
    trackView freshDb 1 { adventureView with viewDuration := none, scrollDepth := none } =
      trackView freshDb 1 adventureView :=
  ⟨rfl, by decide!, (trackView_thresholds_redundant freshDb 1 adventureView).1⟩

/-! ## The first keyword of a search -/

theorem find?_first {α : Type} (test : α → Bool) (before after : List α) (k : α)
    (hk : test k = true) (hfirst : ∀ c ∈ before, test c = false) :
    (before ++ k :: after).find? test = some k := by
  induction before with
  | nil => simp [List.find?_cons, hk]
  | cons b bs ih =>
    have hb : test b = false := hfirst b (List.mem_cons_self _ _)
    simp only [List.cons_append, List.find?_cons, hb]
    exact ih (fun c hc => hfirst c (List.mem_cons_of_mem _ hc))

/-- The keyword a search matches is the first one, in the order of the array, that the
lower-cased term contains. -/
theorem matchedCategory_first {term k : String} {before after : List String} (hterm : term ≠ "")
    (horder : searchCategories = before ++ k :: after)
    (hk : includes (toLowerCase term) k = true)
    (hfirst : ∀ c ∈ before, includes (toLowerCase term) c = false) :
    matchedCategory ⟨some term⟩ = some k := by
  unfold matchedCategory truthyString
  simp only [hterm, if_false]
  rw [horder]
  exact find?_first _ before after k hk hfirst

/-- The row after an accepted search, by the keyword the search matched. -/
theorem applyUpdates_searchUpdates_of (p : UserPreferences) (s : SearchData) :
    (matchedCategory s = none ∧ applyUpdates p (searchUpdates p s) = p) ∨
      ∃ k, matchedCategory s = some k ∧ k ∈ searchCategories ∧
        ((k ∈ p.preferredCategories.getD [] ∧ applyUpdates p (searchUpdates p s) = p) ∨
          (k ∉ p.preferredCategories.getD [] ∧
            applyUpdates p (searchUpdates p s) =
              { p with preferredCategories := some (p.preferredCategories.getD [] ++ [k]) })) := by
  cases hm : matchedCategory s with
  | none =>
    refine Or.inl ⟨rfl, ?_⟩
    cases p
    simp [applyUpdates, searchUpdates, hm, unionInto, truthyString]
  | some k =>
    have hmem := (matchedCategory_mem hm).1
    have htruthy := truthyString_of_searchCategory hmem
    refine Or.inr ⟨k, rfl, hmem, ?_⟩
    by_cases hin : k ∈ p.preferredCategories.getD []
    · refine Or.inl ⟨hin, ?_⟩
      cases p
      simp only [applyUpdates, searchUpdates, hm, unionInto, htruthy] at hin ⊢
      simp [hin]
    · refine Or.inr ⟨hin, ?_⟩
      cases p
      simp only [applyUpdates, searchUpdates, hm, unionInto, htruthy] at hin ⊢
      simp [hin]

/-- C28: `trackSearch` adds at most one category per call.  On an existing profile the row
after a search is the row before, or the row before with one keyword appended to
`preferredCategories`.  When the lower-cased term contains the keyword `k` and none of the
keywords before `k` in the array, `k` is the only keyword considered: the row afterwards is
the row before or the row before with `k` appended, and when `k` is already stored the call
returns the profile and leaves the state as it was, whatever other keywords the term contains. -/
theorem trackSearch_first_keyword_only (db : Db) (userId : Nat) (p : UserPreferences)
    (hp : profileOf db userId = some p) :
    (∀ s, ∃ q, profileOf (trackSearch db userId s).1 userId = some q ∧
      (q = p ∨ ∃ k ∈ searchCategories, k ∉ p.preferredCategories.getD [] ∧
        q = { p with preferredCategories := some (p.preferredCategories.getD [] ++ [k]) })) ∧
    ∀ (term k : String) (before after : List String), term ≠ "" →
      searchCategories = before ++ k :: after →
      includes (toLowerCase term) k = true →
      (∀ c ∈ before, includes (toLowerCase term) c = false) →
      (k ∈ p.preferredCategories.getD [] → trackSearch db userId ⟨some term⟩ = (db, .ok p)) ∧
      ∃ q, profileOf (trackSearch db userId ⟨some term⟩).1 userId = some q ∧
        (q = p ∨
          q = { p with preferredCategories := some (p.preferredCategories.getD [] ++ [k]) }) := by
  constructor
  · intro s
    rcases trackSearch_profile s hp with h | h
    · rcases applyUpdates_searchUpdates_of p s with ⟨_, heq⟩ | ⟨k, _, hk, ⟨_, heq⟩ | ⟨hnot, heq⟩⟩
      · exact ⟨_, h, Or.inl heq⟩
      · exact ⟨_, h, Or.inl heq⟩
      · exact ⟨_, h, Or.inr ⟨k, hk, hnot, heq⟩⟩
    · exact ⟨_, h, Or.inl rfl⟩
  · intro term k before after hterm horder hk hfirst
    have hm := matchedCategory_first hterm horder hk hfirst
    constructor
    · intro hin
      have hu : (searchUpdates p ⟨some term⟩).isEmpty = true := by
        have htruthy := truthyString_of_searchCategory (matchedCategory_mem hm).1
        simp [searchUpdates, hm, unionInto, htruthy, hin, Updates.isEmpty]
      unfold trackSearch
      rw [findOrCreate_of_some hp]
      simp only [saveUpdates, hu, if_true]
      rfl
    · rcases trackSearch_profile ⟨some term⟩ hp with h | h
      · rcases applyUpdates_searchUpdates_of p ⟨some term⟩ with
          ⟨_, heq⟩ | ⟨k2, hk2, _, ⟨_, heq⟩ | ⟨_, heq⟩⟩
        · exact ⟨_, h, Or.inl heq⟩
        · exact ⟨_, h, Or.inl heq⟩
        · rw [hm] at hk2
          cases hk2
          exact ⟨_, h, Or.inr heq⟩
      · exact ⟨_, h, Or.inl rfl⟩

theorem trackSearch_first_keyword_only_witness :
    includes (toLowerCase "Best FOOD and Culture walks") "food" = true ∧
    "food" ∉ ["culture"] ∧
    trackSearch cultureProfileDb 1 ⟨some "Best FOOD and Culture walks"⟩ =
      (cultureProfileDb,
        .ok { LikeService.newPreferences 1 with preferredCategories := some ["culture"] }) :=
  ⟨by decide, by decide,
    ((trackSearch_first_keyword_only cultureProfileDb 1
        { LikeService.newPreferences 1 with preferredCategories := some ["culture"] }
        (by decide)).2 "Best FOOD and Culture walks" "culture" ["adventure", "relaxation"]
        ["food", "nature", "nightlife", "shopping", "history"] (by decide) (by decide) (by decide)
        (by decide)).1 (by decide)⟩

/-! ## The like operations of `like.service.js` -/

theorem uniq_cons {α : Type} [DecidableEq α] (a : α) (l : List α) :
    uniq (a :: l) = a :: (uniq l).filter (fun b => b ≠ a) := rfl

theorem uniq_append {α : Type} [DecidableEq α] (l m : List α) :
    uniq (l ++ m) = uniq l ++ (uniq m).filter (fun b => decide (b ∉ l)) := by
  induction l with
  | nil => simp [uniq]
  | cons a l ih =>
    rw [List.cons_append, uniq_cons, uniq_cons, ih, List.filter_append, List.filter_filter,
      List.cons_append]
    congr 2
    apply List.filter_congr
    intro b _
    by_cases h : b = a <;> simp [h]

theorem uniq_of_nodup {α : Type} [DecidableEq α] {l : List α} (h : l.Nodup) : uniq l = l := by
  induction l with
  | nil => rfl
  | cons a l ih =>
    rw [List.nodup_cons] at h
    simp only [uniq, ih h.2, List.cons.injEq, true_and]
    rw [List.filter_eq_self]
    intro b hb
    have : b ≠ a := fun hba => h.1 (hba ▸ hb)
    simpa using this

theorem uniq_append_self {α : Type} [DecidableEq α] (l : List α) (d : α) :
    uniq (uniq (l ++ [d]) ++ [d]) = uniq (l ++ [d]) := by
  rw [uniq_append (uniq (l ++ [d])) [d], uniq_of_nodup (nodup_uniq _)]
  have hd : d ∈ uniq (l ++ [d]) := (mem_uniq _ _).2 (by simp)
  simp [uniq, hd]

/-- The row a like operation writes to: the stored row of the user, or the row it creates. -/
theorem find?_upsert (rows : List UserPreferences) (userId : Nat)
    (f : UserPreferences → UserPreferences) (hf : ∀ row, (f row).userId = row.userId) :
    (LikeService.updateFirst
        (match rows.find? (fun p => decide (p.userId = userId)) with
          | some _ => rows
          | none => rows ++ [LikeService.newPreferences userId]) userId f).find?
        (fun p => decide (p.userId = userId)) =
      some (f ((rows.find? (fun p => decide (p.userId = userId))).getD
        (LikeService.newPreferences userId))) := by
  cases h : rows.find? (fun p => decide (p.userId = userId)) with
  | some p => exact find?_updateFirst f hf h
  | none =>
    apply find?_updateFirst f hf
    rw [List.find?_append, h]
    simp [LikeService.newPreferences]

theorem likeDiscovery_profile (db : Db) (userId discoveryId : Nat) :
    profileOf (LikeService.likeDiscovery db userId discoveryId).1 userId =
      some { (profileOf db userId).getD (LikeService.newPreferences userId) with
        likedDiscoveries :=
          some (uniq ((((profileOf db userId).getD
            (LikeService.newPreferences userId)).likedDiscoveries).getD [] ++ [discoveryId])) } :=
  find?_upsert db.userPreferences userId _ (fun _ => rfl)

theorem likeRecommendation_profile (db : Db) (userId recommendationId : Nat) :
    profileOf (LikeService.likeRecommendation db userId recommendationId).1 userId =
      some { (profileOf db userId).getD (LikeService.newPreferences userId) with
        likedRecommendations :=
          some (uniq ((((profileOf db userId).getD
            (LikeService.newPreferences userId)).likedRecommendations).getD [] ++
              [recommendationId])) } :=
  find?_upsert db.userPreferences userId _ (fun _ => rfl)

theorem count_uniq_append_self {α : Type} [DecidableEq α] (l : List α) (d : α) :
    (uniq (l ++ [d])).count d = 1 :=
  List.count_eq_one_of_mem (nodup_uniq _) ((mem_uniq _ _).2 (by simp))

/-- Liking again what the profile already holds leaves the state as it is. -/
theorem like_again_fixed {db : Db} {userId : Nat} {p : UserPreferences}
    (f : UserPreferences → UserPreferences) (hp : profileOf db userId = some p)
    (hfix : f p = p) :
    ({ db with
        userPreferences :=
          LikeService.updateFirst
            (match db.userPreferences.find? (fun q => decide (q.userId = userId)) with
              | some _ => db.userPreferences
              | none => db.userPreferences ++ [LikeService.newPreferences userId]) userId f } :
        Db) = db := by
  unfold profileOf at hp
  rw [hp]
  simp only
  rw [updateFirst_eq_self f hp hfix]

/-- C23: likes are a set.  After `likeDiscovery(U, d)` the profile of `U` exists and its list
`likedDiscoveries` holds `d` exactly once and no id twice; a second call leaves the state as
the first one left it.  The same holds for `likeRecommendation` and `likedRecommendations`. -/
theorem likes_are_a_set (db : Db) (userId d : Nat) :
    (∃ p liked, profileOf (LikeService.likeDiscovery db userId d).1 userId = some p ∧
      p.likedDiscoveries = some liked ∧ liked.count d = 1 ∧ liked.Nodup) ∧
    (LikeService.likeDiscovery (LikeService.likeDiscovery db userId d).1 userId d).1 =
      (LikeService.likeDiscovery db userId d).1 ∧
    (∃ p liked, profileOf (LikeService.likeRecommendation db userId d).1 userId = some p ∧
      p.likedRecommendations = some liked ∧ liked.count d = 1 ∧ liked.Nodup) ∧
    (LikeService.likeRecommendation (LikeService.likeRecommendation db userId d).1 userId d).1 =
      (LikeService.likeRecommendation db userId d).1 := by
  refine ⟨⟨_, _, likeDiscovery_profile db userId d, rfl, count_uniq_append_self _ _,
      nodup_uniq _⟩, ?_, ⟨_, _, likeRecommendation_profile db userId d, rfl,
      count_uniq_append_self _ _, nodup_uniq _⟩, ?_⟩
  · refine like_again_fixed _ (likeDiscovery_profile db userId d) ?_
    simp only [Option.getD_some, uniq_append_self]
  · refine like_again_fixed _ (likeRecommendation_profile db userId d) ?_
    simp only [Option.getD_some, uniq_append_self]

theorem likes_are_a_set_witness :
    (profileOf (LikeService.likeDiscovery likedDb 1 5).1 1).map (fun p => p.likedDiscoveries) =
      some (some [4, 7, 9, 5]) ∧
    (profileOf (LikeService.likeDiscovery likedDb 1 7).1 1).map (fun p => p.likedDiscoveries) =
      some (some [4, 7, 9]) ∧
    (profileOf (LikeService.likeRecommendation freshDb 1 3).1 1).map
      (fun p => p.likedRecommendations) = some (some [3]) ∧
    (LikeService.likeDiscovery (LikeService.likeDiscovery likedDb 1 5).1 1 5).1 =
      (LikeService.likeDiscovery likedDb 1 5).1 :=
  ⟨by decide, by decide, by decide, (likes_are_a_set likedDb 1 5).2.1⟩

/-- C24: `unlikeDiscovery(U, d)` on an existing profile reports success and rewrites only the
list `likedDiscoveries` of the row: `d` is gone from it, every other id is kept in its order,
and `likedRecommendations`, the preferred categories and locations, budget, time of day,
`minRating` and the three flags are as before.  When `U` has no profile the state is left as
it was, so no profile is created, and the result has `success = false`. -/
theorem unlikeDiscovery_removes_only (db : Db) (userId d : Nat) :
    (∀ p, profileOf db userId = some p →
      (LikeService.unlikeDiscovery db userId d).2.success = true ∧
      ∃ q liked, profileOf (LikeService.unlikeDiscovery db userId d).1 userId = some q ∧
        q.likedDiscoveries = some liked ∧ d ∉ liked ∧
        liked = (p.likedDiscoveries.getD []).filter (fun id => decide (id ≠ d)) ∧
        q = { p with likedDiscoveries := some liked } ∧
        q.likedRecommendations = p.likedRecommendations ∧
        q.preferredCategories = p.preferredCategories ∧
        q.preferredLocations = p.preferredLocations ∧
        q.preferredBudget = p.preferredBudget ∧
        q.preferredTimeOfDay = p.preferredTimeOfDay ∧
        q.minRating = p.minRating ∧
        q.instagrammable = p.instagrammable ∧ q.trending = p.trending ∧
        q.exclusive = p.exclusive) ∧
    (profileOf db userId = none →
      (LikeService.unlikeDiscovery db userId d).1 = db ∧
      (LikeService.unlikeDiscovery db userId d).2.success = false) := by
  constructor
  · intro p hp
    have hfind : db.userPreferences.find? (fun q => decide (q.userId = userId)) = some p := hp
    constructor
    · unfold LikeService.unlikeDiscovery
      rw [hfind]
    · refine ⟨_, _, ?_, rfl, ?_, rfl, rfl, rfl, rfl, rfl, rfl, rfl, rfl, rfl, rfl, rfl⟩
      · unfold LikeService.unlikeDiscovery
        rw [hfind]
        exact find?_updateFirst _ (fun _ => rfl) hfind
      · simp
  · intro hp
    have hfind : db.userPreferences.find? (fun q => decide (q.userId = userId)) = none := hp
    unfold LikeService.unlikeDiscovery
    rw [hfind]
    exact ⟨rfl, rfl⟩

theorem unlikeDiscovery_removes_only_witness :
    (profileOf (LikeService.unlikeDiscovery likedDb 1 7).1 1).map
      (fun q => (q.likedDiscoveries, q.likedRecommendations)) = some (some [4, 9], some [7]) ∧
    ((LikeService.unlikeDiscovery likedDb 1 7).2.success = true ∧
      ∃ q liked, profileOf (LikeService.unlikeDiscovery likedDb 1 7).1 1 = some q ∧
        q.likedDiscoveries = some liked ∧ 7 ∉ liked ∧
        liked = ([4, 7, 9] : List Nat).filter (fun id => decide (id ≠ 7)) ∧
        q = { ({ LikeService.newPreferences 1 with
                likedDiscoveries := some [4, 7, 9]
                likedRecommendations := some [7] } : UserPreferences) with
              likedDiscoveries := some liked } ∧
        q.likedRecommendations = some [7] ∧
        q.preferredCategories = some [] ∧
        q.preferredLocations = some [] ∧
        q.preferredBudget = none ∧
        q.preferredTimeOfDay = none ∧
        q.minRating = some 3 ∧
        q.instagrammable = false ∧ q.trending = false ∧ q.exclusive = false) ∧
    (LikeService.unlikeDiscovery freshDb 1 7).1 = freshDb ∧
    (LikeService.unlikeDiscovery freshDb 1 7).2.success = false :=
  ⟨by decide,
    (unlikeDiscovery_removes_only likedDb 1 7).1
      { LikeService.newPreferences 1 with
        likedDiscoveries := some [4, 7, 9]
        likedRecommendations := some [7] } (by decide),
    (unlikeDiscovery_removes_only freshDb 1 7).2 (by decide)⟩

/-- C25: `getUserPreferences(U)` for a user without a profile stores one new row and returns
it: empty preferred categories and locations, empty liked lists, `minRating` 3, no budget and
no time of day, the three flags off.  For a user with a profile it returns the stored row and
leaves the state as it was, so nothing is created. -/
theorem getUserPreferences_creates_defaults (db : Db) (userId : Nat) :
    (profileOf db userId = none →
      ∃ p, getUserPreferences db userId =
          ({ db with userPreferences := db.userPreferences ++ [p] }, .ok p) ∧
        profileOf (getUserPreferences db userId).1 userId = some p ∧
        p.userId = userId ∧
        p.preferredCategories = some [] ∧ p.preferredLocations = some [] ∧
        p.likedDiscoveries = some [] ∧ p.likedRecommendations = some [] ∧
        p.minRating = some 3 ∧ p.preferredBudget = none ∧ p.preferredTimeOfDay = none ∧
        p.instagrammable = false ∧ p.trending = false ∧ p.exclusive = false) ∧
    (∀ p, profileOf db userId = some p → getUserPreferences db userId = (db, .ok p)) := by
  constructor
  · intro hp
    refine ⟨LikeService.newPreferences userId, ?_, ?_, rfl, rfl, rfl, rfl, rfl, rfl, rfl, rfl,
      rfl, rfl, rfl⟩
    · unfold getUserPreferences findOrCreate
      rw [hp]
    · have h := profileOf_findOrCreate db userId
      unfold getUserPreferences
      rw [h]
      unfold findOrCreate
      rw [hp]
  · intro p hp
    unfold getUserPreferences
    rw [findOrCreate_of_some hp]

theorem getUserPreferences_creates_defaults_witness :
    (∃ p, getUserPreferences freshDb 1 =
          ({ freshDb with userPreferences := freshDb.userPreferences ++ [p] }, .ok p) ∧
        profileOf (getUserPreferences freshDb 1).1 1 = some p ∧
        p.userId = 1 ∧
        p.preferredCategories = some [] ∧ p.preferredLocations = some [] ∧
        p.likedDiscoveries = some [] ∧ p.likedRecommendations = some [] ∧
        p.minRating = some 3 ∧ p.preferredBudget = none ∧ p.preferredTimeOfDay = none ∧
        p.instagrammable = false ∧ p.trending = false ∧ p.exclusive = false) ∧
    getUserPreferences likedDb 1 =
      (likedDb, .ok { LikeService.newPreferences 1 with
        likedDiscoveries := some [4, 7, 9]
        likedRecommendations := some [7] }) :=
  ⟨(getUserPreferences_creates_defaults freshDb 1).1 (by decide),
    (getUserPreferences_creates_defaults likedDb 1).2 _ (by decide)⟩

/-! ## The most liked discoveries -/

/-- When no list names an id twice, the occurrences of an id over all lists are as many as the
rows whose list has the id. -/
theorem count_flatten_eq_countP (rows : List UserPreferences) (id : Nat)
    (hnodup : ∀ p ∈ rows, (p.likedDiscoveries.getD []).Nodup) :
    ((rows.map (fun pref => pref.likedDiscoveries.getD [])).flatten).count id =
      rows.countP (fun pref =>
        (pref.likedDiscoveries.getD []).any (fun x => decide (x = id))) := by
  induction rows with
  | nil => rfl
  | cons p ps ih =>
    have hp := hnodup p (List.mem_cons_self _ _)
    have ih2 := ih (fun q hq => hnodup q (List.mem_cons_of_mem _ hq))
    rw [List.map_cons, List.flatten_cons, List.count_append, ih2, List.countP_cons]
    by_cases hmem : id ∈ p.likedDiscoveries.getD []
    · have hany : (p.likedDiscoveries.getD []).any (fun x => decide (x = id)) = true := by
        rw [List.any_eq_true]
        exact ⟨id, hmem, by simp⟩
      rw [List.count_eq_one_of_mem hp hmem, hany, if_pos rfl, Nat.add_comm]
    · have hany : (p.likedDiscoveries.getD []).any (fun x => decide (x = id)) = false := by
        rw [List.any_eq_false]
        intro x hx
        have : x ≠ id := fun h => hmem (h ▸ hx)
        simpa using this
      rw [List.count_eq_zero_of_not_mem hmem, hany]
      simp

theorem discoveryCounts_entry {db : Db} {entry : Nat × Nat}
    (h : entry ∈ LikeService.discoveryCounts db) :
    entry.2 =
      ((db.userPreferences.map (fun pref => pref.likedDiscoveries.getD [])).flatten).count
        entry.1 := by
  unfold LikeService.discoveryCounts at h
  simp only [List.mem_map] at h
  obtain ⟨id, _, rfl⟩ := h
  rfl

/-- C30: on a state in which no list `likedDiscoveries` names an id twice, and for a limit
that is not negative, `getMostLikedDiscoveries(limit)` returns at most `limit` entries, in
order of non-increasing `likeCount`, and the `likeCount` of each entry is
`getDiscoveryLikeCount` of its `discoveryId`: the number of rows whose list holds the id. -/
theorem getMostLikedDiscoveries_counts (db : Db) (limit : Int)
    (hnodup : ∀ p ∈ db.userPreferences, (p.likedDiscoveries.getD []).Nodup)
    (hlimit : 0 ≤ limit) :
    (LikeService.getMostLikedDiscoveries db limit).length ≤ limit.toNat ∧
    (LikeService.getMostLikedDiscoveries db limit).Pairwise
      (fun a b => b.likeCount ≤ a.likeCount) ∧
    ∀ e ∈ LikeService.getMostLikedDiscoveries db limit,
      e.likeCount = LikeService.getDiscoveryLikeCount db e.discoveryId ∧
      e.likeCount =
        (db.userPreferences.filter
          (fun p => decide (e.discoveryId ∈ p.likedDiscoveries.getD []))).length := by
  unfold LikeService.getMostLikedDiscoveries
  rw [jsSlice_of_nonneg _ hlimit]
  refine ⟨?_, ?_, ?_⟩
  · rw [List.length_map, List.length_take]
    exact Nat.min_le_left _ _
  · rw [List.pairwise_map]
    exact (orderByDesc_pairwise (fun entry : Nat × Nat => entry.2) _).sublist
      (List.take_sublist _ _)
  · intro e he
    rw [List.mem_map] at he
    obtain ⟨entry, hentry, rfl⟩ := he
    have hmem : entry ∈ LikeService.discoveryCounts db :=
      (mem_orderByDesc _ _ _).1 (List.mem_of_mem_take hentry)
    have hcount := discoveryCounts_entry hmem
    rw [count_flatten_eq_countP _ _ hnodup] at hcount
    refine ⟨hcount, ?_⟩
    simp only
    rw [hcount, List.countP_eq_length_filter]
    congr 1
    apply List.filter_congr
    intro p _
    by_cases hin : entry.1 ∈ p.likedDiscoveries.getD []
    · simp [hin]
    · simp only [hin, decide_False, List.any_eq_false]
      intro x hx
      have : x ≠ entry.1 := fun h => hin (h ▸ hx)
      simpa using this

theorem getMostLikedDiscoveries_counts_witness :
    (LikeService.getMostLikedDiscoveries popularDb 2).map
      (fun e => (e.discoveryId, e.likeCount)) = [(9, 3), (3, 2)] ∧
    LikeService.getDiscoveryLikeCount popularDb 9 = 3 ∧
    (LikeService.getMostLikedDiscoveries popularDb 2).length ≤ (2 : Int).toNat ∧
    (LikeService.getMostLikedDiscoveries popularDb 2).Pairwise
      (fun a b => b.likeCount ≤ a.likeCount) ∧
    ∀ e ∈ LikeService.getMostLikedDiscoveries popularDb 2,
      e.likeCount = LikeService.getDiscoveryLikeCount popularDb e.discoveryId ∧
      e.likeCount =
        (popularDb.userPreferences.filter
          (fun p => decide (e.discoveryId ∈ p.likedDiscoveries.getD []))).length :=
  ⟨by decide, by decide,
    getMostLikedDiscoveries_counts popularDb 2 (by decide) (by decide)⟩

/-! ## The recommendation handlers of `discovery.controller.js` -/

open DiscoveryController (Request Response respond queryLimit getUserId IsNumeral IsNonNumeric
  IsDecimalDigit limitOrDefault getSimilarUsers getPersonalizedRecommendations)

theorem isWhiteSpace_of_digit {c : Char} (h : IsDecimalDigit c) : isWhiteSpace c = false := by
  unfold IsDecimalDigit at h
  unfold isWhiteSpace
  simp only [Bool.or_eq_false_iff, decide_eq_false_iff_not, List.mem_cons, List.mem_singleton,
    Bool.and_eq_false_iff, List.not_mem_nil, or_false]
  omega

theorem digitOf_ten_of_digit {c : Char} (h : IsDecimalDigit c) :
    digitOf 10 c = some (c.toNat - 48) := by
  unfold IsDecimalDigit at h
  have hlt : c.toNat - 48 < 10 := by omega
  simp [digitOf, h, hlt]

theorem digitOf_ten_of_not_digit {c : Char} (h : ¬ IsDecimalDigit c) : digitOf 10 c = none := by
  unfold IsDecimalDigit at h
  unfold digitOf
  simp only [h, if_false]
  split
  · next d hd =>
    split at hd
    · next h1 =>
      cases hd
      rw [if_neg (by omega)]
    · split at hd
      · next h2 =>
        cases hd
        rw [if_neg (by omega)]
      · cases hd
  · rfl

theorem leadingDigits_of_digits {cs : List Char} (h : ∀ c ∈ cs, IsDecimalDigit c) :
    leadingDigits 10 cs = cs.map (fun c => c.toNat - 48) := by
  induction cs with
  | nil => rfl
  | cons c cs ih =>
    simp only [leadingDigits, digitOf_ten_of_digit (h c (List.mem_cons_self _ _)), List.map_cons]
    rw [ih (fun d hd => h d (List.mem_cons_of_mem _ hd))]

theorem foldl_digits (ds : List Nat) (a : Nat) :
    ds.foldl (fun acc d => acc * 10 + d) a = a * 10 ^ ds.length + Nat.ofDigits 10 ds.reverse := by
  induction ds generalizing a with
  | nil => simp
  | cons d ds ih =>
    rw [List.foldl_cons, ih, List.reverse_cons, Nat.ofDigits_append, Nat.ofDigits_singleton,
      List.length_reverse, List.length_cons]
    ring

theorem char_ne_of_toNat {c d : Char} (h : c.toNat ≠ d.toNat) : c ≠ d :=
  fun hcd => h (hcd ▸ rfl)

/-- The built-in `parseInt` reads a decimal numeral as its value. -/
theorem parseInt_of_numeral {text : String} {n : Nat} (h : IsNumeral text n) :
    parseInt text = some (n : Int) := by
  obtain ⟨hne, hdigits, hvalue⟩ := h
  unfold parseInt
  cases hl : text.toList with
  | nil => exact absurd hl hne
  | cons c cs =>
    rw [hl] at hdigits hvalue
    have hc : IsDecimalDigit c := hdigits c (List.mem_cons_self _ _)
    have hcn : 48 ≤ c.toNat ∧ c.toNat ≤ 57 := hc
    have htrim : (c :: cs).dropWhile isWhiteSpace = c :: cs := by
      rw [List.dropWhile_cons, isWhiteSpace_of_digit hc]
      rfl
    have hminus : c ≠ '-' := char_ne_of_toNat (by
      have : ('-' : Char).toNat = 45 := rfl
      omega)
    have hplus : c ≠ '+' := char_ne_of_toNat (by
      have : ('+' : Char).toNat = 43 := rfl
      omega)
    have hhex : ¬ ((c :: cs).take 2 = ['0', 'x'] ∨ (c :: cs).take 2 = ['0', 'X']) := by
      cases cs with
      | nil => simp
      | cons c2 cs2 =>
        have hc2 : 48 ≤ c2.toNat ∧ c2.toNat ≤ 57 :=
          hdigits c2 (List.mem_cons_of_mem _ (List.mem_cons_self _ _))
        have hx : c2 ≠ 'x' := char_ne_of_toNat (by
          have : ('x' : Char).toNat = 120 := rfl
          omega)
        have hX : c2 ≠ 'X' := char_ne_of_toNat (by
          have : ('X' : Char).toNat = 88 := rfl
          omega)
        simp [hx, hX]
    simp only [htrim, List.head?_cons, Option.some.injEq, hminus, hplus, or_self, if_false,
      decide_False, hhex, Bool.false_eq_true]
    rw [leadingDigits_of_digits hdigits, foldl_digits, hvalue]
    simp

/-- The built-in `parseInt` gives `NaN` on a text that does not begin with a number. -/
theorem parseInt_of_nonNumeric {text : String} (h : IsNonNumeric text) :
    parseInt text = none := by
  unfold IsNonNumeric at h
  unfold parseInt
  cases hl : text.toList.dropWhile isWhiteSpace with
  | nil => simp [leadingDigits]
  | cons first more =>
    rw [hl] at h
    simp only [List.head?_cons, Option.some.injEq, List.tail_cons]
    by_cases hsign : first = '-' ∨ first = '+'
    · simp only [if_pos hsign] at h ⊢
      cases more with
      | nil => simp [leadingDigits]
      | cons c rest =>
        have hc := h c rest (by simp [hsign])
        have hzero : c ≠ '0' := fun h0 => hc (by rw [h0]; decide)
        simp [hzero, leadingDigits, digitOf_ten_of_not_digit hc]
    · simp only [if_neg hsign] at h ⊢
      have hc := h first more (by simp [hsign])
      have hzero : first ≠ '0' := fun h0 => hc (by rw [h0]; decide)
      simp [hzero, leadingDigits, digitOf_ten_of_not_digit hc]

/-- C26: every recommendation handler of an authenticated request answers with the result of
its service at the user of the request and the limit `parseInt(req.query.limit) || 10`.  That
limit is `n` when the parameter is a decimal numeral of a positive integer `n`, and it is the
default 10 when the parameter is absent, when it is non-numeric and when it is a numeral of
zero. -/
theorem handlers_pass_parsed_limit (db : Db) (req : Request) (userId : Nat)
    (hauth : req.userId = some userId) :
    (getSimilarUsers db req =
        respond none (RecommendationService.findSimilarUsers db userId (queryLimit req)) ∧
      DiscoveryController.getCollaborativeRecommendations db req =
        respond (some "collaborative_filtering")
          (RecommendationService.getCollaborativeRecommendations db userId (queryLimit req)) ∧
      DiscoveryController.getDiscoveryBasedRecommendations db req =
        respond (some "discovery_based")
          (RecommendationService.getDiscoveryBasedRecommendations db userId (queryLimit req)) ∧
      getPersonalizedRecommendations db req =
        respond (some "personalized_discoveries")
          (RecommendationService.getPersonalizedDiscoveries db userId (queryLimit req))) ∧
    (∀ text n, req.limit = some text → IsNumeral text n → 0 < n → queryLimit req = n) ∧
    (req.limit = none → queryLimit req = 10) ∧
    (∀ text, req.limit = some text → IsNonNumeric text → queryLimit req = 10) ∧
    (∀ text, req.limit = some text → IsNumeral text 0 → queryLimit req = 10) := by
  have huser : getUserId req = .ok userId := by
    unfold getUserId
    rw [hauth]
  refine ⟨⟨?_, ?_, ?_, ?_⟩, ?_, ?_, ?_, ?_⟩
  · unfold getSimilarUsers
    rw [huser]
    rfl
  · unfold DiscoveryController.getCollaborativeRecommendations
    rw [huser]
    rfl
  · unfold DiscoveryController.getDiscoveryBasedRecommendations
    rw [huser]
    rfl
  · unfold getPersonalizedRecommendations
    rw [huser]
    rfl
  · intro text n htext hnum hpos
    unfold queryLimit limitOrDefault
    rw [htext, Option.some_bind, parseInt_of_numeral hnum]
    have : (n : Int) ≠ 0 := by omega
    simp [this]
  · intro hnone
    unfold queryLimit
    rw [hnone]
    rfl
  · intro text htext hnon
    unfold queryLimit
    rw [htext, Option.some_bind, parseInt_of_nonNumeric hnon]
    rfl
  · intro text htext hnum
    unfold queryLimit
    rw [htext, Option.some_bind, parseInt_of_numeral hnum]
    rfl

theorem handlers_pass_parsed_limit_witness :
    IsNumeral "2" 2 ∧ IsNonNumeric "abc" ∧ IsNumeral "0" 0 ∧
    queryLimit limitTwoRequest = 2 ∧
    getSimilarUsers sampleDb limitTwoRequest =
      respond none (RecommendationService.findSimilarUsers sampleDb 1 2) ∧
    queryLimit ⟨some 1, none⟩ = 10 ∧
    queryLimit ⟨some 1, some "abc"⟩ = 10 ∧
    queryLimit ⟨some 1, some "0"⟩ = 10 :=
  ⟨by decide,
    fun c rest h => by
      cases h
      decide,
    by decide,
    (handlers_pass_parsed_limit sampleDb limitTwoRequest 1 rfl).2.1 "2" 2 rfl (by decide)
      (by decide),
    (handlers_pass_parsed_limit sampleDb limitTwoRequest 1 rfl).1.1,
    (handlers_pass_parsed_limit sampleDb ⟨some 1, none⟩ 1 rfl).2.2.1 rfl,
    (handlers_pass_parsed_limit sampleDb ⟨some 1, some "abc"⟩ 1 rfl).2.2.2.1 "abc" rfl
      (fun c rest h => by
        cases h
        decide),
    (handlers_pass_parsed_limit sampleDb ⟨some 1, some "0"⟩ 1 rfl).2.2.2.2 "0" rfl (by decide)⟩

/-- C27: when the service call of an authenticated request succeeds, the collaborative, the
discovery-based and the personalized handler answer with status 200, `success = true`, the
service result unchanged and in order as `data`, its length as `count`, and the `type`
`collaborative_filtering`, `discovery_based` and `personalized_discoveries` in turn; an empty
result gives `data = []` and `count = 0`. -/
theorem handlers_wrap_service_result (db : Db) (req : Request) (userId : Nat)
    (hauth : req.userId = some userId) :
    (∀ items,
      RecommendationService.getCollaborativeRecommendations db userId (queryLimit req) =
        .ok items →
      DiscoveryController.getCollaborativeRecommendations db req =
        { status := 200, success := true, data := some items, count := some items.length,
          type := some "collaborative_filtering", error := none }) ∧
    (∀ items,
      RecommendationService.getDiscoveryBasedRecommendations db userId (queryLimit req) =
        .ok items →
      DiscoveryController.getDiscoveryBasedRecommendations db req =
        { status := 200, success := true, data := some items, count := some items.length,
          type := some "discovery_based", error := none }) ∧
    (∀ items,
      RecommendationService.getPersonalizedDiscoveries db userId (queryLimit req) = .ok items →
      getPersonalizedRecommendations db req =
        { status := 200, success := true, data := some items, count := some items.length,
          type := some "personalized_discoveries", error := none }) ∧
    (RecommendationService.getCollaborativeRecommendations db userId (queryLimit req) = .ok [] →
      (DiscoveryController.getCollaborativeRecommendations db req).data = some [] ∧
      (DiscoveryController.getCollaborativeRecommendations db req).count = some 0) := by
  have huser : getUserId req = .ok userId := by
    unfold getUserId
    rw [hauth]
  have hcollaborative : ∀ items,
      RecommendationService.getCollaborativeRecommendations db userId (queryLimit req) =
        .ok items →
      DiscoveryController.getCollaborativeRecommendations db req =
        { status := 200, success := true, data := some items, count := some items.length,
          type := some "collaborative_filtering", error := none } := by
    intro items h
    unfold DiscoveryController.getCollaborativeRecommendations
    rw [huser]
    show respond _ (RecommendationService.getCollaborativeRecommendations db userId
      (queryLimit req)) = _
    rw [h]
    rfl
  refine ⟨hcollaborative, ?_, ?_, ?_⟩
  · intro items h
    unfold DiscoveryController.getDiscoveryBasedRecommendations
    rw [huser]
    show respond _ (RecommendationService.getDiscoveryBasedRecommendations db userId
      (queryLimit req)) = _
    rw [h]
    rfl
  · intro items h
    unfold getPersonalizedRecommendations
    rw [huser]
    show respond _ (RecommendationService.getPersonalizedDiscoveries db userId
      (queryLimit req)) = _
    rw [h]
    rfl
  · intro h
    rw [hcollaborative [] h]
    exact ⟨rfl, rfl⟩

theorem handlers_wrap_service_result_witness :
    (DiscoveryController.getCollaborativeRecommendations sampleDb limitTwoRequest).success =
      true ∧
    ((DiscoveryController.getCollaborativeRecommendations sampleDb limitTwoRequest).data.map
      (fun items => items.map (fun d => d.id))) = some [3] ∧
    (DiscoveryController.getCollaborativeRecommendations sampleDb limitTwoRequest).count =
      some 1 ∧
    (DiscoveryController.getCollaborativeRecommendations sampleDb limitTwoRequest).type =
      some "collaborative_filtering" ∧
    DiscoveryController.getCollaborativeRecommendations sampleDb limitTwoRequest =
      { status := 200, success := true, data := some [sampleDiscovery 3 3 false ["beach"]],
        count := some [sampleDiscovery 3 3 false ["beach"]].length,
        type := some "collaborative_filtering", error := none } ∧
    (DiscoveryController.getCollaborativeRecommendations pairDb limitTwoRequest).data = some [] ∧
    (DiscoveryController.getCollaborativeRecommendations pairDb limitTwoRequest).count = some 0 :=
  ⟨by decide!, by decide!, by decide!, by decide!,
    (handlers_wrap_service_result sampleDb limitTwoRequest 1 rfl).1 _ (by decide!),
    (handlers_wrap_service_result pairDb limitTwoRequest 1 rfl).2.2.2 (by decide!)⟩

/-! ## The update of a recommendation -/

theorem find?_map_replace (rows : List Recommendation) (id : Nat) (updated r : Recommendation)
    (hid : updated.id = id) (h : rows.find? (fun x => decide (x.id = id)) = some r) :
    (rows.map (fun x => if x.id = id then updated else x)).find? (fun x => decide (x.id = id)) =
      some updated := by
  induction rows with
  | nil => cases h
  | cons x xs ih =>
    by_cases hx : x.id = id
    · simp [List.find?_cons, hx, hid]
    · rw [List.find?_cons] at h
      simp only [hx, decide_False] at h
      simp only [List.map_cons, hx, if_false, List.find?_cons, decide_False]
      exact ih h

/-- A request body with the rating 7 is rejected although it carries no tags: the call fails
and the stored tags stay as they were. -/
theorem updateRecommendation_rejected_keeps_tags :
    overratedData.tags = TagsField.absent ∧
    updateRecommendation sampleIsUrl [sampleRecommendation] 1 overratedData =
      ([sampleRecommendation], .error "Validation error") ∧
    ((updateRecommendation sampleIsUrl [sampleRecommendation] 1 overratedData).1.map
      (fun r => r.tags)) = [["beach", "sunset"]] := by
  decide!

/-- C29: `updateRecommendation(id, data)` on an existing recommendation whose data the model
validators accept returns the updated row and stores it with `tags` empty whenever
`data.tags` is absent or not an array, whatever tags were stored before, and with `tags`
equal to `data.tags` when that is an array.  When the validators reject the data the call
fails and the rows stay as they were.  When no row has the id the result is `null` and the
rows stay as they were. -/
theorem updateRecommendation_tags (isUrl : String → Bool) (rows : List Recommendation)
    (id : Nat) (data : RecommendationData) :
    (∀ r, rows.find? (fun x => decide (x.id = id)) = some r →
      validateRecommendation isUrl data = true →
      ∃ updated, (updateRecommendation isUrl rows id data).2 = .ok (some updated) ∧
        (updateRecommendation isUrl rows id data).1.find? (fun x => decide (x.id = id)) =
          some updated ∧
        (data.tags = TagsField.absent ∨ data.tags = TagsField.notArray → updated.tags = []) ∧
        (∀ tags, data.tags = TagsField.array tags → updated.tags = tags) ∧
        (∀ title, data.title = some title → updated.title = title)) ∧
    (∀ r, rows.find? (fun x => decide (x.id = id)) = some r →
      validateRecommendation isUrl data = false →
      updateRecommendation isUrl rows id data = (rows, .error "Validation error")) ∧
    (rows.find? (fun x => decide (x.id = id)) = none →
      updateRecommendation isUrl rows id data = (rows, .ok none)) := by
  refine ⟨?_, ?_, ?_⟩
  · intro r hr hvalid
    have hid : r.id = id := by
      have := List.find?_some hr
      simpa using this
    unfold updateRecommendation
    rw [hr]
    simp only [hvalid, if_true]
    refine ⟨_, rfl, find?_map_replace rows id _ r hid hr, ?_, ?_, ?_⟩
    · rintro (h | h) <;> rw [h] <;> rfl
    · intro tags h
      rw [h]
      rfl
    · intro title h
      simp [writeRecommendation, h]
  · intro r hr hvalid
    unfold updateRecommendation
    rw [hr]
    simp [hvalid]
  · intro hr
    unfold updateRecommendation
    rw [hr]

theorem updateRecommendation_tags_witness :
    (updateRecommendation sampleIsUrl [sampleRecommendation] 1 titleOnlyData).1.map
      (fun r => (r.title, r.tags)) = [("Sunset cliff", [])] ∧
    (updateRecommendation sampleIsUrl [sampleRecommendation] 1 retaggedData).1.map
      (fun r => (r.title, r.tags)) = [("Sunset point", ["view", "quiet"])] ∧
    (∃ updated,
      (updateRecommendation sampleIsUrl [sampleRecommendation] 1 titleOnlyData).2 =
        .ok (some updated) ∧
      (updateRecommendation sampleIsUrl [sampleRecommendation] 1 titleOnlyData).1.find?
        (fun x => decide (x.id = 1)) = some updated ∧
      (titleOnlyData.tags = TagsField.absent ∨ titleOnlyData.tags = TagsField.notArray →
        updated.tags = []) ∧
      (∀ tags, titleOnlyData.tags = TagsField.array tags → updated.tags = tags) ∧
      (∀ title, titleOnlyData.title = some title → updated.title = title)) ∧
    updateRecommendation sampleIsUrl [sampleRecommendation] 1 overratedData =
      ([sampleRecommendation], .error "Validation error") ∧
    updateRecommendation sampleIsUrl [sampleRecommendation] 2 retaggedData =
      ([sampleRecommendation], .ok none) :=
  ⟨by decide!, by decide!,
    (updateRecommendation_tags sampleIsUrl [sampleRecommendation] 1 titleOnlyData).1
      sampleRecommendation (by decide!) (by decide!),
    (updateRecommendation_tags sampleIsUrl [sampleRecommendation] 1 overratedData).2.1
      sampleRecommendation (by decide!) (by decide!),
    (updateRecommendation_tags sampleIsUrl [sampleRecommendation] 2 retaggedData).2.2
      (by decide!)⟩

/-! ## Tracking events commute -/

theorem likeUpdates_eq_viewUpdates (p : UserPreferences) (e : BehaviorData) :
    likeUpdates p e = viewUpdates p (viewOf (.like e)) := by
  rw [viewUpdates_eq_fields]
  rfl

theorem searchUpdates_eq_viewUpdates (p : UserPreferences) (s : SearchData) :
    searchUpdates p s = viewUpdates p (viewOf (.search s)) := by
  rw [viewUpdates_eq_fields]
  rfl

theorem validate_of_isEmpty {u : Updates} (h : u.isEmpty = true) : validate u = true := by
  unfold Updates.isEmpty at h
  simp only [Bool.and_eq_true, Option.isNone_iff_eq_none] at h
  obtain ⟨⟨⟨⟨⟨⟨⟨h1, _⟩, h3⟩, h4⟩, h5⟩, _⟩, _⟩, _⟩ := h
  unfold validate
  rw [h1, h3, h4, h5]
  rfl

/-- The stored row after a tracking operation, whatever its outcome. -/
theorem tracked_rowAfter (words : String) (db : Db) (userId : Nat) (e : BehaviorData) :
    profileOf (rethrowWith words
        (saveUpdates (findOrCreate db userId).1 (findOrCreate db userId).2
          (viewUpdates (findOrCreate db userId).2 e))).1 userId =
      some (rowAfter (findOrCreate db userId).2 e) := by
  rcases tracked_outcome words db userId (viewUpdates (findOrCreate db userId).2 e) with
    ⟨_, h, hvalid⟩ | ⟨_, h, _, hvalid⟩
  · have hv : validate (viewUpdates (findOrCreate db userId).2 e) = true := by
      rcases hvalid with h1 | h1
      · exact validate_of_isEmpty h1
      · exact h1
    rw [h]
    unfold rowAfter
    rw [if_pos hv]
  · rw [h, profileOf_findOrCreate]
    unfold rowAfter
    rw [hvalid]
    rfl

theorem track_rowAfter (db : Db) (userId : Nat) (ev : TrackingEvent) :
    profileOf (track db userId ev).1 userId =
      some (rowAfter (findOrCreate db userId).2 (viewOf ev)) := by
  cases ev with
  | view e => exact tracked_rowAfter _ db userId e
  | like e =>
    have h := tracked_rowAfter "Error tracking like behavior: " db userId (viewOf (.like e))
    rw [← likeUpdates_eq_viewUpdates] at h
    exact h
  | search s =>
    have h := tracked_rowAfter "Error tracking search behavior: " db userId (viewOf (.search s))
    rw [← searchUpdates_eq_viewUpdates] at h
    exact h

theorem track_track_rowAfter (db : Db) (userId : Nat) (e1 e2 : TrackingEvent) :
    profileOf (track (track db userId e1).1 userId e2).1 userId =
      some (rowAfter (rowAfter (findOrCreate db userId).2 (viewOf e1)) (viewOf e2)) := by
  rw [track_rowAfter, findOrCreate_of_some (track_rowAfter db userId e1)]

theorem categories_ok_iff (current : List String) (value : Option String) :
    (match unionInto none current value with
      | some cs => cs.all (fun c => decide (c ∈ allowedCategories))
      | none => true) = true ↔
    ∀ c, truthyString value = some c →
      c ∈ current ∨ ((∀ x ∈ current, x ∈ allowedCategories) ∧ c ∈ allowedCategories) := by
  rw [unionInto_none_eq]
  cases h : truthyString value with
  | none => simp
  | some v =>
    by_cases hin : v ∈ current
    · simp [hin]
    · simp [hin, List.all_append]

theorem rating_ok_iff (stored rating : Option ℚ) :
    (match (match rating with
        | some r => if 4 < r then some (max (numberOr stored 3) (r - 1 / 2)) else none
        | none => none) with
      | some m => decide (0 ≤ m) && decide (m ≤ 5)
      | none => true) = true ↔
    ∀ r, rating = some r → 4 < r → numberOr stored 3 ≤ 5 ∧ r - 1 / 2 ≤ 5 := by
  cases rating with
  | none => simp
  | some r =>
    by_cases hr : 4 < r
    · have hpos : (0 : ℚ) ≤ max (numberOr stored 3) (r - 1 / 2) :=
        le_max_of_le_right (by linarith)
      simp only [hr, if_true, Bool.and_eq_true, decide_eq_true_eq, max_le_iff]
      constructor
      · intro h x hx _
        cases hx
        exact h.2
      · intro h
        exact ⟨hpos, h r rfl hr⟩
    · simp [hr]

theorem option_ok_iff (value : Option String) (allowed : List String) :
    (match truthyString value with
      | some b => decide (b ∈ allowed)
      | none => true) = true ↔
    ∀ b, truthyString value = some b → b ∈ allowed := by
  cases truthyString value with
  | none => simp
  | some v => simp

/-- What the model validators ask of the updates of a view event on a stored row. -/
theorem validate_viewUpdates_iff (p : UserPreferences) (e : BehaviorData) :
    validate (viewUpdates p e) = true ↔
      (∀ c, truthyString e.category = some c →
        c ∈ p.preferredCategories.getD [] ∨
          ((∀ x ∈ p.preferredCategories.getD [], x ∈ allowedCategories) ∧
            c ∈ allowedCategories)) ∧
      (∀ b, truthyString e.budget = some b → b ∈ allowedBudgets) ∧
      (∀ t, truthyString e.timeOfDay = some t → t ∈ allowedTimesOfDay) ∧
      (∀ r, e.rating = some r → 4 < r → numberOr p.minRating 3 ≤ 5 ∧ r - 1 / 2 ≤ 5) := by
  rw [viewUpdates_eq_fields]
  unfold validate
  simp only [Bool.and_eq_true]
  rw [categories_ok_iff, rating_ok_iff, option_ok_iff, option_ok_iff]
  tauto

theorem mem_union_written (stored : Option (List String)) (value : Option String) (x : String) :
    x ∈ (match unionInto none (stored.getD []) value with
        | some cs => some cs
        | none => stored).getD [] ↔ x ∈ stored.getD [] ∨ truthyString value = some x := by
  cases h : truthyString value with
  | some v =>
    rw [mem_union_result stored h]
    simp [eq_comm]
  | none =>
    rw [unionInto_none_eq, h]
    simp

theorem mem_categories_written (p : UserPreferences) (e : BehaviorData) (x : String) :
    x ∈ (applyUpdates p (viewUpdates p e)).preferredCategories.getD [] ↔
      x ∈ p.preferredCategories.getD [] ∨ truthyString e.category = some x := by
  rw [viewUpdates_eq_fields]
  exact mem_union_written p.preferredCategories e.category x

theorem mem_locations_written (p : UserPreferences) (e : BehaviorData) (x : String) :
    x ∈ (applyUpdates p (viewUpdates p e)).preferredLocations.getD [] ↔
      x ∈ p.preferredLocations.getD [] ∨ truthyString e.location = some x := by
  rw [viewUpdates_eq_fields]
  exact mem_union_written p.preferredLocations e.location x

theorem minRating_written (p : UserPreferences) (e : BehaviorData) :
    (applyUpdates p (viewUpdates p e)).minRating =
      match e.rating with
      | some r => if 4 < r then some (max (numberOr p.minRating 3) (r - 1 / 2)) else p.minRating
      | none => p.minRating := by
  rw [viewUpdates_eq_fields]
  cases e.rating with
  | none => rfl
  | some r =>
    by_cases hr : 4 < r
    · simp [applyUpdates, hr]
    · simp [applyUpdates, hr]

theorem numberOr_written (p : UserPreferences) (e : BehaviorData) :
    numberOr (applyUpdates p (viewUpdates p e)).minRating 3 =
      match e.rating with
      | some r => if 4 < r then max (numberOr p.minRating 3) (r - 1 / 2) else numberOr p.minRating 3
      | none => numberOr p.minRating 3 := by
  rw [minRating_written]
  cases e.rating with
  | none => rfl
  | some r =>
    by_cases hr : 4 < r
    · simp only [hr, if_true]
      exact numberOr_of_pos (lt_max_of_lt_right (by linarith)) 3
    · simp only [hr, if_false]

/-- Whether the validators accept an event does not depend on the events accepted before. -/
theorem validate_after (p : UserPreferences) (e1 e2 : BehaviorData) :
    validate (viewUpdates (rowAfter p e2) e1) = validate (viewUpdates p e1) := by
  unfold rowAfter
  by_cases hv2 : validate (viewUpdates p e2) = true
  · rw [if_pos hv2, Bool.eq_iff_iff, validate_viewUpdates_iff, validate_viewUpdates_iff]
    obtain ⟨h2c, _, _, h2r⟩ := (validate_viewUpdates_iff p e2).1 hv2
    refine and_congr ?_ (and_congr Iff.rfl (and_congr Iff.rfl ?_))
    · constructor
      · intro h c hc
        rcases h c hc with hin | ⟨hval, hcv⟩
        · rcases (mem_categories_written p e2 c).1 hin with h0 | h0
          · exact Or.inl h0
          · exact h2c c h0
        · exact Or.inr ⟨fun x hx => hval x ((mem_categories_written p e2 x).2 (Or.inl hx)), hcv⟩
      · intro h c hc
        rcases h c hc with hin | ⟨hval, hcv⟩
        · exact Or.inl ((mem_categories_written p e2 c).2 (Or.inl hin))
        · refine Or.inr ⟨fun x hx => ?_, hcv⟩
          rcases (mem_categories_written p e2 x).1 hx with h0 | h0
          · exact hval x h0
          · rcases h2c x h0 with h1 | h1
            · exact hval x h1
            · exact h1.2
    · have hN : numberOr (applyUpdates p (viewUpdates p e2)).minRating 3 ≤ 5 ↔
          numberOr p.minRating 3 ≤ 5 := by
        rw [numberOr_written]
        cases hr2 : e2.rating with
        | none => exact Iff.rfl
        | some r2 =>
          by_cases h4 : 4 < r2
          · simp only [h4, if_true, max_le_iff]
            have := h2r r2 hr2 h4
            tauto
          · simp only [h4, if_false]
      constructor
      · intro h r hr h4
        exact ⟨hN.1 (h r hr h4).1, (h r hr h4).2⟩
      · intro h r hr h4
        exact ⟨hN.2 (h r hr h4).1, (h r hr h4).2⟩
  · rw [if_neg hv2]

theorem rowAfter_of_rejected {p : UserPreferences} {e : BehaviorData}
    (h : ¬ validate (viewUpdates p e) = true) : rowAfter p e = p := by
  unfold rowAfter
  rw [if_neg h]

theorem rowAfter_of_accepted {p : UserPreferences} {e : BehaviorData}
    (h : validate (viewUpdates p e) = true) :
    rowAfter p e = applyUpdates p (viewUpdates p e) := by
  unfold rowAfter
  rw [if_pos h]

/-- A rejected event leaves no trace, before or after another event. -/
theorem rowAfter_swap_of_rejected (p : UserPreferences) (e1 e2 : BehaviorData)
    (h : ¬ validate (viewUpdates p e2) = true) :
    rowAfter (rowAfter p e1) e2 = rowAfter (rowAfter p e2) e1 := by
  rw [rowAfter_of_rejected h, rowAfter_of_rejected]
  rw [validate_after p e2 e1]
  exact h

theorem rowAfter_comm (p : UserPreferences) (e1 e2 : BehaviorData) :
    (∀ x, x ∈ (rowAfter (rowAfter p e1) e2).preferredCategories.getD [] ↔
      x ∈ (rowAfter (rowAfter p e2) e1).preferredCategories.getD []) ∧
    (∀ x, x ∈ (rowAfter (rowAfter p e1) e2).preferredLocations.getD [] ↔
      x ∈ (rowAfter (rowAfter p e2) e1).preferredLocations.getD []) ∧
    (rowAfter (rowAfter p e1) e2).minRating = (rowAfter (rowAfter p e2) e1).minRating ∧
    (rowAfter (rowAfter p e1) e2).instagrammable =
      (rowAfter (rowAfter p e2) e1).instagrammable ∧
    (rowAfter (rowAfter p e1) e2).trending = (rowAfter (rowAfter p e2) e1).trending ∧
    (rowAfter (rowAfter p e1) e2).exclusive = (rowAfter (rowAfter p e2) e1).exclusive := by
  by_cases a2 : validate (viewUpdates p e2) = true
  · by_cases a1 : validate (viewUpdates p e1) = true
    · have hA : rowAfter (rowAfter p e1) e2 =
          applyUpdates (rowAfter p e1) (viewUpdates (rowAfter p e1) e2) :=
        rowAfter_of_accepted ((validate_after p e2 e1).trans a2)
      have hB : rowAfter (rowAfter p e2) e1 =
          applyUpdates (rowAfter p e2) (viewUpdates (rowAfter p e2) e1) :=
        rowAfter_of_accepted ((validate_after p e1 e2).trans a1)
      rw [hA, hB]
      refine ⟨?_, ?_, ?_, ?_, ?_, ?_⟩
      · intro x
        rw [mem_categories_written, mem_categories_written, rowAfter_of_accepted a1,
          rowAfter_of_accepted a2, mem_categories_written, mem_categories_written]
        tauto
      · intro x
        rw [mem_locations_written, mem_locations_written, rowAfter_of_accepted a1,
          rowAfter_of_accepted a2, mem_locations_written, mem_locations_written]
        tauto
      · rw [minRating_written, minRating_written, rowAfter_of_accepted a1,
          rowAfter_of_accepted a2, numberOr_written, numberOr_written, minRating_written,
          minRating_written]
        cases e1.rating with
        | none =>
          cases e2.rating with
          | none => rfl
          | some r2 => rfl
        | some r1 =>
          cases e2.rating with
          | none => rfl
          | some r2 =>
            by_cases h1 : 4 < r1 <;> by_cases h2 : 4 < r2 <;>
              simp only [h1, h2, if_true, if_false, sup_right_comm]
      · show (e2.instagrammable || (rowAfter p e1).instagrammable) =
          (e1.instagrammable || (rowAfter p e2).instagrammable)
        rw [rowAfter_of_accepted a1, rowAfter_of_accepted a2]
        show (e2.instagrammable || (e1.instagrammable || p.instagrammable)) =
          (e1.instagrammable || (e2.instagrammable || p.instagrammable))
        exact Bool.or_left_comm _ _ _
      · show (e2.trending || (rowAfter p e1).trending) =
          (e1.trending || (rowAfter p e2).trending)
        rw [rowAfter_of_accepted a1, rowAfter_of_accepted a2]
        show (e2.trending || (e1.trending || p.trending)) =
          (e1.trending || (e2.trending || p.trending))
        exact Bool.or_left_comm _ _ _
      · show (e2.exclusive || (rowAfter p e1).exclusive) =
          (e1.exclusive || (rowAfter p e2).exclusive)
        rw [rowAfter_of_accepted a1, rowAfter_of_accepted a2]
        show (e2.exclusive || (e1.exclusive || p.exclusive)) =
          (e1.exclusive || (e2.exclusive || p.exclusive))
        exact Bool.or_left_comm _ _ _
    · rw [← rowAfter_swap_of_rejected p e2 e1 a1]
      exact ⟨fun _ => Iff.rfl, fun _ => Iff.rfl, rfl, rfl, rfl, rfl⟩
  · rw [rowAfter_swap_of_rejected p e1 e2 a2]
    exact ⟨fun _ => Iff.rfl, fun _ => Iff.rfl, rfl, rfl, rfl, rfl⟩

/-- C22: tracking events commute on what they accumulate.  For every state, user and two
tracking events of any kind, applying the first and then the second leaves a profile with the
same members of `preferredCategories` and of `preferredLocations`, the same `minRating` and
the same three flags as applying them in the other order; an event the validators reject
leaves no trace in either order. -/
theorem tracking_events_commute (db : Db) (userId : Nat) (e1 e2 : TrackingEvent) :
    ∃ pA pB,
      profileOf (track (track db userId e1).1 userId e2).1 userId = some pA ∧
      profileOf (track (track db userId e2).1 userId e1).1 userId = some pB ∧
      (∀ x, x ∈ pA.preferredCategories.getD [] ↔ x ∈ pB.preferredCategories.getD []) ∧
      (∀ x, x ∈ pA.preferredLocations.getD [] ↔ x ∈ pB.preferredLocations.getD []) ∧
      pA.minRating = pB.minRating ∧ pA.instagrammable = pB.instagrammable ∧
      pA.trending = pB.trending ∧ pA.exclusive = pB.exclusive :=
  ⟨_, _, track_track_rowAfter db userId e1 e2, track_track_rowAfter db userId e2 e1,
    rowAfter_comm (findOrCreate db userId).2 (viewOf e1) (viewOf e2)⟩

theorem tracking_events_commute_witness :
    (profileOf (track (track profileDb 1 (TrackingEvent.like adventureLike)).1 1
        (TrackingEvent.view ratedView)).1 1).map
      (fun p => (p.preferredCategories, p.preferredLocations, p.minRating)) =
        some (some ["adventure"], some ["Goa"], some (43 / 10)) ∧
    (profileOf (track (track profileDb 1 (TrackingEvent.like adventureLike)).1 1
        (TrackingEvent.like cultureLike)).1 1).map (fun p => p.preferredCategories) =
      some (some ["adventure", "culture"]) ∧
    (profileOf (track (track profileDb 1 (TrackingEvent.like cultureLike)).1 1
        (TrackingEvent.like adventureLike)).1 1).map (fun p => p.preferredCategories) =
      some (some ["culture", "adventure"]) ∧
    ∃ pA pB,
      profileOf (track (track profileDb 1 (TrackingEvent.like adventureLike)).1 1
        (TrackingEvent.like cultureLike)).1 1 = some pA ∧
      profileOf (track (track profileDb 1 (TrackingEvent.like cultureLike)).1 1
        (TrackingEvent.like adventureLike)).1 1 = some pB ∧
      (∀ x, x ∈ pA.preferredCategories.getD [] ↔ x ∈ pB.preferredCategories.getD []) ∧
      (∀ x, x ∈ pA.preferredLocations.getD [] ↔ x ∈ pB.preferredLocations.getD []) ∧
      pA.minRating = pB.minRating ∧ pA.instagrammable = pB.instagrammable ∧
      pA.trending = pB.trending ∧ pA.exclusive = pB.exclusive :=
  ⟨by decide!, by decide!, by decide!,
    tracking_events_commute profileDb 1 (TrackingEvent.like adventureLike)
      (TrackingEvent.like cultureLike)⟩

end Backend
